import Mathlib

/-!
# devspace: build change-detection and chart deployment

A shallow embedding of `BuildHelper.ShouldRebuild`
(`pkg/devspace/build/builder/helper/helper.go`) and of `DeployConfig.Deploy` /
`DeployConfig.internalDeploy` (`pkg/devspace/deploy/deployer/helm/deploy.go`).

Go functions that return `(value, error)` and mutate a cache record through a
pointer are embedded as functions returning a record that carries the returned
value, the returned error (`none` is Go's `nil`) and the cache record as it is
after the call.  Calls into the operating system, into third-party libraries
and into packages outside the embedded files are taken as fields of an
environment record.
-/

namespace Devspace

/-! ## Build change-detector -/

/-- The image cache record `generated.ImageCache`, as handed out by
`cache.GetImageCache(name)`. -/
structure ImageCache where
  ImageName : String
  Tag : String
  DockerfileHash : String
  ImageConfigHash : String
  ContextHash : String
  EntrypointHash : String
deriving DecidableEq, Repr

/-- The rebuild strategies `latest.RebuildStrategy` that `ShouldRebuild`
distinguishes. -/
inductive RebuildStrategy where
  | Default
  | Always
  | IgnoreContextChanges
deriving DecidableEq, Repr

/-- The fields of `BuildHelper` that `ShouldRebuild` reads.  `KubeClient` holds
the value of `CurrentContext()` when a client is present. -/
structure BuildHelper where
  ImageConfigName : String
  RebuildStrategy : RebuildStrategy
  DockerfilePath : String
  ContextPath : String
  Entrypoint : List String
  Cmd : List String
  KubeClient : Option String

/-- What `ShouldRebuild` calls outside its own file: the filesystem, the yaml
marshaller, the hash package, the docker build helpers and the local-cluster
predicate. -/
structure BuildEnv where
  -- `os.Stat(path)`: the error, `none` when the path exists.
  stat : String → Option String
  -- `hash.Directory(path)`.
  hashDirectory : String → Except String String
  -- `yaml.Marshal(*b.ImageConf)`.
  marshalImageConf : Except String String
  -- `hash.String(s)`.
  hashString : String → String
  -- `cache.LastContext.Context`, `none` when `cache.LastContext` is nil.
  LastContext : Option String
  -- `kubectl.IsLocalKubernetes(context)`.
  IsLocalKubernetes : String → Bool
  -- `build.GetContextFromLocalDir(contextPath, dockerfilePath)`.
  GetContextFromLocalDir : String → String → Except String (String × String)
  -- `archive.CanonicalTarNameForPath(path)`.
  CanonicalTarNameForPath : String → String
  -- `ReadDockerignore(contextDir, relDockerfile)`.
  ReadDockerignore : String → String → Except String (List String)
  -- `hash.DirectoryExcludes(contextDir, excludes, false)`.
  DirectoryExcludes : String → List String → Except String String

/-- What a call of `ShouldRebuild` leaves behind: the returned pair and the
image cache record after the call. -/
structure RebuildResult where
  mustRebuild : Bool
  err : Option String
  imageCache : ImageCache
deriving DecidableEq, Repr

/-- The entrypoint hash of `ShouldRebuild` (helper.go, lines 139-153): the
tokens of the entrypoint and then of the cmd are appended to an initially empty
string, which is hashed unless it is empty. -/
def entrypointHashOf (hashString : String → String) (entrypoint cmd : List String) : String :=
  let s₀ := ""
  let s₁ := if entrypoint.length > 0 then entrypoint.foldl (fun acc str => acc ++ str) s₀ else s₀
  let s₂ := if cmd.length > 0 then cmd.foldl (fun acc str => acc ++ str) s₁ else s₁
  if s₂ ≠ "" then hashString s₂ else s₂

/-- The drift check of `ShouldRebuild` (helper.go, line 169). -/
def contextDrift (env : BuildEnv) (b : BuildHelper) : Bool :=
  match b.KubeClient, env.LastContext with
  | some current, some last => last != current && env.IsLocalKubernetes last
  | _, _ => false

/-- The context hash of `ShouldRebuild` (helper.go, lines 177-191), with the
error each failing step returns. -/
def contextHashOf (env : BuildEnv) (b : BuildHelper) : Except String String :=
  match env.GetContextFromLocalDir b.ContextPath b.DockerfilePath with
  | .error e => .error ("get context from local dir: " ++ e)
  | .ok (contextDir, relDockerfile) =>
    let relDockerfile := env.CanonicalTarNameForPath relDockerfile
    match env.ReadDockerignore contextDir relDockerfile with
    | .error e => .error ("Error reading .dockerignore: " ++ e)
    | .ok excludes =>
      match env.DirectoryExcludes contextDir excludes with
      | .error e => .error ("Error hashing " ++ contextDir ++ ": " ++ e)
      | .ok h => .ok h

/-- The method `BuildHelper.ShouldRebuild` (helper.go, lines 112-215);
`imageCache` is the record `cache.GetImageCache(b.ImageConfigName)`. -/
def ShouldRebuild (env : BuildEnv) (b : BuildHelper) (imageCache : ImageCache)
    (forceRebuild : Bool) : RebuildResult :=
  if b.RebuildStrategy = .Always then
    ⟨true, none, imageCache⟩
  else
    match env.stat b.DockerfilePath with
    | some e => ⟨false, some ("Dockerfile " ++ b.DockerfilePath ++ " missing: " ++ e), imageCache⟩
    | none =>
    match env.hashDirectory b.DockerfilePath with
    | .error e => ⟨false, some ("hash dockerfile: " ++ e), imageCache⟩
    | .ok dockerfileHash =>
    match env.marshalImageConf with
    | .error e => ⟨false, some ("marshal image config: " ++ e), imageCache⟩
    | .ok configStr =>
    let imageConfigHash := env.hashString configStr
    let entrypointHash := entrypointHashOf env.hashString b.Entrypoint b.Cmd
    let mustRebuild : Bool :=
      imageCache.Tag == "" || imageCache.DockerfileHash != dockerfileHash
        || imageCache.ImageConfigHash != imageConfigHash
        || imageCache.EntrypointHash != entrypointHash
    let mustRebuild : Bool := if contextDrift env b then true else mustRebuild
    if b.RebuildStrategy ≠ .IgnoreContextChanges then
      match contextHashOf env b with
      | .error e => ⟨false, some e, imageCache⟩
      | .ok contextHash =>
        let mustRebuild : Bool := mustRebuild || imageCache.ContextHash != contextHash
        let imageCache : ImageCache :=
          if forceRebuild || mustRebuild then { imageCache with ContextHash := contextHash }
          else imageCache
        let imageCache : ImageCache :=
          if forceRebuild || mustRebuild then
            { imageCache with
              DockerfileHash := dockerfileHash
              ImageConfigHash := imageConfigHash
              EntrypointHash := entrypointHash }
          else imageCache
        ⟨mustRebuild, none, imageCache⟩
    else
      let imageCache : ImageCache :=
        if forceRebuild || mustRebuild then
          { imageCache with
            DockerfileHash := dockerfileHash
            ImageConfigHash := imageConfigHash
            EntrypointHash := entrypointHash }
        else imageCache
      ⟨mustRebuild, none, imageCache⟩

/-- The decision of `ShouldRebuild` before the build context is looked at
(helper.go, lines 156-172). -/
def rebuildBeforeContext (env : BuildEnv) (b : BuildHelper) (imageCache : ImageCache)
    (dockerfileHash configStr : String) : Bool :=
  if contextDrift env b then true
  else
    (imageCache.Tag == "" || imageCache.DockerfileHash != dockerfileHash
      || imageCache.ImageConfigHash != env.hashString configStr
      || imageCache.EntrypointHash != entrypointHashOf env.hashString b.Entrypoint b.Cmd)

/-! ## Concrete runs of the build change-detector -/

/-- A filesystem where every step of `ShouldRebuild` succeeds; the last build
went to the local cluster `minikube`. -/
def exampleBuildEnv : BuildEnv where
  stat := fun _ => none
  hashDirectory := fun path => .ok ("dir:" ++ path)
  marshalImageConf := .ok "image: app"
  hashString := fun str => "sha:" ++ str
  LastContext := some "minikube"
  IsLocalKubernetes := fun context => context == "minikube" || context == "docker-desktop"
  GetContextFromLocalDir := fun contextPath dockerfilePath => .ok (contextPath, dockerfilePath)
  CanonicalTarNameForPath := fun path => path
  ReadDockerignore := fun _ _ => .ok []
  DirectoryExcludes := fun contextDir _ => .ok ("ctx:" ++ contextDir)

/-- A filesystem without the Dockerfile and with a build context that cannot
be resolved. -/
def exampleBrokenEnv : BuildEnv :=
  { exampleBuildEnv with
    stat := fun _ => some "no such file or directory"
    hashDirectory := fun _ => .error "no such file or directory"
    GetContextFromLocalDir := fun _ _ => .error "unable to prepare context" }

/-- A build helper with the default strategy, working on the cluster the last
build went to. -/
def exampleBuildHelper : BuildHelper where
  ImageConfigName := "app"
  RebuildStrategy := .Default
  DockerfilePath := "Dockerfile"
  ContextPath := "."
  Entrypoint := ["sh"]
  Cmd := ["-c"]
  KubeClient := some "minikube"

/-- The record a build of `exampleBuildHelper` in `exampleBuildEnv` leaves. -/
def exampleImageCache : ImageCache where
  ImageName := "registry/app"
  Tag := "v1"
  DockerfileHash := "dir:Dockerfile"
  ImageConfigHash := "sha:image: app"
  ContextHash := "ctx:."
  EntrypointHash := "sha:sh-c"

/-- A record of an earlier build of other sources. -/
def exampleStaleCache : ImageCache where
  ImageName := "registry/app"
  Tag := "v0"
  DockerfileHash := "dir:old"
  ImageConfigHash := "sha:old"
  ContextHash := "ctx:old"
  EntrypointHash := ""

/-! ## Chart deployment engine -/

/-- The deployment cache record `generated.DeploymentCache`, as handed out by
`GetDeploymentCache(name)`: the fields the chart engine reads and writes. -/
structure DeploymentCache where
  DeploymentConfigHash : String
  HelmChartHash : String
  HelmOverridesHash : String
  HelmReleaseRevision : String
deriving DecidableEq, Repr

/-- A release `types.Release` as the chart tool reports it. -/
structure Release where
  Name : String
  Status : String
  Revision : String
deriving DecidableEq, Repr

/-- The built-images map `map[string]string`. -/
abbrev BuiltImages := List (String × String)

/-- A call on the chart client, recorded in the order it is made. -/
inductive HelmCall (V : Type) where
  | ListReleases
  | Template (releaseName releaseNamespace : String) (values : V)
  | InstallChart (releaseName releaseNamespace : String) (values : V)
deriving DecidableEq, Repr

/-- The chart client `types.Client` over override values of type `V`: what each
of its methods returns.  `InstallChart` returns a release pointer, which may be
nil, and an error. -/
structure HelmClient (V : Type) where
  ListReleases : List Release × Option String
  Template : String → String → V → Except String String
  InstallChart : String → String → V → Except String (Option Release)

/-- The fields of `DeployConfig` and of its `DeploymentConfig` that the chart
engine reads.  `ChartName` is `Helm.Chart.Name`, `Values` is nil when `none`,
`ReplaceImageTags` is the optional toggle, `Helm` the client, nil when
`none`. -/
structure DeployConfig (V : Type) where
  Name : String
  Namespace : String
  ChartName : String
  ValuesFiles : List String
  Values : Option V
  ReplaceImageTags : Option Bool
  Helm : Option (HelmClient V)

/-- What the chart engine calls outside its own file. -/
structure HelmEnv (V : Type) where
  -- `os.Stat(path)`: the error, `none` when the path exists.
  stat : String → Option String
  -- `hashpkg.Directory(path)`.
  hashDirectory : String → Except String String
  -- `yaml.Marshal(d.DeploymentConfig)`.
  marshalDeploymentConfig : Except String String
  -- `hashpkg.String(s)`.
  hashString : String → String
  -- `helm.NewClient(...)`.
  NewClient : Except String (HelmClient V)
  -- `filepath.Join(a, b)`.
  filepathJoin : String → String → String
  -- `filepath.Abs(path)`.
  filepathAbs : String → Except String String
  -- `yamlutil.ReadYamlFromFile(path, m)` on an empty map `m`: the map after
  -- the call and the returned error.
  ReadYamlFromFile : String → V × Option String
  -- the empty map `map[interface{}]interface{}{}`.
  emptyValues : V
  -- `merge.Values(a).MergeInto(b)`: the map `a` after the call.
  MergeInto : V → V → V
  -- `ansi.Color(s, style)`.
  ansiColor : String → String → String
  -- `util.ReplaceImageNames(values, config, dependencies, builtImages, nil)`:
  -- whether a redeploy is required and the map after the call.
  ReplaceImageNames : V → BuiltImages → Except String (Bool × V)

/-- What a call of `internalDeploy` leaves behind: the returned triple, the
text written to the output stream and the client calls made. -/
structure InternalDeployResult (V : Type) where
  wasDeployed : Bool
  release : Option Release
  err : Option String
  written : String
  calls : List (HelmCall V)

/-- What a call of `Deploy` leaves behind: the returned pair, the deployment
cache record and the client field after the call, and the client calls made. -/
structure DeployResult (V : Type) where
  deployed : Bool
  err : Option String
  deployCache : DeploymentCache
  Helm : Option (HelmClient V)
  calls : List (HelmCall V)

/-- The loop over the values files in `Deploy` (deploy.go, lines 44-54), from
the hash accumulated so far. -/
def overridesHash {V : Type} (env : HelmEnv V) : List String → String → Except String String
  | [], acc => .ok acc
  | override :: rest, acc =>
    match env.hashDirectory override with
    | .error e => .error ("Error stating override file " ++ override ++ ": " ++ e)
    | .ok hash => overridesHash env rest (acc ++ hash)

/-- The loop over the values files in `internalDeploy` (deploy.go, lines
131-146), from the override values merged so far; a file that fails to read is
logged and what was read of it is merged all the same. -/
def loadValuesFiles {V : Type} (env : HelmEnv V) : List String → V → Except String V
  | [], overwriteValues => .ok overwriteValues
  | overridePath :: rest, overwriteValues =>
    match env.filepathAbs overridePath with
    | .error e => .error ("Error retrieving absolute path from " ++ overridePath ++ ": " ++ e)
    | .ok overwriteValuesPath =>
      let overwriteValuesFromPath := (env.ReadYamlFromFile overwriteValuesPath).1
      loadValuesFiles env rest (env.MergeInto overwriteValues overwriteValuesFromPath)

/-- Whether image-tag substitution runs (deploy.go, line 154). -/
def replaceImageTagsEnabled {V : Type} (d : DeployConfig V) : Bool :=
  match d.ReplaceImageTags with
  | none => true
  | some b => b

/-- The override values of `internalDeploy` before image substitution
(deploy.go, lines 115-151): the chart's own values when they exist, the values
files in order, then the inline values. -/
def mergedValues {V : Type} (env : HelmEnv V) (d : DeployConfig V) : Except String V :=
  let chartValuesPath := env.filepathJoin d.ChartName "values.yaml"
  let fromChart : Except String V :=
    match env.stat chartValuesPath with
    | none =>
      match env.ReadYamlFromFile chartValuesPath with
      | (_, some e) =>
        .error ("Couldn't deploy chart, error reading from chart values "
          ++ chartValuesPath ++ ": " ++ e)
      | (v, none) => .ok v
    | some _ => .ok env.emptyValues
  match fromChart with
  | .error e => .error e
  | .ok overwriteValues =>
    match loadValuesFiles env d.ValuesFiles overwriteValues with
    | .error e => .error e
    | .ok overwriteValues =>
      match d.Values with
      | some values => .ok (env.MergeInto overwriteValues values)
      | none => .ok overwriteValues

/-- The image-tag substitution of `internalDeploy` (deploy.go, lines 154-159)
on the merged override values: whether a redeploy is asked for and the values
after it; without substitution no redeploy is asked for and the values stay. -/
def replaceImages {V : Type} (env : HelmEnv V) (d : DeployConfig V) (builtImages : BuiltImages)
    (overwriteValues : V) : Except String (Bool × V) :=
  if replaceImageTagsEnabled d then
    match env.ReplaceImageNames overwriteValues builtImages with
    | .error e => .error e
    | .ok (shouldRedeploy, values) => .ok (shouldRedeploy, values)
  else .ok (false, overwriteValues)

/-- The method `DeployConfig.internalDeploy` (deploy.go, lines 110-198) on the
client `helm`; `out` tells whether an output stream is given. -/
def internalDeploy {V : Type} (env : HelmEnv V) (d : DeployConfig V) (helm : HelmClient V)
    (forceDeploy : Bool) (builtImages : BuiltImages) (out : Bool) : InternalDeployResult V :=
  let releaseName := d.Name
  let releaseNamespace := d.Namespace
  match mergedValues env d with
  | .error e => ⟨false, none, some e, "", []⟩
  | .ok overwriteValues =>
    match replaceImages env d builtImages overwriteValues with
    | .error e => ⟨false, none, some e, "", []⟩
    | .ok (shouldRedeploy, overwriteValues) =>
      let forceDeploy : Bool := if !forceDeploy && shouldRedeploy then true else forceDeploy
      if !forceDeploy then ⟨false, none, none, "", []⟩
      else if out then
        match helm.Template releaseName releaseNamespace overwriteValues with
        | .error e =>
          ⟨false, none, some e, "", [.Template releaseName releaseNamespace overwriteValues]⟩
        | .ok str =>
          ⟨true, none, none, "\n" ++ str ++ "\n",
            [.Template releaseName releaseNamespace overwriteValues]⟩
      else
        match helm.InstallChart releaseName releaseNamespace overwriteValues with
        | .error e =>
          ⟨false, none,
            some ("Unable to deploy helm chart: " ++ e ++ "\nRun `"
              ++ env.ansiColor ("devspace purge -d " ++ d.Name) "white+b" ++ "` and `"
              ++ env.ansiColor "devspace deploy" "white+b" ++ "` to recreate the chart"),
            "", [.InstallChart releaseName releaseNamespace overwriteValues]⟩
        | .ok appRelease =>
          ⟨true, appRelease, none, "", [.InstallChart releaseName releaseNamespace overwriteValues]⟩

/-- The chart hash of `Deploy` (deploy.go, lines 27-38): empty unless the
chart path exists. -/
def chartHash {V : Type} (env : HelmEnv V) (d : DeployConfig V) : Except String String :=
  match env.stat d.ChartName with
  | some _ => .ok ""
  | none =>
    match env.hashDirectory d.ChartName with
    | .error e => .error ("Error hashing chart directory: " ++ e)
    | .ok hash => .ok hash

/-- The release cross-check of `Deploy` (deploy.go, lines 80-86): deploy unless
a listed release has the release name and the cached revision. -/
def noMatchingRelease (releases : List Release) (releaseName revision : String) : Bool :=
  !(releases.any (fun release => release.Name == releaseName && release.Revision == revision))

/-- The client `Deploy` works with (deploy.go, lines 65-70): the one the
deployer carries, or a newly created one. -/
def helmClient {V : Type} (env : HelmEnv V) (d : DeployConfig V) : Except String (HelmClient V) :=
  match d.Helm with
  | some helm => .ok helm
  | none =>
    match env.NewClient with
    | .error e => .error ("Error creating helm client: " ++ e)
    | .ok helm => .ok helm

/-- The redeploy check of `Deploy` (deploy.go, lines 74-87) on the flag
`forceDeploy` of line 73: the flag after the check and the client calls made,
or the error of the release listing. -/
def checkReleases {V : Type} (helm : HelmClient V) (releaseName revision : String)
    (forceDeploy : Bool) : Except String (Bool × List (HelmCall V)) :=
  if !forceDeploy then
    match helm.ListReleases with
    | (_, some e) => .error e
    | (releases, none) => .ok (noMatchingRelease releases releaseName revision, [.ListReleases])
  else .ok (forceDeploy, [])

/-- The cache update of `Deploy` (deploy.go, lines 97-102). -/
def updateDeployCache (deployCache : DeploymentCache)
    (deploymentConfigHash hash helmOverridesHash : String) (release : Option Release) :
    DeploymentCache :=
  let deployCache : DeploymentCache :=
    { deployCache with
      DeploymentConfigHash := deploymentConfigHash
      HelmChartHash := hash
      HelmOverridesHash := helmOverridesHash }
  match release with
  | some release => { deployCache with HelmReleaseRevision := release.Revision }
  | none => deployCache

/-- The flag `forceDeploy` of `Deploy` after deploy.go, line 73. -/
def forceOrChanged (deployCache : DeploymentCache) (forceDeploy : Bool)
    (deploymentConfigHash hash helmOverridesHash : String) : Bool :=
  forceDeploy || deployCache.HelmOverridesHash != helmOverridesHash
    || deployCache.HelmChartHash != hash
    || deployCache.DeploymentConfigHash != deploymentConfigHash

/-- The method `DeployConfig.Deploy` from the redeploy check on (deploy.go,
lines 72-108), on the client and the three hashes computed before. -/
def deployWith {V : Type} (env : HelmEnv V) (d : DeployConfig V) (deployCache : DeploymentCache)
    (helm : HelmClient V) (deploymentConfigHash hash helmOverridesHash : String)
    (forceDeploy : Bool) (builtImages : BuiltImages) : DeployResult V :=
  let releaseName := d.Name
  let forceDeploy :=
    forceOrChanged deployCache forceDeploy deploymentConfigHash hash helmOverridesHash
  match checkReleases helm releaseName deployCache.HelmReleaseRevision forceDeploy with
  | .error e => ⟨false, some e, deployCache, some helm, [.ListReleases]⟩
  | .ok (forceDeploy, calls) =>
    let r := internalDeploy env d helm forceDeploy builtImages false
    match r.err with
    | some e => ⟨false, some e, deployCache, some helm, calls ++ r.calls⟩
    | none =>
      if r.wasDeployed then
        ⟨true, none,
          updateDeployCache deployCache deploymentConfigHash hash helmOverridesHash r.release,
          some helm, calls ++ r.calls⟩
      else ⟨false, none, deployCache, some helm, calls ++ r.calls⟩

/-- The deployment config hash of `Deploy` (deploy.go, lines 57-62). -/
def deploymentConfigHash {V : Type} (env : HelmEnv V) : Except String String :=
  match env.marshalDeploymentConfig with
  | .error e => .error ("marshal deployment config: " ++ e)
  | .ok configStr => .ok (env.hashString configStr)

/-- The method `DeployConfig.Deploy` (deploy.go, lines 23-108); `deployCache`
is the record `GetDeploymentCache(d.DeploymentConfig.Name)`. -/
def Deploy {V : Type} (env : HelmEnv V) (d : DeployConfig V) (deployCache : DeploymentCache)
    (forceDeploy : Bool) (builtImages : BuiltImages) : DeployResult V :=
  match chartHash env d with
  | .error e => ⟨false, some e, deployCache, d.Helm, []⟩
  | .ok hash =>
  match overridesHash env d.ValuesFiles "" with
  | .error e => ⟨false, some e, deployCache, d.Helm, []⟩
  | .ok helmOverridesHash =>
  match deploymentConfigHash env with
  | .error e => ⟨false, some e, deployCache, d.Helm, []⟩
  | .ok deploymentConfigHash =>
  match helmClient env d with
  | .error e => ⟨false, some e, deployCache, d.Helm, []⟩
  | .ok helm =>
    deployWith env d deployCache helm deploymentConfigHash hash helmOverridesHash
      forceDeploy builtImages

/-- Whether image-tag substitution asks for a redeploy (deploy.go, lines
154-163) on the merged override values. -/
def substitutionRedeploys {V : Type} (env : HelmEnv V) (d : DeployConfig V)
    (builtImages : BuiltImages) : Bool :=
  match mergedValues env d with
  | .error _ => false
  | .ok overwriteValues =>
    match replaceImages env d builtImages overwriteValues with
    | .error _ => false
    | .ok (shouldRedeploy, _) => shouldRedeploy

/-! ## Concrete runs of the chart deployment engine -/

/-- Override values for the concrete runs: a flat list of keys and values. -/
abbrev ExampleValues := List (String × String)

/-- A merge for the concrete runs: the keys of the second map win. -/
def exampleMerge (a b : ExampleValues) : ExampleValues :=
  b ++ a.filter (fun kv => !(b.any (fun kw => kw.1 == kv.1)))

/-- A chart client with the release `deploy1` live at revision 1, whose
install returns the release at revision 2. -/
def exampleHelmClient : HelmClient ExampleValues where
  ListReleases := ([⟨"deploy1", "DEPLOYED", "1"⟩], none)
  Template := fun releaseName _ _ => .ok ("# " ++ releaseName)
  InstallChart := fun releaseName _ _ => .ok (some ⟨releaseName, "DEPLOYED", "2"⟩)

/-- A chart client whose install succeeds and returns no release. -/
def exampleSilentClient : HelmClient ExampleValues :=
  { exampleHelmClient with InstallChart := fun _ _ _ => .ok none }

/-- A chart client whose release listing and install both fail. -/
def exampleFailingClient : HelmClient ExampleValues :=
  { exampleHelmClient with
    ListReleases := ([], some "cluster unreachable")
    InstallChart := fun _ _ _ => .error "timed out" }

/-- An environment with a local chart `chart` and a values file
`values.yaml`; substitution asks for a redeploy when a value names a built
image. -/
def exampleHelmEnv : HelmEnv ExampleValues where
  stat := fun path =>
    if path == "chart" || path == "chart/values.yaml" then none
    else some "no such file or directory"
  hashDirectory := fun path => .ok ("dir:" ++ path)
  marshalDeploymentConfig := .ok "name: deploy1"
  hashString := fun str => "sha:" ++ str
  NewClient := .ok exampleHelmClient
  filepathJoin := fun a b => a ++ "/" ++ b
  filepathAbs := fun path => .ok ("/work/" ++ path)
  ReadYamlFromFile := fun path =>
    if path == "chart/values.yaml" then ([("replicas", "1")], none)
    else if path == "/work/values.yaml" then ([("replicas", "2")], none)
    else ([], some "no such file or directory")
  emptyValues := []
  MergeInto := exampleMerge
  ansiColor := fun str _ => str
  ReplaceImageNames := fun values builtImages =>
    .ok (values.any (fun kv => builtImages.any (fun image => image.1 == kv.2)),
      values.map (fun kv =>
        match builtImages.lookup kv.2 with
        | some tag => (kv.1, kv.2 ++ ":" ++ tag)
        | none => kv))

/-- The deployment `deploy1` of the chart `chart` with one values file and the
inline value `image: app`. -/
def exampleDeployConfig : DeployConfig ExampleValues where
  Name := "deploy1"
  Namespace := "default"
  ChartName := "chart"
  ValuesFiles := ["values.yaml"]
  Values := some [("image", "app")]
  ReplaceImageTags := none
  Helm := some exampleHelmClient

/-- The record a deploy of `exampleDeployConfig` left at revision 1: all three
hashes are current. -/
def exampleDeployCache : DeploymentCache where
  DeploymentConfigHash := "sha:name: deploy1"
  HelmChartHash := "dir:chart"
  HelmOverridesHash := "dir:values.yaml"
  HelmReleaseRevision := "1"

/-! ## Sources of the override values -/

/-- The chart's own values as `internalDeploy` takes them (deploy.go, lines
121-128): what is read of `values.yaml` under the chart path when that file
exists, nothing otherwise. -/
def chartDefaults {V : Type} (env : HelmEnv V) (d : DeployConfig V) : Option V :=
  match env.stat (env.filepathJoin d.ChartName "values.yaml") with
  | none => some (env.ReadYamlFromFile (env.filepathJoin d.ChartName "values.yaml")).1
  | some _ => none

/-- What `internalDeploy` merges for the values file `overridePath` (deploy.go,
lines 133-144): what was read of the file at its absolute path, whether the
read returned an error or not. -/
def valuesFileContent {V : Type} (env : HelmEnv V) (overridePath : String) : V :=
  match env.filepathAbs overridePath with
  | .ok overwriteValuesPath => (env.ReadYamlFromFile overwriteValuesPath).1
  | .error _ => env.emptyValues

/-- The sources of the override values in the order `internalDeploy` takes
them up (deploy.go, lines 121-151): the chart's own values, the values files
in the order given, the inline values. -/
def overrideSources {V : Type} (env : HelmEnv V) (d : DeployConfig V) : List V :=
  (chartDefaults env d).toList ++ d.ValuesFiles.map (valuesFileContent env) ++ d.Values.toList

/-- The value of a key by precedence, in the spec's words: of sources listed
from the lowest to the highest precedence, the highest one that sets the key
gives its value. -/
def valueByPrecedence {V K X : Type} (get : V → K → Option X) (sources : List V) (k : K) :
    Option X :=
  sources.reverse.findSome? (fun source => get source k)

/-- Modelled from the spec: `merge.Values(a).MergeInto(b)` of the package
`deployer/helm/merge`, and the lookup of a key in override values, are not
among the sources. In the spec's words later values override earlier ones:
after `b` is merged into `a`, a key that `b` sets has the value `b` gives it
and every other key keeps the value `a` gives it; the empty map sets no key. -/
structure KeywiseOverride {V K X : Type} (env : HelmEnv V) (get : V → K → Option X) : Prop where
  get_empty : ∀ k, get env.emptyValues k = none
  get_merge : ∀ a b k, get (env.MergeInto a b) k = (get b k).or (get a k)

/-- Modelled from the spec: `hash.String` of the content hasher (package
`util/hash`) is not among the sources. The hash of a serialized structure is a
digest of it, and the spec's chart deploy without prior cache records a
non-empty one: the hash of a string is never the empty string. -/
def HashNonEmpty (hashString : String → String) : Prop :=
  ∀ str, hashString str ≠ ""

/-- Override values for the concrete runs of the precedence: a map from keys
to values. -/
abbrev KeyedValues := String → Option String

/-- A chart client for keyed values, whose install returns the release at
revision 1. -/
def exampleKeyedClient : HelmClient KeyedValues where
  ListReleases := ([], none)
  Template := fun releaseName _ _ => .ok ("# " ++ releaseName)
  InstallChart := fun releaseName _ _ => .ok (some ⟨releaseName, "DEPLOYED", "1"⟩)

/-- An environment over keyed values: the chart sets `replicas` and `port`,
the file `a.yaml` sets `replicas` and `tag`, the file `b.yaml` sets `tag`, and
`broken.yaml` cannot be read. -/
def exampleKeyedEnv : HelmEnv KeyedValues where
  stat := fun path =>
    if path == "chart" || path == "chart/values.yaml" then none
    else some "no such file or directory"
  hashDirectory := fun path => .ok ("dir:" ++ path)
  marshalDeploymentConfig := .ok "name: deploy2"
  hashString := fun str => "sha:" ++ str
  NewClient := .ok exampleKeyedClient
  filepathJoin := fun a b => a ++ "/" ++ b
  filepathAbs := fun path => .ok ("/work/" ++ path)
  ReadYamlFromFile := fun path =>
    if path == "chart/values.yaml" then
      (fun k => if k == "replicas" then some "1" else if k == "port" then some "80" else none,
        none)
    else if path == "/work/a.yaml" then
      (fun k => if k == "replicas" then some "2" else if k == "tag" then some "a" else none,
        none)
    else if path == "/work/b.yaml" then (fun k => if k == "tag" then some "b" else none, none)
    else (fun _ => none, some "yaml: unmarshal errors")
  emptyValues := fun _ => none
  MergeInto := fun a b k => (b k).or (a k)
  ansiColor := fun str _ => str
  ReplaceImageNames := fun values _ => .ok (false, values)

/-- The deployment `deploy2` of the chart `chart` with the values files
`a.yaml`, `broken.yaml` and `b.yaml` and the inline value `port: 8080`. -/
def exampleKeyedConfig : DeployConfig KeyedValues where
  Name := "deploy2"
  Namespace := "default"
  ChartName := "chart"
  ValuesFiles := ["a.yaml", "broken.yaml", "b.yaml"]
  Values := some (fun k => if k == "port" then some "8080" else none)
  ReplaceImageTags := some false
  Helm := some exampleKeyedClient

/-- A chart client for keyed values whose release listing fails and whose
install accepts only values with the tag `b` and the port 8080. -/
def exampleStrictClient : HelmClient KeyedValues where
  ListReleases := ([], some "connection refused")
  Template := fun releaseName _ _ => .ok ("# " ++ releaseName)
  InstallChart := fun releaseName _ values =>
    if values "tag" == some "b" && values "port" == some "8080" then
      .ok (some ⟨releaseName, "DEPLOYED", "1"⟩)
    else .error "values rejected"

/-- The environment of the concrete runs where the values file
`missing.yaml` does not exist: it can neither be hashed nor read. -/
def exampleMissingFileEnv : HelmEnv ExampleValues :=
  { exampleHelmEnv with
    hashDirectory := fun path =>
      if path == "missing.yaml" then .error "no such file or directory"
      else .ok ("dir:" ++ path) }

/-! ## Local availability probe -/

/-- What `IsImageAvailableLocally` calls outside its own file: the probe for
the container engine and the image list of the docker client. -/
structure DockerEnv where
  -- `exec.Command("docker", "buildx").Run()`: the error, `none` on success.
  probe : Option String
  -- `dockerAPIClient.ImageList(...)`: the `RepoTags` of each local image.
  ImageList : Except String (List (List String))

/-- How a call of `IsImageAvailableLocally` ends: it returns its pair, having
listed the local images or not, or it dereferences the nil pointer that
`cache.Images[name]` is for a name without a record. -/
inductive AvailabilityOutcome where
  | returned (available : Bool) (err : Option String) (listed : Bool)
  | nilDereference
deriving DecidableEq, Repr

/-- The method `BuildHelper.IsImageAvailableLocally` (helper.go, lines
217-242); `images` is the map `cache.Images`. -/
def IsImageAvailableLocally (env : DockerEnv) (b : BuildHelper)
    (images : List (String × ImageCache)) : AvailabilityOutcome :=
  match env.probe with
  | some _ => .returned true none false
  | none =>
    match images.lookup b.ImageConfigName with
    | none => .nilDereference
    | some imageCache =>
      let imageName := imageCache.ImageName ++ ":" ++ imageCache.Tag
      match env.ImageList with
      | .error e => .returned false (some e) true
      | .ok imageList =>
        .returned (imageList.any (fun repoTags => repoTags.any (fun repoTag => repoTag == imageName)))
          none true

/-- A machine with a container engine and two local images. -/
def exampleDockerEnv : DockerEnv where
  probe := none
  ImageList := .ok [["registry/other:v1"], ["registry/app:v0", "registry/app:v1"]]

/-! ## Generic chart client -/

/-- The chart part `latest.ChartConfig` of a helm config: the fields the
generic client reads. -/
structure ChartConfig where
  Name : String
  Version : String
  RepoURL : String
  Username : String
  Password : String
deriving DecidableEq, Repr

/-- The helm config `latest.HelmConfig`: the fields the generic client
reads. -/
structure HelmConfig where
  Chart : ChartConfig
  V2 : Bool
  FetchArgs : List String
  Path : String
deriving DecidableEq, Repr

/-- The error of a finished process: its text and, when it is an
`exec.ExitError`, the captured standard error. -/
structure ExecError where
  message : String
  exitStderr : Option String
deriving DecidableEq, Repr

/-- What the generic client calls outside its own file. -/
structure GenericEnv where
  -- `strings.TrimSpace(s)`.
  TrimSpace : String → String
  -- `ioutil.TempDir("", "")`.
  TempDir : Except String String
  -- `filepath.Join(a, b)`.
  filepathJoin : String → String → String
  -- `c.versionedClient.IsInCluster()`.
  IsInCluster : Bool
  -- `c.versionedClient.KubeContext()`.
  KubeContext : String
  -- `c.versionedClient.Command().IsValid(path)`.
  IsValid : String → Except String Bool
  -- `c.downloader.EnsureCommand()`: the path and the error.
  EnsureCommand : String × Option String
  -- `c.exec(path, args).Output()`: the output and the error.
  Output : String → List String → String × Option ExecError

/-- The constant `stableChartRepo` (generic.go, line 23). -/
def stableChartRepo : String := "https://charts.helm.sh/stable"

/-- The test `strings.HasPrefix(s, pre)`. -/
def hasPrefix (s pre : String) : Bool :=
  pre.data.isPrefixOf s.data

/-- The slice `s[n:]`, which is out of range (`none`) when `s` is shorter than
`n`; it is taken by characters, the one slice of generic.go following a test
for a prefix of seven one-byte characters. -/
def sliceFrom (s : String) (n : Nat) : Option String :=
  if n ≤ s.length then some ⟨s.data.drop n⟩ else none

/-- The function `ChartNameAndRepo` (generic.go, lines 158-167); `none` is the
run-time error of a slice out of range. -/
def ChartNameAndRepo (env : GenericEnv) (helmConfig : HelmConfig) : Option (String × String) :=
  let chartName := env.TrimSpace helmConfig.Chart.Name
  let chartRepo := helmConfig.Chart.RepoURL
  if hasPrefix chartName "stable/" && chartRepo == "" then
    match sliceFrom chartName 7 with
    | none => none
    | some chartName => some (chartName, stableChartRepo)
  else some (chartName, chartRepo)

/-- The method `client.ensureHelmBinary` (generic.go, lines 101-121) on the
field `helmPath`: the field after the call and the returned error. -/
def ensureHelmBinary (env : GenericEnv) (helmPath : String) (helmConfig : Option HelmConfig) :
    String × Option String :=
  if helmPath ≠ "" then (helmPath, none)
  else
    match helmConfig with
    | some config =>
      if config.Path ≠ "" then
        match env.IsValid config.Path with
        | .error e => (helmPath, some e)
        | .ok valid =>
          if !valid then
            (helmPath, some ("helm binary at '" ++ config.Path ++ "' is not a valid helm v2 binary"))
          else (config.Path, none)
      else env.EnsureCommand
    | none => env.EnsureCommand

/-- What a call of `client.Exec` leaves behind: the returned bytes (`none` is
nil), the returned error, the field `helmPath` and the process that was run,
with its arguments. -/
structure ExecResult where
  out : Option String
  err : Option String
  helmPath : String
  ran : Option (String × List String)
deriving DecidableEq, Repr

/-- The method `client.Exec` (generic.go, lines 78-99). -/
def Exec (env : GenericEnv) (helmPath : String) (args : List String)
    (helmConfig : Option HelmConfig) : ExecResult :=
  match ensureHelmBinary env helmPath helmConfig with
  | (helmPath, some e) => ⟨none, some e, helmPath, none⟩
  | (helmPath, none) =>
    let args := if !env.IsInCluster then args ++ ["--kube-context", env.KubeContext] else args
    match env.Output helmPath args with
    | (result, some execErr) =>
      match execErr.exitStderr with
      | some stderr =>
        ⟨none,
          some ("error during '" ++ helmPath ++ " " ++ " ".intercalate args ++ "': " ++ result
            ++ stderr ++ " => " ++ execErr.message),
          helmPath, some (helmPath, args)⟩
      | none =>
        ⟨none,
          some ("error during '" ++ helmPath ++ " " ++ " ".intercalate args ++ "': " ++ result
            ++ " => " ++ execErr.message),
          helmPath, some (helmPath, args)⟩
    | (result, none) => ⟨some result, none, helmPath, some (helmPath, args)⟩

/-- What a call of `client.FetchChart` leaves behind: the returned triple, the
arguments it handed to `Exec` (`none` when it did not call it), the process
that was run, the folder it removed and the field `helmPath`. -/
structure FetchResult where
  fetched : Bool
  path : String
  err : Option String
  execArgs : Option (List String)
  ran : Option (String × List String)
  removed : Option String
  helmPath : String
deriving DecidableEq, Repr

/-- The method `client.FetchChart` (generic.go, lines 123-156); `none` is the
run-time error of `ChartNameAndRepo`. -/
def FetchChart (env : GenericEnv) (helmPath : String) (helmConfig : HelmConfig) :
    Option FetchResult :=
  match ChartNameAndRepo env helmConfig with
  | none => none
  | some (chartName, chartRepo) =>
    if chartRepo == "" then some ⟨false, chartName, none, none, none, none, helmPath⟩
    else
      match env.TempDir with
      | .error e => some ⟨false, "", some e, none, none, none, helmPath⟩
      | .ok tempFolder =>
        let args := ["fetch", chartName, "--repo", chartRepo, "--untar", "--untardir", tempFolder]
        let args :=
          if helmConfig.Chart.Version ≠ "" then args ++ ["--version", helmConfig.Chart.Version]
          else args
        let args :=
          if helmConfig.Chart.Username ≠ "" then args ++ ["--username", helmConfig.Chart.Username]
          else args
        let args :=
          if helmConfig.Chart.Password ≠ "" then args ++ ["--password", helmConfig.Chart.Password]
          else args
        let args := if !helmConfig.V2 then args ++ ["--repository-config=''"] else args
        let args := args ++ helmConfig.FetchArgs
        let r := Exec env helmPath args (some helmConfig)
        match r.err with
        | some e =>
          some ⟨false, "",
            some ("error running helm fetch: " ++ r.out.getD "" ++ " => " ++ e),
            some args, r.ran, some tempFolder, r.helmPath⟩
        | none =>
          some ⟨true, env.filepathJoin tempFolder chartName, none, some args, r.ran, none,
            r.helmPath⟩

/-- The helm arguments of a fetch, in the spec's words: the seven fixed
arguments, then version, username and password for each that is non-empty,
then the repository config when the config is not helm v2, then the user's
fetch arguments. -/
def fetchArguments (name repo tempDir : String) (helmConfig : HelmConfig) : List String :=
  ["fetch", name, "--repo", repo, "--untar", "--untardir", tempDir]
    ++ (if helmConfig.Chart.Version = "" then [] else ["--version", helmConfig.Chart.Version])
    ++ (if helmConfig.Chart.Username = "" then [] else ["--username", helmConfig.Chart.Username])
    ++ (if helmConfig.Chart.Password = "" then [] else ["--password", helmConfig.Chart.Password])
    ++ (if helmConfig.V2 = true then [] else ["--repository-config=''"])
    ++ helmConfig.FetchArgs

/-- A machine outside the cluster where temporary folders can be made and helm
runs. -/
def exampleGenericEnv : GenericEnv where
  TrimSpace := fun str =>
    ⟨((str.data.dropWhile (fun c => c == ' ')).reverse.dropWhile (fun c => c == ' ')).reverse⟩
  TempDir := .ok "/tmp/fetch1"
  filepathJoin := fun a b => a ++ "/" ++ b
  IsInCluster := false
  KubeContext := "minikube"
  IsValid := fun _ => .ok true
  EnsureCommand := ("/usr/bin/helm", none)
  Output := fun _ _ => ("", none)

/-- A helm config for a chart of the stable repository, with a version and a
user's fetch argument. -/
def exampleStableConfig : HelmConfig where
  Chart := ⟨" stable/mysql ", "1.6.2", "", "", ""⟩
  V2 := false
  FetchArgs := ["--devel"]
  Path := ""

/-! ## Deployment controller -/

/-- Modelled from the spec: the controller package (Render, Deploy and Purge of
pkg/devspace/deploy) is not among the sources, only its tests are. The two
backends a deployment can carry, as the tagged variant of the spec. -/
inductive BackendKind where
  | Chart
  | Manifest
deriving DecidableEq, Repr

/-- Modelled from the spec: the controller package is not among the sources.
A deployment entry as the controller sees it: its name and the backend it
carries, if any. -/
structure DeploymentSpec where
  Name : String
  Backend : Option BackendKind
deriving DecidableEq, Repr

/-- Modelled from the spec: the controller package is not among the sources.
The three operations of the controller. -/
inductive Operation where
  | Render
  | Deploy
  | Purge
deriving DecidableEq, Repr

/-- Modelled from the spec: the controller package is not among the sources.
The operation name that wraps a per-deployment error; the three strings are
those of the spec and of TestRender, TestDeploy and TestPurge. -/
def operationPrefix : Operation → String
  | .Render => "error render: "
  | .Deploy => "error deploying: "
  | .Purge => "error purging: "

/-- Modelled from the spec: the controller package is not among the sources.
What an engine leaves behind when the controller dispatches to it: the error,
the cache store afterwards, the hashes it computed and the processes it
ran. -/
structure EngineOutcome (C : Type) where
  err : Option String
  cache : C
  hashed : List String
  processes : List String

/-- Modelled from the spec: the controller package is not among the sources.
What the controller calls: the engine of a backend for an operation on a
deployment, and the removal of a deployment's record from the cache store. -/
structure ControllerEnv (C : Type) where
  engine : Operation → BackendKind → DeploymentSpec → C → EngineOutcome C
  dropRecord : String → C → C

/-- Modelled from the spec: the controller package is not among the sources.
What is observable of a run of the controller: the cache store, the
deployments dispatched to an engine, and the hashes computed and the processes
run by the engines, each in order. -/
structure ControllerState (C : Type) where
  cache : C
  dispatched : List String
  hashed : List String
  processes : List String
deriving DecidableEq, Repr

/-- Modelled from the spec: the controller package is not among the sources.
The result of an operation of the controller: the returned error and the
state it leaves. -/
structure ControllerResult (C : Type) where
  err : Option String
  state : ControllerState C
deriving DecidableEq, Repr

/-- Modelled from the spec: the controller package is not among the sources.
Allow-list filtering: a list that is provided and non-empty selects the
deployments it names, an empty list selects every deployment. -/
def selected (allow : List String) (d : DeploymentSpec) : Bool :=
  allow.isEmpty || allow.contains d.Name

/-- Modelled from the spec: the controller package is not among the sources.
The dispatch rule for one deployment: a chart or manifest backend routes to its
engine, whose error is wrapped with the operation name, and a purge drops the
record of the deployment; a deployment with neither is the error "deployment
NAME has no deployment method" under the same wrapping. -/
def dispatch {C : Type} (env : ControllerEnv C) (op : Operation) (d : DeploymentSpec)
    (st : ControllerState C) : ControllerResult C :=
  match d.Backend with
  | none =>
    ⟨some (operationPrefix op ++ ("deployment " ++ d.Name ++ " has no deployment method")), st⟩
  | some backend =>
    let out := env.engine op backend d st.cache
    let st1 : ControllerState C :=
      ⟨out.cache, st.dispatched ++ [d.Name], st.hashed ++ out.hashed,
        st.processes ++ out.processes⟩
    match out.err with
    | some e => ⟨some (operationPrefix op ++ e), st1⟩
    | none =>
      if op = .Purge then ⟨none, { st1 with cache := env.dropRecord d.Name st1.cache }⟩
      else ⟨none, st1⟩

/-- Modelled from the spec: the controller package is not among the sources.
An operation of the controller over the deployments of the config: each
deployment the allow-list selects is dispatched, one that it does not select is
skipped, and the first error halts the operation. -/
def runOperation {C : Type} (env : ControllerEnv C) (op : Operation) (allow : List String) :
    List DeploymentSpec → ControllerState C → ControllerResult C
  | [], st => ⟨none, st⟩
  | d :: rest, st =>
    if selected allow d then
      match dispatch env op d st with
      | ⟨some e, st1⟩ => ⟨some e, st1⟩
      | ⟨none, st1⟩ => runOperation env op allow rest st1
    else runOperation env op allow rest st

/-- Engines that record what they are asked: each hashes the deployment and
runs one process named after the operation and the deployment, and stores the
deployment's name in a cache store that is a list of names. -/
def exampleControllerEnv : ControllerEnv (List String) where
  engine := fun op _ d cache =>
    ⟨none, d.Name :: cache, [d.Name], [operationPrefix op ++ d.Name]⟩
  dropRecord := fun name cache => cache.filter (fun n => n != name)

/-- A controller state before any deployment was handled, with one record in
the cache store. -/
def exampleControllerState : ControllerState (List String) :=
  ⟨["kubectlPurge"], [], [], []⟩

/-- The deployment of the test cases "No deployment method". -/
def exampleNoMethod : DeploymentSpec := ⟨"noMethod", none⟩

/-- The deployment of the test cases "Skip deployment". -/
def exampleSkipped : DeploymentSpec := ⟨"skippedDeployment", none⟩

/-- A deployment with a manifest backend. -/
def exampleKubectlDeployment : DeploymentSpec := ⟨"kubectlDeploy", some .Manifest⟩

/-! ## Status of a manifest deployment -/

/-- Modelled from the spec: the manifest engine (package deployer/kubectl) is
not among the sources, only its test is. The result of Status. -/
structure StatusResult where
  Name : String
  -- The field Type of the source, a reserved word here.
  Kind : String
  Target : String
  Status : String
deriving DecidableEq, Repr

/-- Modelled from the spec: the manifest engine is not among the sources. A
manifest deployer as Status sees it: its name and its manifest-source
identifier (in TestStatus the one manifest of the deployer). -/
structure ManifestDeployer where
  Name : String
  Source : String
deriving DecidableEq, Repr

/-- Modelled from the spec: the manifest engine is not among the sources. The
display width of a target and the ellipsis that marks a truncated one are
those of TestStatus. -/
def Status (d : ManifestDeployer) : Except String StatusResult :=
  let target :=
    if d.Source.length > 20 then (⟨d.Source.data.take 20⟩ : String) ++ "..." else d.Source
  .ok ⟨d.Name, "Manifests", target, "N/A"⟩

/-- The deployer of TestStatus. -/
def exampleManifestDeployer : ManifestDeployer :=
  ⟨"longManifestDeployer", "ThatIsAVeryLongManifestNameHereJustTooLargeToFitOnAConsole"⟩

/-! ## Properties of the build change-detector -/

/-- The drift check holds exactly when a client is present, a last context is
recorded, it differs from the current context and it is a local cluster. -/
theorem contextDrift_eq_true_iff (env : BuildEnv) (b : BuildHelper) :
    contextDrift env b = true ↔
      ∃ current last, b.KubeClient = some current ∧ env.LastContext = some last
        ∧ last ≠ current ∧ env.IsLocalKubernetes last = true := by
  unfold contextDrift
  cases hk : b.KubeClient <;> cases hl : env.LastContext <;> simp

/-- A call of `ShouldRebuild` that returns no error went through every step
the strategy asks for. -/
theorem shouldRebuild_steps_of_ok (env : BuildEnv) (b : BuildHelper) (imageCache : ImageCache)
    (forceRebuild : Bool) (hs : b.RebuildStrategy ≠ .Always)
    (herr : (ShouldRebuild env b imageCache forceRebuild).err = none) :
    env.stat b.DockerfilePath = none
      ∧ (∃ dh, env.hashDirectory b.DockerfilePath = .ok dh)
      ∧ (∃ cs, env.marshalImageConf = .ok cs)
      ∧ (b.RebuildStrategy ≠ .IgnoreContextChanges → ∃ ch, contextHashOf env b = .ok ch) := by
  unfold ShouldRebuild at herr
  rw [if_neg hs] at herr
  cases hst : env.stat b.DockerfilePath with
  | some e => rw [hst] at herr; cases herr
  | none =>
    cases hd : env.hashDirectory b.DockerfilePath with
    | error e => rw [hst, hd] at herr; cases herr
    | ok dh =>
      cases hm : env.marshalImageConf with
      | error e => rw [hst, hd, hm] at herr; cases herr
      | ok cs =>
        refine ⟨rfl, ⟨dh, rfl⟩, ⟨cs, rfl⟩, fun hi => ?_⟩
        cases hc : contextHashOf env b with
        | error e =>
          rw [hst, hd, hm] at herr
          simp only [if_pos hi, hc] at herr
          cases herr
        | ok ch => exact ⟨ch, rfl⟩

/-- The outcome of `ShouldRebuild` when every step succeeds and the build
context takes part in the decision. -/
theorem shouldRebuild_eq_of_context (env : BuildEnv) (b : BuildHelper) (imageCache : ImageCache)
    (forceRebuild : Bool) (dh cs ch : String) (hs : b.RebuildStrategy ≠ .Always)
    (hi : b.RebuildStrategy ≠ .IgnoreContextChanges)
    (hst : env.stat b.DockerfilePath = none)
    (hd : env.hashDirectory b.DockerfilePath = .ok dh)
    (hm : env.marshalImageConf = .ok cs)
    (hc : contextHashOf env b = .ok ch) :
    ShouldRebuild env b imageCache forceRebuild =
      ⟨rebuildBeforeContext env b imageCache dh cs || imageCache.ContextHash != ch, none,
        if (forceRebuild
            || (rebuildBeforeContext env b imageCache dh cs || imageCache.ContextHash != ch)) = true
        then
          { imageCache with
            DockerfileHash := dh
            ImageConfigHash := env.hashString cs
            ContextHash := ch
            EntrypointHash := entrypointHashOf env.hashString b.Entrypoint b.Cmd }
        else imageCache⟩ := by
  unfold ShouldRebuild rebuildBeforeContext
  rw [if_neg hs, hst, hd, hm]
  simp only [if_pos hi, hc]
  split_ifs <;> rfl

/-- The outcome of `ShouldRebuild` when every step succeeds and the strategy
is IgnoreContextChanges. -/
theorem shouldRebuild_eq_of_ignore (env : BuildEnv) (b : BuildHelper) (imageCache : ImageCache)
    (forceRebuild : Bool) (dh cs : String)
    (hi : b.RebuildStrategy = .IgnoreContextChanges)
    (hst : env.stat b.DockerfilePath = none)
    (hd : env.hashDirectory b.DockerfilePath = .ok dh)
    (hm : env.marshalImageConf = .ok cs) :
    ShouldRebuild env b imageCache forceRebuild =
      ⟨rebuildBeforeContext env b imageCache dh cs, none,
        if (forceRebuild || rebuildBeforeContext env b imageCache dh cs) = true then
          { imageCache with
            DockerfileHash := dh
            ImageConfigHash := env.hashString cs
            EntrypointHash := entrypointHashOf env.hashString b.Entrypoint b.Cmd }
        else imageCache⟩ := by
  have hs : b.RebuildStrategy ≠ .Always := by rw [hi]; decide
  have hn : ¬ (b.RebuildStrategy ≠ .IgnoreContextChanges) := fun h => h hi
  unfold ShouldRebuild rebuildBeforeContext
  rw [if_neg hs, hst, hd, hm]
  simp only [if_neg hn]

/-- The decision before the build context is looked at is no rebuild exactly
when the tag is set, the three hashes match and there is no drift. -/
theorem rebuildBeforeContext_eq_false_iff (env : BuildEnv) (b : BuildHelper)
    (imageCache : ImageCache) (dh cs : String) :
    rebuildBeforeContext env b imageCache dh cs = false ↔
      imageCache.Tag ≠ "" ∧ imageCache.DockerfileHash = dh
        ∧ imageCache.ImageConfigHash = env.hashString cs
        ∧ imageCache.EntrypointHash = entrypointHashOf env.hashString b.Entrypoint b.Cmd
        ∧ contextDrift env b = false := by
  unfold rebuildBeforeContext
  cases hdr : contextDrift env b <;> simp [and_assoc]

/-- C1: for a strategy other than Always, a call of ShouldRebuild that returns
without error decides no rebuild exactly when the cached tag is non-empty, the
cached dockerfile, image-config and entrypoint hashes equal the computed ones,
the cached context hash equals the computed one unless the strategy is
IgnoreContextChanges, and the drift condition does not hold. -/
theorem shouldRebuild_no_rebuild_iff (env : BuildEnv) (b : BuildHelper) (imageCache : ImageCache)
    (forceRebuild : Bool) (hs : b.RebuildStrategy ≠ .Always)
    (herr : (ShouldRebuild env b imageCache forceRebuild).err = none) :
    (ShouldRebuild env b imageCache forceRebuild).mustRebuild = false ↔
      (imageCache.Tag ≠ ""
        ∧ env.hashDirectory b.DockerfilePath = .ok imageCache.DockerfileHash
        ∧ (∃ configStr, env.marshalImageConf = .ok configStr
            ∧ imageCache.ImageConfigHash = env.hashString configStr)
        ∧ imageCache.EntrypointHash = entrypointHashOf env.hashString b.Entrypoint b.Cmd
        ∧ (b.RebuildStrategy ≠ .IgnoreContextChanges →
            contextHashOf env b = .ok imageCache.ContextHash)
        ∧ ¬ (∃ current last, b.KubeClient = some current ∧ env.LastContext = some last
              ∧ last ≠ current ∧ env.IsLocalKubernetes last = true)) := by
  obtain ⟨hst, ⟨dh, hd⟩, ⟨cs, hm⟩, hctx⟩ :=
    shouldRebuild_steps_of_ok env b imageCache forceRebuild hs herr
  rw [← contextDrift_eq_true_iff, Bool.not_eq_true, hd, hm]
  by_cases hi : b.RebuildStrategy = .IgnoreContextChanges
  · rw [shouldRebuild_eq_of_ignore env b imageCache forceRebuild dh cs hi hst hd hm]
    simp only [rebuildBeforeContext_eq_false_iff, Except.ok.injEq, hi, ne_eq, not_true_eq_false,
      false_implies, true_and, exists_eq_left']
    constructor
    · rintro ⟨h1, h2, h3, h4, h5⟩
      exact ⟨h1, h2.symm, h3, h4, h5⟩
    · rintro ⟨h1, h2, h3, h4, h5⟩
      exact ⟨h1, h2.symm, h3, h4, h5⟩
  · obtain ⟨ch, hc⟩ := hctx hi
    rw [shouldRebuild_eq_of_context env b imageCache forceRebuild dh cs ch hs hi hst hd hm hc, hc]
    simp only [Bool.or_eq_false_iff, rebuildBeforeContext_eq_false_iff, Except.ok.injEq, ne_eq,
      hi, not_false_eq_true, true_implies, exists_eq_left', bne_eq_false_iff_eq]
    constructor
    · rintro ⟨⟨h1, h2, h3, h4, h5⟩, h6⟩
      exact ⟨h1, h2.symm, h3, h4, h6.symm, h5⟩
    · rintro ⟨h1, h2, h3, h4, h6, h5⟩
      exact ⟨⟨h1, h2.symm, h3, h4, h5⟩, h6.symm⟩

/-- The witness of C1: the record of the last build, unchanged sources and the
same cluster give no rebuild. -/
theorem shouldRebuild_no_rebuild_iff_witness :
    exampleBuildHelper.RebuildStrategy ≠ .Always
      ∧ (ShouldRebuild exampleBuildEnv exampleBuildHelper exampleImageCache false).err = none
      ∧ (ShouldRebuild exampleBuildEnv exampleBuildHelper exampleImageCache false).mustRebuild
          = false
      ∧ contextHashOf exampleBuildEnv exampleBuildHelper = .ok exampleImageCache.ContextHash :=
  ⟨by decide, by rfl, by rfl,
    ((shouldRebuild_no_rebuild_iff exampleBuildEnv exampleBuildHelper exampleImageCache false
      (by decide) (by rfl)).mp (by rfl)).2.2.2.2.1 (by decide)⟩

/-- C2: with the strategy Always, ShouldRebuild returns rebuild = true and no
error for every cache record, every force flag and every filesystem state. -/
theorem shouldRebuild_always (env : BuildEnv) (b : BuildHelper) (imageCache : ImageCache)
    (forceRebuild : Bool) (hs : b.RebuildStrategy = .Always) :
    (ShouldRebuild env b imageCache forceRebuild).mustRebuild = true
      ∧ (ShouldRebuild env b imageCache forceRebuild).err = none := by
  unfold ShouldRebuild
  rw [if_pos hs]
  exact ⟨rfl, rfl⟩

/-- The witness of C2: Always on a filesystem without the Dockerfile and with
an unresolvable build context, on a record whose hashes are all stale. -/
theorem shouldRebuild_always_witness :
    exampleBrokenEnv.stat "Dockerfile" = some "no such file or directory"
      ∧ (ShouldRebuild exampleBrokenEnv { exampleBuildHelper with RebuildStrategy := .Always }
          exampleStaleCache false).mustRebuild = true
      ∧ (ShouldRebuild exampleBrokenEnv { exampleBuildHelper with RebuildStrategy := .Always }
          exampleStaleCache false).err = none :=
  ⟨rfl, shouldRebuild_always exampleBrokenEnv
    { exampleBuildHelper with RebuildStrategy := .Always } exampleStaleCache false rfl⟩

/-- The context hash fails exactly when resolving the build context, reading
the ignore file or hashing the context fails. -/
theorem contextHashOf_error_iff (env : BuildEnv) (b : BuildHelper) :
    (∃ e, contextHashOf env b = .error e) ↔
      ((∃ e, env.GetContextFromLocalDir b.ContextPath b.DockerfilePath = .error e)
        ∨ (∃ contextDir relDockerfile e,
            env.GetContextFromLocalDir b.ContextPath b.DockerfilePath
                = .ok (contextDir, relDockerfile)
              ∧ env.ReadDockerignore contextDir (env.CanonicalTarNameForPath relDockerfile)
                = .error e)
        ∨ (∃ contextDir relDockerfile excludes e,
            env.GetContextFromLocalDir b.ContextPath b.DockerfilePath
                = .ok (contextDir, relDockerfile)
              ∧ env.ReadDockerignore contextDir (env.CanonicalTarNameForPath relDockerfile)
                = .ok excludes
              ∧ env.DirectoryExcludes contextDir excludes = .error e)) := by
  unfold contextHashOf
  cases hg : env.GetContextFromLocalDir b.ContextPath b.DockerfilePath with
  | error e => simp
  | ok pr =>
    obtain ⟨contextDir, relDockerfile⟩ := pr
    cases hr : env.ReadDockerignore contextDir (env.CanonicalTarNameForPath relDockerfile) with
    | error e =>
      simp only [hr]
      exact ⟨fun _ => Or.inr (Or.inl ⟨contextDir, relDockerfile, e, rfl, hr⟩), fun _ => ⟨_, rfl⟩⟩
    | ok excludes =>
      cases hx : env.DirectoryExcludes contextDir excludes with
      | error e =>
        simp only [hr, hx]
        exact ⟨fun _ => Or.inr (Or.inr ⟨contextDir, relDockerfile, excludes, e, rfl, hr, hx⟩),
          fun _ => ⟨_, rfl⟩⟩
      | ok h =>
        simp only [hr, hx]
        constructor
        · rintro ⟨e, he⟩
          cases he
        · rintro (⟨e, he⟩ | ⟨cd, rel, e, h1, h2⟩ | ⟨cd, rel, ex, e, h1, h2, h3⟩)
          · cases he
          · cases h1
            rw [hr] at h2
            cases h2
          · cases h1
            rw [hr] at h2
            cases h2
            rw [hx] at h3
            cases h3

/-- A call of `ShouldRebuild` that returns an error returns false and leaves
the record as it was. -/
theorem shouldRebuild_err_atomic (env : BuildEnv) (b : BuildHelper) (imageCache : ImageCache)
    (forceRebuild : Bool) (herr : (ShouldRebuild env b imageCache forceRebuild).err ≠ none) :
    (ShouldRebuild env b imageCache forceRebuild).mustRebuild = false
      ∧ (ShouldRebuild env b imageCache forceRebuild).imageCache = imageCache := by
  by_cases hs : b.RebuildStrategy = .Always
  · unfold ShouldRebuild at herr
    rw [if_pos hs] at herr
    exact absurd rfl herr
  · unfold ShouldRebuild at herr ⊢
    rw [if_neg hs] at herr ⊢
    cases hst : env.stat b.DockerfilePath with
    | some e => exact ⟨rfl, rfl⟩
    | none =>
      cases hd : env.hashDirectory b.DockerfilePath with
      | error e => exact ⟨rfl, rfl⟩
      | ok dh =>
        cases hm : env.marshalImageConf with
        | error e => exact ⟨rfl, rfl⟩
        | ok cs =>
          rw [hst, hd, hm] at herr
          by_cases hi : b.RebuildStrategy = .IgnoreContextChanges
          · have hn : ¬ (b.RebuildStrategy ≠ .IgnoreContextChanges) := fun h => h hi
            simp only [if_neg hn] at herr
            exact absurd rfl herr
          · cases hc : contextHashOf env b with
            | error e =>
              simp only [if_pos hi, hc, and_self]
            | ok ch =>
              simp only [if_pos hi, hc] at herr
              exact absurd rfl herr

/-- For a strategy other than Always, `ShouldRebuild` returns an error exactly
when a step it runs fails. -/
theorem shouldRebuild_err_iff (env : BuildEnv) (b : BuildHelper) (imageCache : ImageCache)
    (forceRebuild : Bool) (hs : b.RebuildStrategy ≠ .Always) :
    (ShouldRebuild env b imageCache forceRebuild).err ≠ none ↔
      (env.stat b.DockerfilePath ≠ none
        ∨ (∃ e, env.hashDirectory b.DockerfilePath = .error e)
        ∨ (∃ e, env.marshalImageConf = .error e)
        ∨ (b.RebuildStrategy ≠ .IgnoreContextChanges ∧ ∃ e, contextHashOf env b = .error e)) := by
  cases hst : env.stat b.DockerfilePath with
  | some e =>
    unfold ShouldRebuild
    rw [if_neg hs, hst]
    simp
  | none =>
    cases hd : env.hashDirectory b.DockerfilePath with
    | error e =>
      unfold ShouldRebuild
      rw [if_neg hs, hst, hd]
      simp
    | ok dh =>
      cases hm : env.marshalImageConf with
      | error e =>
        unfold ShouldRebuild
        rw [if_neg hs, hst, hd, hm]
        simp
      | ok cs =>
        by_cases hi : b.RebuildStrategy = .IgnoreContextChanges
        · rw [shouldRebuild_eq_of_ignore env b imageCache forceRebuild dh cs hi hst hd hm]
          simp [hi]
        · cases hc : contextHashOf env b with
          | error e =>
            unfold ShouldRebuild
            rw [if_neg hs, hst, hd, hm]
            simp only [if_pos hi, hc]
            simp [hi]
          | ok ch =>
            rw [shouldRebuild_eq_of_context env b imageCache forceRebuild dh cs ch hs hi hst hd
              hm hc]
            simp

/-- C7: for a strategy other than Always, a missing Dockerfile, a failing
Dockerfile hash, a failing marshal of the image config and, where the strategy
has the build context looked at, a failure to resolve the context, to read the
ignore file or to hash the context each make ShouldRebuild return an error; and
whenever it returns an error it returns false and leaves the five fields of the
image cache record as they were. -/
theorem shouldRebuild_failure_atomic (env : BuildEnv) (b : BuildHelper)
    (imageCache : ImageCache) (forceRebuild : Bool) (hs : b.RebuildStrategy ≠ .Always)
    (hfail : env.stat b.DockerfilePath ≠ none
      ∨ (∃ e, env.hashDirectory b.DockerfilePath = .error e)
      ∨ (∃ e, env.marshalImageConf = .error e)
      ∨ (b.RebuildStrategy ≠ .IgnoreContextChanges ∧
          ((∃ e, env.GetContextFromLocalDir b.ContextPath b.DockerfilePath = .error e)
            ∨ (∃ contextDir relDockerfile e,
                env.GetContextFromLocalDir b.ContextPath b.DockerfilePath
                    = .ok (contextDir, relDockerfile)
                  ∧ env.ReadDockerignore contextDir (env.CanonicalTarNameForPath relDockerfile)
                    = .error e)
            ∨ (∃ contextDir relDockerfile excludes e,
                env.GetContextFromLocalDir b.ContextPath b.DockerfilePath
                    = .ok (contextDir, relDockerfile)
                  ∧ env.ReadDockerignore contextDir (env.CanonicalTarNameForPath relDockerfile)
                    = .ok excludes
                  ∧ env.DirectoryExcludes contextDir excludes = .error e)))) :
    (ShouldRebuild env b imageCache forceRebuild).mustRebuild = false
      ∧ (∃ e, (ShouldRebuild env b imageCache forceRebuild).err = some e)
      ∧ (ShouldRebuild env b imageCache forceRebuild).imageCache.Tag = imageCache.Tag
      ∧ (ShouldRebuild env b imageCache forceRebuild).imageCache.DockerfileHash
          = imageCache.DockerfileHash
      ∧ (ShouldRebuild env b imageCache forceRebuild).imageCache.ImageConfigHash
          = imageCache.ImageConfigHash
      ∧ (ShouldRebuild env b imageCache forceRebuild).imageCache.ContextHash
          = imageCache.ContextHash
      ∧ (ShouldRebuild env b imageCache forceRebuild).imageCache.EntrypointHash
          = imageCache.EntrypointHash := by
  have herr : (ShouldRebuild env b imageCache forceRebuild).err ≠ none := by
    rw [shouldRebuild_err_iff env b imageCache forceRebuild hs, contextHashOf_error_iff]
    exact hfail
  obtain ⟨h1, h2⟩ := shouldRebuild_err_atomic env b imageCache forceRebuild herr
  refine ⟨h1, Option.ne_none_iff_exists'.mp herr, ?_⟩
  rw [h2]
  exact ⟨rfl, rfl, rfl, rfl, rfl⟩

/-- The witness of C7: a forced call on a filesystem without the Dockerfile. -/
theorem shouldRebuild_failure_atomic_witness :
    (ShouldRebuild exampleBrokenEnv exampleBuildHelper exampleStaleCache true).mustRebuild = false
      ∧ (∃ e, (ShouldRebuild exampleBrokenEnv exampleBuildHelper exampleStaleCache true).err
          = some e)
      ∧ (ShouldRebuild exampleBrokenEnv exampleBuildHelper exampleStaleCache true).imageCache.Tag
          = "v0" :=
  ⟨(shouldRebuild_failure_atomic exampleBrokenEnv exampleBuildHelper exampleStaleCache true
      (by decide) (Or.inl (by decide))).1,
    (shouldRebuild_failure_atomic exampleBrokenEnv exampleBuildHelper exampleStaleCache true
      (by decide) (Or.inl (by decide))).2.1,
    (shouldRebuild_failure_atomic exampleBrokenEnv exampleBuildHelper exampleStaleCache true
      (by decide) (Or.inl (by decide))).2.2.1⟩

/-- C9: for a strategy other than Always, a call of ShouldRebuild that returns
without error decides rebuild whenever a client is present, a last context is
recorded that differs from the current one and is a local cluster, whatever
the tag and the cached hashes. -/
theorem shouldRebuild_drift (env : BuildEnv) (b : BuildHelper) (imageCache : ImageCache)
    (forceRebuild : Bool) (current last : String) (hs : b.RebuildStrategy ≠ .Always)
    (herr : (ShouldRebuild env b imageCache forceRebuild).err = none)
    (hk : b.KubeClient = some current) (hl : env.LastContext = some last)
    (hne : last ≠ current) (hlocal : env.IsLocalKubernetes last = true) :
    (ShouldRebuild env b imageCache forceRebuild).mustRebuild = true := by
  obtain ⟨hst, ⟨dh, hd⟩, ⟨cs, hm⟩, hctx⟩ :=
    shouldRebuild_steps_of_ok env b imageCache forceRebuild hs herr
  have hdr : contextDrift env b = true :=
    (contextDrift_eq_true_iff env b).mpr ⟨current, last, hk, hl, hne, hlocal⟩
  have hb : rebuildBeforeContext env b imageCache dh cs = true := by
    unfold rebuildBeforeContext
    rw [if_pos hdr]
  by_cases hi : b.RebuildStrategy = .IgnoreContextChanges
  · rw [shouldRebuild_eq_of_ignore env b imageCache forceRebuild dh cs hi hst hd hm]
    exact hb
  · obtain ⟨ch, hc⟩ := hctx hi
    rw [shouldRebuild_eq_of_context env b imageCache forceRebuild dh cs ch hs hi hst hd hm hc]
    show (rebuildBeforeContext env b imageCache dh cs || imageCache.ContextHash != ch) = true
    rw [hb]
    rfl

/-- The witness of C9: the record of the last build with every hash current,
after a switch from the local cluster to another one. -/
theorem shouldRebuild_drift_witness :
    exampleImageCache.Tag ≠ ""
      ∧ contextHashOf exampleBuildEnv exampleBuildHelper = .ok exampleImageCache.ContextHash
      ∧ (ShouldRebuild exampleBuildEnv { exampleBuildHelper with KubeClient := some "production" }
          exampleImageCache false).mustRebuild = true :=
  ⟨by decide, by rfl,
    shouldRebuild_drift exampleBuildEnv { exampleBuildHelper with KubeClient := some "production" }
      exampleImageCache false "production" "minikube" (by decide) (by rfl) rfl rfl (by decide)
      (by rfl)⟩

/-- C10, as stated, fails: with the strategy Always a forced call returns
rebuild without error and leaves the stale hashes in the record, although the
Dockerfile hashes to another value. -/
theorem shouldRebuild_always_keeps_stale_hashes :
    ShouldRebuild exampleBuildEnv { exampleBuildHelper with RebuildStrategy := .Always }
        exampleStaleCache true = ⟨true, none, exampleStaleCache⟩
      ∧ exampleBuildEnv.hashDirectory "Dockerfile" = .ok "dir:Dockerfile"
      ∧ (ShouldRebuild exampleBuildEnv { exampleBuildHelper with RebuildStrategy := .Always }
          exampleStaleCache true).imageCache.DockerfileHash = "dir:old" :=
  ⟨by rfl, by rfl, by rfl⟩

/-- C10, amended: for a strategy other than Always, a call of ShouldRebuild
that returns without error, with the force flag set or the decision rebuild,
leaves the dockerfile, image-config and entrypoint hashes of the record equal
to the computed ones, and the context hash equal to the computed one unless
the strategy is IgnoreContextChanges, in which case it is left as it was. -/
theorem shouldRebuild_persists_hashes (env : BuildEnv) (b : BuildHelper)
    (imageCache : ImageCache) (forceRebuild : Bool) (hs : b.RebuildStrategy ≠ .Always)
    (herr : (ShouldRebuild env b imageCache forceRebuild).err = none)
    (hfr : forceRebuild = true ∨ (ShouldRebuild env b imageCache forceRebuild).mustRebuild = true) :
    env.hashDirectory b.DockerfilePath
        = .ok (ShouldRebuild env b imageCache forceRebuild).imageCache.DockerfileHash
      ∧ (∃ configStr, env.marshalImageConf = .ok configStr
          ∧ (ShouldRebuild env b imageCache forceRebuild).imageCache.ImageConfigHash
            = env.hashString configStr)
      ∧ (ShouldRebuild env b imageCache forceRebuild).imageCache.EntrypointHash
          = entrypointHashOf env.hashString b.Entrypoint b.Cmd
      ∧ (b.RebuildStrategy ≠ .IgnoreContextChanges →
          contextHashOf env b
            = .ok (ShouldRebuild env b imageCache forceRebuild).imageCache.ContextHash)
      ∧ (b.RebuildStrategy = .IgnoreContextChanges →
          (ShouldRebuild env b imageCache forceRebuild).imageCache.ContextHash
            = imageCache.ContextHash) := by
  obtain ⟨hst, ⟨dh, hd⟩, ⟨cs, hm⟩, hctx⟩ :=
    shouldRebuild_steps_of_ok env b imageCache forceRebuild hs herr
  by_cases hi : b.RebuildStrategy = .IgnoreContextChanges
  · rw [shouldRebuild_eq_of_ignore env b imageCache forceRebuild dh cs hi hst hd hm] at hfr ⊢
    have hcond : (forceRebuild || rebuildBeforeContext env b imageCache dh cs) = true := by
      rcases hfr with h | h
      · rw [h]; rfl
      · rw [show rebuildBeforeContext env b imageCache dh cs = true from h]
        exact Bool.or_true _
    rw [if_pos hcond]
    exact ⟨hd, ⟨cs, hm, rfl⟩, rfl, fun h => absurd hi h, fun _ => rfl⟩
  · obtain ⟨ch, hc⟩ := hctx hi
    rw [shouldRebuild_eq_of_context env b imageCache forceRebuild dh cs ch hs hi hst hd hm hc]
      at hfr ⊢
    have hcond : (forceRebuild
        || (rebuildBeforeContext env b imageCache dh cs || imageCache.ContextHash != ch)) = true := by
      rcases hfr with h | h
      · rw [h]; rfl
      · rw [show (rebuildBeforeContext env b imageCache dh cs || imageCache.ContextHash != ch)
          = true from h]
        exact Bool.or_true _
    rw [if_pos hcond]
    exact ⟨hd, ⟨cs, hm, rfl⟩, rfl, fun _ => hc, fun h => absurd h hi⟩

/-- The witness of C10, amended: a forced call on a stale record under the
default strategy. -/
theorem shouldRebuild_persists_hashes_witness :
    (ShouldRebuild exampleBuildEnv exampleBuildHelper exampleStaleCache true).err = none
      ∧ (ShouldRebuild exampleBuildEnv exampleBuildHelper exampleStaleCache true).imageCache
          = { exampleImageCache with Tag := "v0" }
      ∧ exampleBuildEnv.hashDirectory exampleBuildHelper.DockerfilePath
          = .ok (ShouldRebuild exampleBuildEnv exampleBuildHelper exampleStaleCache
              true).imageCache.DockerfileHash :=
  ⟨by rfl, by rfl,
    (shouldRebuild_persists_hashes exampleBuildEnv exampleBuildHelper exampleStaleCache true
      (by decide) (by rfl) (Or.inl rfl)).1⟩

/-! ## Properties of the chart deployment engine -/

/-- The release cross-check asks for a deploy exactly when no listed release
has the release name and the cached revision. -/
theorem noMatchingRelease_eq_true_iff (releases : List Release) (releaseName revision : String) :
    noMatchingRelease releases releaseName revision = true ↔
      ∀ release ∈ releases, ¬ (release.Name = releaseName ∧ release.Revision = revision) := by
  unfold noMatchingRelease
  simp

/-- The outcome of `internalDeploy` without an output stream once the
override values are merged and substituted. -/
theorem internalDeploy_install_eq {V : Type} (env : HelmEnv V) (d : DeployConfig V)
    (helm : HelmClient V) (forceDeploy : Bool) (builtImages : BuiltImages)
    (merged values : V) (shouldRedeploy : Bool)
    (hm : mergedValues env d = .ok merged)
    (hr : replaceImages env d builtImages merged = .ok (shouldRedeploy, values)) :
    internalDeploy env d helm forceDeploy builtImages false =
      if (forceDeploy || shouldRedeploy) = true then
        match helm.InstallChart d.Name d.Namespace values with
        | .error e =>
          ⟨false, none,
            some ("Unable to deploy helm chart: " ++ e ++ "\nRun `"
              ++ env.ansiColor ("devspace purge -d " ++ d.Name) "white+b" ++ "` and `"
              ++ env.ansiColor "devspace deploy" "white+b" ++ "` to recreate the chart"),
            "", [.InstallChart d.Name d.Namespace values]⟩
        | .ok appRelease =>
          ⟨true, appRelease, none, "", [.InstallChart d.Name d.Namespace values]⟩
      else ⟨false, none, none, "", []⟩ := by
  unfold internalDeploy
  simp only [hm, hr]
  cases forceDeploy <;> cases shouldRedeploy <;> rfl

/-- The outcome of `internalDeploy` when merging the override values or the
substitution fails. -/
theorem internalDeploy_eq_of_values_error {V : Type} (env : HelmEnv V) (d : DeployConfig V)
    (helm : HelmClient V) (forceDeploy : Bool) (builtImages : BuiltImages) (out : Bool)
    (e : String)
    (hv : mergedValues env d = .error e
      ∨ ∃ merged, mergedValues env d = .ok merged
          ∧ replaceImages env d builtImages merged = .error e) :
    internalDeploy env d helm forceDeploy builtImages out = ⟨false, none, some e, "", []⟩ := by
  unfold internalDeploy
  rcases hv with hm | ⟨merged, hm, hr⟩
  · simp only [hm]
  · simp only [hm, hr]

/-- The substitution verdict once the override values are merged and
substituted. -/
theorem substitutionRedeploys_eq {V : Type} (env : HelmEnv V) (d : DeployConfig V)
    (builtImages : BuiltImages) (merged values : V) (shouldRedeploy : Bool)
    (hm : mergedValues env d = .ok merged)
    (hr : replaceImages env d builtImages merged = .ok (shouldRedeploy, values)) :
    substitutionRedeploys env d builtImages = shouldRedeploy := by
  unfold substitutionRedeploys
  simp only [hm, hr]

/-- What `internalDeploy` does without an output stream when it returns no
error: it deploys exactly when the flag is set or substitution asks for a
redeploy, and the release it returns is the one the install returned. -/
theorem internalDeploy_install_of_ok {V : Type} (env : HelmEnv V) (d : DeployConfig V)
    (helm : HelmClient V) (forceDeploy : Bool) (builtImages : BuiltImages)
    (herr : (internalDeploy env d helm forceDeploy builtImages false).err = none) :
    (internalDeploy env d helm forceDeploy builtImages false).wasDeployed
        = (forceDeploy || substitutionRedeploys env d builtImages)
      ∧ ((internalDeploy env d helm forceDeploy builtImages false).wasDeployed = true →
          ∃ merged shouldRedeploy values, mergedValues env d = .ok merged
            ∧ replaceImages env d builtImages merged = .ok (shouldRedeploy, values)
            ∧ helm.InstallChart d.Name d.Namespace values
              = .ok (internalDeploy env d helm forceDeploy builtImages false).release) := by
  cases hm : mergedValues env d with
  | error e =>
    rw [internalDeploy_eq_of_values_error env d helm forceDeploy builtImages false e
      (Or.inl hm)] at herr
    cases herr
  | ok merged =>
    cases hr : replaceImages env d builtImages merged with
    | error e =>
      rw [internalDeploy_eq_of_values_error env d helm forceDeploy builtImages false e
        (Or.inr ⟨merged, hm, hr⟩)] at herr
      cases herr
    | ok pr =>
      obtain ⟨shouldRedeploy, values⟩ := pr
      rw [substitutionRedeploys_eq env d builtImages merged values shouldRedeploy hm hr]
      rw [internalDeploy_install_eq env d helm forceDeploy builtImages merged values
        shouldRedeploy hm hr] at herr ⊢
      by_cases hf : (forceDeploy || shouldRedeploy) = true
      · rw [if_pos hf] at herr ⊢
        cases hi : helm.InstallChart d.Name d.Namespace values with
        | error e => rw [hi] at herr; cases herr
        | ok appRelease =>
          exact ⟨hf.symm, fun _ => ⟨merged, shouldRedeploy, values, rfl, hr, hi⟩⟩
      · rw [if_neg hf]
        exact ⟨(Bool.not_eq_true _ ▸ hf : (forceDeploy || shouldRedeploy) = false).symm,
          fun h => by cases h⟩

/-- A call of `internalDeploy` without an output stream that returns an error
reports no deploy. -/
theorem internalDeploy_install_of_err {V : Type} (env : HelmEnv V) (d : DeployConfig V)
    (helm : HelmClient V) (forceDeploy : Bool) (builtImages : BuiltImages)
    (herr : (internalDeploy env d helm forceDeploy builtImages false).err ≠ none) :
    (internalDeploy env d helm forceDeploy builtImages false).wasDeployed = false := by
  cases hm : mergedValues env d with
  | error e =>
    rw [internalDeploy_eq_of_values_error env d helm forceDeploy builtImages false e (Or.inl hm)]
  | ok merged =>
    cases hr : replaceImages env d builtImages merged with
    | error e =>
      rw [internalDeploy_eq_of_values_error env d helm forceDeploy builtImages false e
        (Or.inr ⟨merged, hm, hr⟩)]
    | ok pr =>
      obtain ⟨shouldRedeploy, values⟩ := pr
      rw [internalDeploy_install_eq env d helm forceDeploy builtImages merged values
        shouldRedeploy hm hr] at herr ⊢
      by_cases hf : (forceDeploy || shouldRedeploy) = true
      · rw [if_pos hf] at herr ⊢
        cases hi : helm.InstallChart d.Name d.Namespace values with
        | error e => rfl
        | ok appRelease => rw [hi] at herr; exact absurd rfl herr
      · rw [if_neg hf]

/-- The flag after line 73 is set exactly when the force flag is set or one of
the three cached hashes differs from the computed one. -/
theorem forceOrChanged_eq_true_iff (deployCache : DeploymentCache) (forceDeploy : Bool)
    (deploymentConfigHash hash helmOverridesHash : String) :
    forceOrChanged deployCache forceDeploy deploymentConfigHash hash helmOverridesHash = true ↔
      (forceDeploy = true ∨ deployCache.HelmOverridesHash ≠ helmOverridesHash
        ∨ deployCache.HelmChartHash ≠ hash
        ∨ deployCache.DeploymentConfigHash ≠ deploymentConfigHash) := by
  unfold forceOrChanged
  simp [or_assoc]

/-- The redeploy check leaves a set flag as it is, without listing releases. -/
theorem checkReleases_of_forced {V : Type} (helm : HelmClient V) (releaseName revision : String) :
    checkReleases helm releaseName revision true = .ok (true, []) := by
  unfold checkReleases
  rfl

/-- The redeploy check on an unset flag lists the releases and asks for a
deploy exactly when none of them matches. -/
theorem checkReleases_of_listed {V : Type} (helm : HelmClient V) (releaseName revision : String)
    (hl : helm.ListReleases.2 = none) :
    checkReleases helm releaseName revision false
      = .ok (noMatchingRelease helm.ListReleases.1 releaseName revision, [.ListReleases]) := by
  unfold checkReleases
  rcases hp : helm.ListReleases with ⟨releases, err⟩
  rw [hp] at hl
  dsimp only at hl
  subst hl
  rfl

/-- The redeploy check on an unset flag returns the error of the release
listing. -/
theorem checkReleases_of_list_error {V : Type} (helm : HelmClient V)
    (releaseName revision e : String) (hl : helm.ListReleases.2 = some e) :
    checkReleases helm releaseName revision false = (.error e : Except _ (Bool × _)) := by
  unfold checkReleases
  rcases hp : helm.ListReleases with ⟨releases, err⟩
  rw [hp] at hl
  dsimp only at hl
  subst hl
  rfl

/-- The flag the redeploy check returns is the flag it was given or the
verdict of the cross-check. -/
theorem checkReleases_flag {V : Type} (helm : HelmClient V) (releaseName revision : String)
    (forceDeploy flag : Bool) (calls : List (HelmCall V))
    (hc : checkReleases helm releaseName revision forceDeploy = .ok (flag, calls)) :
    flag = (forceDeploy || noMatchingRelease helm.ListReleases.1 releaseName revision) := by
  cases forceDeploy with
  | true =>
    rw [checkReleases_of_forced] at hc
    cases hc
    rfl
  | false =>
    cases hl : helm.ListReleases.2 with
    | some e =>
      rw [checkReleases_of_list_error helm releaseName revision e hl] at hc
      cases hc
    | none =>
      rw [checkReleases_of_listed helm releaseName revision hl] at hc
      cases hc
      rfl

/-- `Deploy` is `deployWith` once the hashes are computed and the client is
there. -/
theorem deploy_eq_deployWith {V : Type} (env : HelmEnv V) (d : DeployConfig V)
    (deployCache : DeploymentCache) (forceDeploy : Bool) (builtImages : BuiltImages)
    (helm : HelmClient V) (dch hash oh : String)
    (h1 : chartHash env d = .ok hash) (h2 : overridesHash env d.ValuesFiles "" = .ok oh)
    (h3 : deploymentConfigHash env = .ok dch) (h4 : helmClient env d = .ok helm) :
    Deploy env d deployCache forceDeploy builtImages
      = deployWith env d deployCache helm dch hash oh forceDeploy builtImages := by
  unfold Deploy
  simp only [h1, h2, h3, h4]

/-- A call of `Deploy` where hashing, marshalling or the creation of the
client fails returns that error and leaves the record as it was. -/
theorem deploy_eq_of_step_error {V : Type} (env : HelmEnv V) (d : DeployConfig V)
    (deployCache : DeploymentCache) (forceDeploy : Bool) (builtImages : BuiltImages)
    (hstep : (∃ e, chartHash env d = .error e)
      ∨ (∃ e, overridesHash env d.ValuesFiles "" = .error e)
      ∨ (∃ e, deploymentConfigHash env = .error e)
      ∨ (∃ e, helmClient env d = .error e)) :
    ∃ e, Deploy env d deployCache forceDeploy builtImages
      = ⟨false, some e, deployCache, d.Helm, []⟩ := by
  unfold Deploy
  cases h1 : chartHash env d with
  | error e => exact ⟨e, rfl⟩
  | ok hash =>
    cases h2 : overridesHash env d.ValuesFiles "" with
    | error e => exact ⟨e, rfl⟩
    | ok oh =>
      cases h3 : deploymentConfigHash env with
      | error e => exact ⟨e, rfl⟩
      | ok dch =>
        cases h4 : helmClient env d with
        | error e => exact ⟨e, rfl⟩
        | ok helm =>
          rcases hstep with ⟨e, h⟩ | ⟨e, h⟩ | ⟨e, h⟩ | ⟨e, h⟩
          · rw [h1] at h; cases h
          · rw [h2] at h; cases h
          · rw [h3] at h; cases h
          · rw [h4] at h; cases h

/-- Either a step before the redeploy check fails, or all of them succeed. -/
theorem deploy_steps_cases {V : Type} (env : HelmEnv V) (d : DeployConfig V) :
    ((∃ e, chartHash env d = .error e)
      ∨ (∃ e, overridesHash env d.ValuesFiles "" = .error e)
      ∨ (∃ e, deploymentConfigHash env = .error e)
      ∨ (∃ e, helmClient env d = .error e))
    ∨ (∃ hash oh dch helm, chartHash env d = .ok hash
        ∧ overridesHash env d.ValuesFiles "" = .ok oh
        ∧ deploymentConfigHash env = .ok dch ∧ helmClient env d = .ok helm) := by
  cases h1 : chartHash env d with
  | error e => exact Or.inl (Or.inl ⟨e, rfl⟩)
  | ok hash =>
    cases h2 : overridesHash env d.ValuesFiles "" with
    | error e => exact Or.inl (Or.inr (Or.inl ⟨e, rfl⟩))
    | ok oh =>
      cases h3 : deploymentConfigHash env with
      | error e => exact Or.inl (Or.inr (Or.inr (Or.inl ⟨e, rfl⟩)))
      | ok dch =>
        cases h4 : helmClient env d with
        | error e => exact Or.inl (Or.inr (Or.inr (Or.inr ⟨e, rfl⟩)))
        | ok helm => exact Or.inr ⟨hash, oh, dch, helm, rfl, rfl, rfl, rfl⟩

/-- A call of `deployWith` that returns an error reports no deploy and leaves
the record as it was. -/
theorem deployWith_of_err {V : Type} (env : HelmEnv V) (d : DeployConfig V)
    (deployCache : DeploymentCache) (helm : HelmClient V) (dch hash oh : String)
    (forceDeploy : Bool) (builtImages : BuiltImages)
    (herr : (deployWith env d deployCache helm dch hash oh forceDeploy builtImages).err ≠ none) :
    (deployWith env d deployCache helm dch hash oh forceDeploy builtImages).deployed = false
      ∧ (deployWith env d deployCache helm dch hash oh forceDeploy builtImages).deployCache
          = deployCache := by
  unfold deployWith at herr ⊢
  cases hc : checkReleases helm d.Name deployCache.HelmReleaseRevision
      (forceOrChanged deployCache forceDeploy dch hash oh) with
  | error e => simp only [hc, and_self]
  | ok pr =>
    obtain ⟨flag, calls⟩ := pr
    simp only [hc] at herr ⊢
    cases he : (internalDeploy env d helm flag builtImages false).err with
    | some e => simp only [he, and_self]
    | none =>
      simp only [he] at herr
      split at herr <;> exact absurd rfl herr

/-- What a call of `deployWith` that returns no error does: the redeploy check
succeeded, and the deploy is reported and the record updated exactly when
`internalDeploy` deployed. -/
theorem deployWith_of_ok {V : Type} (env : HelmEnv V) (d : DeployConfig V)
    (deployCache : DeploymentCache) (helm : HelmClient V) (dch hash oh : String)
    (forceDeploy : Bool) (builtImages : BuiltImages)
    (herr : (deployWith env d deployCache helm dch hash oh forceDeploy builtImages).err = none) :
    ∃ flag calls,
      checkReleases helm d.Name deployCache.HelmReleaseRevision
          (forceOrChanged deployCache forceDeploy dch hash oh) = .ok (flag, calls)
      ∧ (internalDeploy env d helm flag builtImages false).err = none
      ∧ (deployWith env d deployCache helm dch hash oh forceDeploy builtImages).deployed
          = (internalDeploy env d helm flag builtImages false).wasDeployed
      ∧ (deployWith env d deployCache helm dch hash oh forceDeploy builtImages).deployCache
          = (if (internalDeploy env d helm flag builtImages false).wasDeployed = true then
              updateDeployCache deployCache dch hash oh
                (internalDeploy env d helm flag builtImages false).release
            else deployCache) := by
  unfold deployWith at herr ⊢
  cases hc : checkReleases helm d.Name deployCache.HelmReleaseRevision
      (forceOrChanged deployCache forceDeploy dch hash oh) with
  | error e =>
    simp only [hc] at herr
    cases herr
  | ok pr =>
    obtain ⟨flag, calls⟩ := pr
    simp only [hc] at herr ⊢
    cases he : (internalDeploy env d helm flag builtImages false).err with
    | some e =>
      simp only [he] at herr
      cases herr
    | none =>
      refine ⟨flag, calls, rfl, he, ?_⟩
      simp only [he]
      cases hw : (internalDeploy env d helm flag builtImages false).wasDeployed <;> simp

/-- C6: whenever chart Deploy returns an error it reports deployed = false and
the four fields of the deployment cache record are what they were before the
call. -/
theorem deploy_err_atomic {V : Type} (env : HelmEnv V) (d : DeployConfig V)
    (deployCache : DeploymentCache) (forceDeploy : Bool) (builtImages : BuiltImages)
    (herr : (Deploy env d deployCache forceDeploy builtImages).err ≠ none) :
    (Deploy env d deployCache forceDeploy builtImages).deployed = false
      ∧ (Deploy env d deployCache forceDeploy builtImages).deployCache.DeploymentConfigHash
          = deployCache.DeploymentConfigHash
      ∧ (Deploy env d deployCache forceDeploy builtImages).deployCache.HelmChartHash
          = deployCache.HelmChartHash
      ∧ (Deploy env d deployCache forceDeploy builtImages).deployCache.HelmOverridesHash
          = deployCache.HelmOverridesHash
      ∧ (Deploy env d deployCache forceDeploy builtImages).deployCache.HelmReleaseRevision
          = deployCache.HelmReleaseRevision := by
  rcases deploy_steps_cases env d with hstep | ⟨hash, oh, dch, helm, h1, h2, h3, h4⟩
  · obtain ⟨e, he⟩ := deploy_eq_of_step_error env d deployCache forceDeploy builtImages hstep
    rw [he]
    exact ⟨rfl, rfl, rfl, rfl, rfl⟩
  · rw [deploy_eq_deployWith env d deployCache forceDeploy builtImages helm dch hash oh h1 h2 h3
      h4] at herr ⊢
    obtain ⟨hd, hc⟩ := deployWith_of_err env d deployCache helm dch hash oh forceDeploy
      builtImages herr
    rw [hc]
    exact ⟨hd, rfl, rfl, rfl, rfl⟩

/-- The witness of C6: a forced deploy whose install fails. -/
theorem deploy_err_atomic_witness :
    (Deploy exampleHelmEnv { exampleDeployConfig with Helm := some exampleFailingClient }
        exampleDeployCache true []).err ≠ none
      ∧ (Deploy exampleHelmEnv { exampleDeployConfig with Helm := some exampleFailingClient }
          exampleDeployCache true []).deployed = false
      ∧ (Deploy exampleHelmEnv { exampleDeployConfig with Helm := some exampleFailingClient }
          exampleDeployCache true []).deployCache.HelmReleaseRevision = "1" :=
  ⟨by decide,
    (deploy_err_atomic exampleHelmEnv { exampleDeployConfig with Helm := some exampleFailingClient }
      exampleDeployCache true [] (by decide)).1,
    (deploy_err_atomic exampleHelmEnv { exampleDeployConfig with Helm := some exampleFailingClient }
      exampleDeployCache true [] (by decide)).2.2.2.2⟩

/-- A call of `Deploy` that reports a deploy returned no error. -/
theorem deploy_ok_of_deployed {V : Type} (env : HelmEnv V) (d : DeployConfig V)
    (deployCache : DeploymentCache) (forceDeploy : Bool) (builtImages : BuiltImages)
    (hdep : (Deploy env d deployCache forceDeploy builtImages).deployed = true) :
    (Deploy env d deployCache forceDeploy builtImages).err = none := by
  by_contra herr
  rcases deploy_steps_cases env d with hstep | ⟨hash, oh, dch, helm, h1, h2, h3, h4⟩
  · obtain ⟨e, he⟩ := deploy_eq_of_step_error env d deployCache forceDeploy builtImages hstep
    rw [he] at hdep
    cases hdep
  · rw [deploy_eq_deployWith env d deployCache forceDeploy builtImages helm dch hash oh h1 h2 h3
      h4] at herr hdep
    rw [(deployWith_of_err env d deployCache helm dch hash oh forceDeploy builtImages herr).1]
      at hdep
    cases hdep

/-- What a call of `Deploy` that returns no error does, in terms of the steps
it is made of. -/
theorem deploy_of_ok {V : Type} (env : HelmEnv V) (d : DeployConfig V)
    (deployCache : DeploymentCache) (forceDeploy : Bool) (builtImages : BuiltImages)
    (herr : (Deploy env d deployCache forceDeploy builtImages).err = none) :
    ∃ hash oh dch helm flag,
      chartHash env d = .ok hash ∧ overridesHash env d.ValuesFiles "" = .ok oh
      ∧ deploymentConfigHash env = .ok dch ∧ helmClient env d = .ok helm
      ∧ flag = (forceOrChanged deployCache forceDeploy dch hash oh
          || noMatchingRelease helm.ListReleases.1 d.Name deployCache.HelmReleaseRevision)
      ∧ (internalDeploy env d helm flag builtImages false).err = none
      ∧ (Deploy env d deployCache forceDeploy builtImages).deployed
          = (flag || substitutionRedeploys env d builtImages)
      ∧ (Deploy env d deployCache forceDeploy builtImages).deployCache
          = (if (internalDeploy env d helm flag builtImages false).wasDeployed = true then
              updateDeployCache deployCache dch hash oh
                (internalDeploy env d helm flag builtImages false).release
            else deployCache)
      ∧ (internalDeploy env d helm flag builtImages false).wasDeployed
          = (Deploy env d deployCache forceDeploy builtImages).deployed := by
  rcases deploy_steps_cases env d with hstep | ⟨hash, oh, dch, helm, h1, h2, h3, h4⟩
  · obtain ⟨e, he⟩ := deploy_eq_of_step_error env d deployCache forceDeploy builtImages hstep
    rw [he] at herr
    cases herr
  · rw [deploy_eq_deployWith env d deployCache forceDeploy builtImages helm dch hash oh h1 h2 h3
      h4] at herr ⊢
    obtain ⟨flag, calls, hc, hi, hdep, hcache⟩ :=
      deployWith_of_ok env d deployCache helm dch hash oh forceDeploy builtImages herr
    refine ⟨hash, oh, dch, helm, flag, h1, h2, h3, h4, ?_, hi, ?_, hcache, hdep.symm⟩
    · exact checkReleases_flag helm d.Name deployCache.HelmReleaseRevision _ flag calls hc
    · rw [hdep]
      exact (internalDeploy_install_of_ok env d helm flag builtImages hi).1

/-- Substitution asks for a redeploy exactly when it is enabled and the call
on the merged override values reports one. -/
theorem substitutionRedeploys_eq_true_iff {V : Type} (env : HelmEnv V) (d : DeployConfig V)
    (builtImages : BuiltImages) :
    substitutionRedeploys env d builtImages = true ↔
      (replaceImageTagsEnabled d = true
        ∧ ∃ merged values, mergedValues env d = .ok merged
            ∧ env.ReplaceImageNames merged builtImages = .ok (true, values)) := by
  unfold substitutionRedeploys replaceImages
  cases hm : mergedValues env d with
  | error e => simp
  | ok merged =>
    cases hen : replaceImageTagsEnabled d with
    | false => simp
    | true =>
      cases hr : env.ReplaceImageNames merged builtImages with
      | error e => simp [hr]
      | ok pr =>
        obtain ⟨shouldRedeploy, values⟩ := pr
        cases shouldRedeploy <;> simp [hr]

/-- C3: a chart Deploy call that returns without error reports deployed = true
exactly when the force flag is set, or the cached overrides, chart or
deployment-config hash differs from the computed one, or no live release has
the deployment's name and the cached revision, or image-tag substitution is
enabled and reports that a redeploy is required. -/
theorem deploy_deployed_iff {V : Type} (env : HelmEnv V) (d : DeployConfig V)
    (deployCache : DeploymentCache) (forceDeploy : Bool) (builtImages : BuiltImages)
    (helm : HelmClient V) (hclient : helmClient env d = .ok helm)
    (herr : (Deploy env d deployCache forceDeploy builtImages).err = none) :
    (Deploy env d deployCache forceDeploy builtImages).deployed = true ↔
      (forceDeploy = true
        ∨ overridesHash env d.ValuesFiles "" ≠ .ok deployCache.HelmOverridesHash
        ∨ chartHash env d ≠ .ok deployCache.HelmChartHash
        ∨ deploymentConfigHash env ≠ .ok deployCache.DeploymentConfigHash
        ∨ (∀ release ∈ helm.ListReleases.1,
            ¬ (release.Name = d.Name ∧ release.Revision = deployCache.HelmReleaseRevision))
        ∨ (replaceImageTagsEnabled d = true
            ∧ ∃ merged values, mergedValues env d = .ok merged
                ∧ env.ReplaceImageNames merged builtImages = .ok (true, values))) := by
  obtain ⟨hash, oh, dch, helm', flag, h1, h2, h3, h4, hflag, -, hdep, -, -⟩ :=
    deploy_of_ok env d deployCache forceDeploy builtImages herr
  rw [hclient] at h4
  cases h4
  rw [hdep, hflag, Bool.or_eq_true, Bool.or_eq_true, forceOrChanged_eq_true_iff,
    noMatchingRelease_eq_true_iff, substitutionRedeploys_eq_true_iff, h1, h2, h3]
  simp only [ne_eq, Except.ok.injEq, or_assoc]
  constructor
  · rintro (h | h | h | h | h | h)
    · exact Or.inl h
    · exact Or.inr (Or.inl fun e => h e.symm)
    · exact Or.inr (Or.inr (Or.inl fun e => h e.symm))
    · exact Or.inr (Or.inr (Or.inr (Or.inl fun e => h e.symm)))
    · exact Or.inr (Or.inr (Or.inr (Or.inr (Or.inl h))))
    · exact Or.inr (Or.inr (Or.inr (Or.inr (Or.inr h))))
  · rintro (h | h | h | h | h | h)
    · exact Or.inl h
    · exact Or.inr (Or.inl fun e => h e.symm)
    · exact Or.inr (Or.inr (Or.inl fun e => h e.symm))
    · exact Or.inr (Or.inr (Or.inr (Or.inl fun e => h e.symm)))
    · exact Or.inr (Or.inr (Or.inr (Or.inr (Or.inl h))))
    · exact Or.inr (Or.inr (Or.inr (Or.inr (Or.inr h))))

/-- The witness of C3: every hash is current and the release is live at the
cached revision, and the substitution of a newly built image asks for the
redeploy. -/
theorem deploy_deployed_iff_witness :
    helmClient exampleHelmEnv exampleDeployConfig = .ok exampleHelmClient
      ∧ (Deploy exampleHelmEnv exampleDeployConfig exampleDeployCache false [("app", "v7")]).err
          = none
      ∧ (Deploy exampleHelmEnv exampleDeployConfig exampleDeployCache false
          [("app", "v7")]).deployed = true :=
  ⟨by rfl, by rfl,
    (deploy_deployed_iff exampleHelmEnv exampleDeployConfig exampleDeployCache false
      [("app", "v7")] exampleHelmClient (by rfl) (by rfl)).mpr
      (Or.inr (Or.inr (Or.inr (Or.inr (Or.inr
        ⟨by rfl, [("image", "app"), ("replicas", "2")],
          [("image", "app:v7"), ("replicas", "2")], by rfl, by rfl⟩)))))⟩

/-- C8: when the force flag is set or one of the three cached hashes differs
from the computed one, a chart Deploy call that returns without error reports
deployed = true, whatever release list the client returns. -/
theorem deploy_changed_deploys {V : Type} (env : HelmEnv V) (d : DeployConfig V)
    (deployCache : DeploymentCache) (forceDeploy : Bool) (builtImages : BuiltImages)
    (hchg : forceDeploy = true
      ∨ overridesHash env d.ValuesFiles "" ≠ .ok deployCache.HelmOverridesHash
      ∨ chartHash env d ≠ .ok deployCache.HelmChartHash
      ∨ deploymentConfigHash env ≠ .ok deployCache.DeploymentConfigHash)
    (herr : (Deploy env d deployCache forceDeploy builtImages).err = none) :
    (Deploy env d deployCache forceDeploy builtImages).deployed = true := by
  obtain ⟨hash, oh, dch, helm, flag, h1, h2, h3, h4, hflag, -, hdep, -, -⟩ :=
    deploy_of_ok env d deployCache forceDeploy builtImages herr
  have hf : forceOrChanged deployCache forceDeploy dch hash oh = true := by
    rw [forceOrChanged_eq_true_iff]
    rw [h1, h2, h3] at hchg
    rcases hchg with h | h | h | h
    · exact Or.inl h
    · exact Or.inr (Or.inl fun e => h (by rw [e]))
    · exact Or.inr (Or.inr (Or.inl fun e => h (by rw [e])))
    · exact Or.inr (Or.inr (Or.inr fun e => h (by rw [e])))
  rw [hdep, hflag, hf]
  rfl

/-- The witness of C8: a stale chart hash, with the release live at the cached
revision. -/
theorem deploy_changed_deploys_witness :
    (∃ release ∈ exampleHelmClient.ListReleases.1,
        release.Name = exampleDeployConfig.Name ∧ release.Revision = "1")
      ∧ (Deploy exampleHelmEnv exampleDeployConfig
          { exampleDeployCache with HelmChartHash := "dir:old" } false []).deployed = true :=
  ⟨⟨⟨"deploy1", "DEPLOYED", "1"⟩, by decide, by decide⟩,
    deploy_changed_deploys exampleHelmEnv exampleDeployConfig
      { exampleDeployCache with HelmChartHash := "dir:old" } false []
      (Or.inr (Or.inr (Or.inl (fun h => by
        have h' : (Except.ok "dir:chart" : Except String String) = .ok "dir:old" := h
        simp at h')))) (by rfl)⟩

/-- C4, as stated, fails: without force, with the three cached hashes current
and the release live at the cached revision, the substitution of a newly built
image makes Deploy install the chart, report deployed = true and move the
cached revision. -/
theorem deploy_current_cache_redeploys :
    chartHash exampleHelmEnv exampleDeployConfig = .ok exampleDeployCache.HelmChartHash
      ∧ overridesHash exampleHelmEnv exampleDeployConfig.ValuesFiles ""
          = .ok exampleDeployCache.HelmOverridesHash
      ∧ deploymentConfigHash exampleHelmEnv = .ok exampleDeployCache.DeploymentConfigHash
      ∧ exampleHelmClient.ListReleases = ([⟨"deploy1", "DEPLOYED", "1"⟩], none)
      ∧ exampleDeployCache.HelmReleaseRevision = "1"
      ∧ (Deploy exampleHelmEnv exampleDeployConfig exampleDeployCache false
          [("app", "v7")]).deployed = true
      ∧ (Deploy exampleHelmEnv exampleDeployConfig exampleDeployCache false
          [("app", "v7")]).err = none
      ∧ (Deploy exampleHelmEnv exampleDeployConfig exampleDeployCache false
          [("app", "v7")]).deployCache.HelmReleaseRevision = "2" :=
  ⟨by rfl, by rfl, by rfl, by rfl, by rfl, by rfl, by rfl, by rfl⟩

/-- C4, amended: without force, when the three cached hashes equal the
computed ones, the client is there, its release list has a release with the
deployment's name at the cached revision, and image-tag substitution is
disabled or does not report that a redeploy is required, Deploy reports
deployed = false and leaves the deployment cache record as it was; it returns
no error when the release listing, the merge of the override values and the
substitution succeed. -/
theorem deploy_skip {V : Type} (env : HelmEnv V) (d : DeployConfig V)
    (deployCache : DeploymentCache) (builtImages : BuiltImages) (helm : HelmClient V)
    (h1 : chartHash env d = .ok deployCache.HelmChartHash)
    (h2 : overridesHash env d.ValuesFiles "" = .ok deployCache.HelmOverridesHash)
    (h3 : deploymentConfigHash env = .ok deployCache.DeploymentConfigHash)
    (h4 : helmClient env d = .ok helm)
    (hrel : ∃ release ∈ helm.ListReleases.1,
      release.Name = d.Name ∧ release.Revision = deployCache.HelmReleaseRevision)
    (hsub : replaceImageTagsEnabled d = false
      ∨ ∀ merged values, mergedValues env d = .ok merged →
          env.ReplaceImageNames merged builtImages ≠ .ok (true, values)) :
    (Deploy env d deployCache false builtImages).deployed = false
      ∧ (Deploy env d deployCache false builtImages).deployCache = deployCache
      ∧ (helm.ListReleases.2 = none →
          (∃ merged shouldRedeploy values, mergedValues env d = .ok merged
            ∧ replaceImages env d builtImages merged = .ok (shouldRedeploy, values)) →
          (Deploy env d deployCache false builtImages).err = none) := by
  have hns : substitutionRedeploys env d builtImages = false := by
    rw [← Bool.not_eq_true, substitutionRedeploys_eq_true_iff]
    rintro ⟨hen, merged, values, hm, hr⟩
    rcases hsub with h | h
    · rw [hen] at h
      cases h
    · exact h merged values hm hr
  have hnm : noMatchingRelease helm.ListReleases.1 d.Name deployCache.HelmReleaseRevision
      = false := by
    rw [← Bool.not_eq_true, noMatchingRelease_eq_true_iff]
    obtain ⟨release, hmem, hname⟩ := hrel
    exact fun h => h release hmem hname
  have hfc : forceOrChanged deployCache false deployCache.DeploymentConfigHash
      deployCache.HelmChartHash deployCache.HelmOverridesHash = false := by
    rw [← Bool.not_eq_true, forceOrChanged_eq_true_iff]
    rintro (h | h | h | h)
    · cases h
    · exact h rfl
    · exact h rfl
    · exact h rfl
  have hnot : ¬ (Deploy env d deployCache false builtImages).deployed = true := by
    intro hdep
    obtain ⟨hash, oh, dch, helm', flag, e1, e2, e3, e4, hflag, -, hd, -, -⟩ :=
      deploy_of_ok env d deployCache false builtImages
        (deploy_ok_of_deployed env d deployCache false builtImages hdep)
    rw [h1] at e1
    rw [h2] at e2
    rw [h3] at e3
    rw [h4] at e4
    cases e1
    cases e2
    cases e3
    cases e4
    rw [hd, hflag, hfc, hnm, hns] at hdep
    cases hdep
  refine ⟨Bool.not_eq_true _ ▸ hnot, ?_, ?_⟩
  · by_cases herr : (Deploy env d deployCache false builtImages).err = none
    · obtain ⟨hash, oh, dch, helm', flag, -, -, -, -, -, -, -, hcache, hw⟩ :=
        deploy_of_ok env d deployCache false builtImages herr
      rw [hcache, if_neg (by rw [hw]; exact hnot)]
    · rw [deploy_eq_deployWith env d deployCache false builtImages helm _ _ _ h1 h2 h3 h4]
        at herr ⊢
      exact (deployWith_of_err env d deployCache helm _ _ _ false builtImages herr).2
  · rintro hl ⟨merged, shouldRedeploy, values, hm, hr⟩
    have hsr : shouldRedeploy = false := by
      rw [← substitutionRedeploys_eq env d builtImages merged values shouldRedeploy hm hr]
      exact hns
    subst hsr
    rw [deploy_eq_deployWith env d deployCache false builtImages helm _ _ _ h1 h2 h3 h4]
    unfold deployWith
    simp only [hfc, checkReleases_of_listed helm d.Name deployCache.HelmReleaseRevision hl, hnm,
      internalDeploy_install_eq env d helm false builtImages merged values false hm hr]
    rfl

/-- The witness of C4, amended: the deploy of the concrete runs with no newly
built image. -/
theorem deploy_skip_witness :
    (Deploy exampleHelmEnv exampleDeployConfig exampleDeployCache false []).deployed = false
      ∧ (Deploy exampleHelmEnv exampleDeployConfig exampleDeployCache false []).deployCache
          = exampleDeployCache
      ∧ (Deploy exampleHelmEnv exampleDeployConfig exampleDeployCache false []).err = none :=
  by
  have key := deploy_skip exampleHelmEnv exampleDeployConfig exampleDeployCache []
    exampleHelmClient (by rfl) (by rfl) (by rfl) (by rfl)
    ⟨⟨"deploy1", "DEPLOYED", "1"⟩, by decide, by decide⟩
    (Or.inr (fun merged values hm h => by
      have hm' : (Except.ok [("image", "app"), ("replicas", "2")] : Except String ExampleValues)
          = .ok merged := hm
      cases hm'
      have h' : (Except.ok (false, [("image", "app"), ("replicas", "2")]) :
          Except String (Bool × ExampleValues)) = .ok (true, values) := h
      simp at h'))
  exact ⟨key.1, key.2.1, by rfl⟩

/-- C5, as stated, fails: an install that succeeds and returns no release
makes Deploy report deployed = true and leave the cached revision as it was,
so the record holds the revision of no release that the install produced. -/
theorem deploy_without_release_keeps_revision :
    (∀ releaseName releaseNamespace values,
        exampleSilentClient.InstallChart releaseName releaseNamespace values = .ok none)
      ∧ (Deploy exampleHelmEnv { exampleDeployConfig with Helm := some exampleSilentClient }
          { exampleDeployCache with HelmReleaseRevision := "0" } true []).deployed = true
      ∧ (Deploy exampleHelmEnv { exampleDeployConfig with Helm := some exampleSilentClient }
          { exampleDeployCache with HelmReleaseRevision := "0" } true []).err = none
      ∧ (Deploy exampleHelmEnv { exampleDeployConfig with Helm := some exampleSilentClient }
          { exampleDeployCache with HelmReleaseRevision := "0" } true
          []).deployCache.HelmReleaseRevision = "0" :=
  ⟨fun _ _ _ => rfl, by rfl, by rfl, by rfl⟩

/-- The fields of the updated record: the three hashes are the given ones, and
the revision is that of the release when there is one and the old one
otherwise. -/
theorem updateDeployCache_fields (deployCache : DeploymentCache) (dch hash oh : String)
    (appRelease : Option Release) :
    (updateDeployCache deployCache dch hash oh appRelease).DeploymentConfigHash = dch
      ∧ (updateDeployCache deployCache dch hash oh appRelease).HelmChartHash = hash
      ∧ (updateDeployCache deployCache dch hash oh appRelease).HelmOverridesHash = oh
      ∧ (∀ release, appRelease = some release →
          (updateDeployCache deployCache dch hash oh appRelease).HelmReleaseRevision
            = release.Revision)
      ∧ (appRelease = none →
          (updateDeployCache deployCache dch hash oh appRelease).HelmReleaseRevision
            = deployCache.HelmReleaseRevision) := by
  unfold updateDeployCache
  cases appRelease with
  | none => exact ⟨rfl, rfl, rfl, fun _ h => (by cases h), fun _ => rfl⟩
  | some release => exact ⟨rfl, rfl, rfl, fun _ h => (by cases h; rfl), fun h => (by cases h)⟩

/-- C5, amended: after a chart Deploy call that returns deployed = true the
deployment cache record holds the deployment-config, chart and overrides
hashes computed in that call, and the install of that call returned without
error; when it returned a release the record holds that release's revision,
and when it returned none the cached revision is left as it was. -/
theorem deploy_persists {V : Type} (env : HelmEnv V) (d : DeployConfig V)
    (deployCache : DeploymentCache) (forceDeploy : Bool) (builtImages : BuiltImages)
    (hdep : (Deploy env d deployCache forceDeploy builtImages).deployed = true) :
    deploymentConfigHash env
        = .ok (Deploy env d deployCache forceDeploy builtImages).deployCache.DeploymentConfigHash
      ∧ chartHash env d
        = .ok (Deploy env d deployCache forceDeploy builtImages).deployCache.HelmChartHash
      ∧ overridesHash env d.ValuesFiles ""
        = .ok (Deploy env d deployCache forceDeploy builtImages).deployCache.HelmOverridesHash
      ∧ ∃ helm values appRelease, helmClient env d = .ok helm
          ∧ helm.InstallChart d.Name d.Namespace values = .ok appRelease
          ∧ (∀ release, appRelease = some release →
              (Deploy env d deployCache forceDeploy builtImages).deployCache.HelmReleaseRevision
                = release.Revision)
          ∧ (appRelease = none →
              (Deploy env d deployCache forceDeploy builtImages).deployCache.HelmReleaseRevision
                = deployCache.HelmReleaseRevision) := by
  obtain ⟨hash, oh, dch, helm, flag, h1, h2, h3, h4, -, hi, -, hcache, hw⟩ :=
    deploy_of_ok env d deployCache forceDeploy builtImages
      (deploy_ok_of_deployed env d deployCache forceDeploy builtImages hdep)
  have hwas : (internalDeploy env d helm flag builtImages false).wasDeployed = true := by
    rw [hw]
    exact hdep
  obtain ⟨merged, shouldRedeploy, values, -, -, hinst⟩ :=
    (internalDeploy_install_of_ok env d helm flag builtImages hi).2 hwas
  rw [hcache, if_pos hwas]
  obtain ⟨f1, f2, f3, f4, f5⟩ := updateDeployCache_fields deployCache dch hash oh
    (internalDeploy env d helm flag builtImages false).release
  rw [f1, f2, f3]
  exact ⟨h3, h1, h2, helm, values, _, h4, hinst, f4, f5⟩

/-- The witness of C5, amended: a forced deploy whose install returns the
release at revision 2. -/
theorem deploy_persists_witness :
    (Deploy exampleHelmEnv exampleDeployConfig
        ⟨"sha:old", "dir:old", "", ""⟩ true []).deployCache = ⟨"sha:name: deploy1", "dir:chart",
          "dir:values.yaml", "2"⟩
      ∧ chartHash exampleHelmEnv exampleDeployConfig
        = .ok (Deploy exampleHelmEnv exampleDeployConfig
            ⟨"sha:old", "dir:old", "", ""⟩ true []).deployCache.HelmChartHash :=
  ⟨by rfl,
    (deploy_persists exampleHelmEnv exampleDeployConfig ⟨"sha:old", "dir:old", "", ""⟩ true []
      (by rfl)).2.1⟩

/-! ## Re-runs of the build change-detector -/

/-- Writing into a record the hashes it already holds leaves it as it is. -/
theorem imageCache_rewrite_eq (imageCache : ImageCache) (dh ich ch eh : String)
    (h1 : imageCache.DockerfileHash = dh) (h2 : imageCache.ImageConfigHash = ich)
    (h3 : imageCache.ContextHash = ch) (h4 : imageCache.EntrypointHash = eh) :
    ({ imageCache with
        DockerfileHash := dh
        ImageConfigHash := ich
        ContextHash := ch
        EntrypointHash := eh } : ImageCache) = imageCache := by
  subst h1 h2 h3 h4
  rfl

/-- C11: for a strategy other than Always, a non-empty cached tag and no drift
condition, after a first call of ShouldRebuild that returns without error,
forced or not, a second call in the same environment on the record the first
call left, forced or not, decides no rebuild, returns no error and leaves that
record unchanged. -/
theorem shouldRebuild_idempotent (env : BuildEnv) (b : BuildHelper) (imageCache : ImageCache)
    (forceFirst forceSecond : Bool) (hs : b.RebuildStrategy ≠ .Always)
    (htag : imageCache.Tag ≠ "")
    (hdrift : ¬ (∃ current last, b.KubeClient = some current ∧ env.LastContext = some last
      ∧ last ≠ current ∧ env.IsLocalKubernetes last = true))
    (herr : (ShouldRebuild env b imageCache forceFirst).err = none) :
    ShouldRebuild env b (ShouldRebuild env b imageCache forceFirst).imageCache forceSecond
      = ⟨false, none, (ShouldRebuild env b imageCache forceFirst).imageCache⟩ := by
  obtain ⟨hst, ⟨dh, hd⟩, ⟨cs, hm⟩, hctx⟩ :=
    shouldRebuild_steps_of_ok env b imageCache forceFirst hs herr
  have hdr : contextDrift env b = false := by
    rw [← Bool.not_eq_true, contextDrift_eq_true_iff]
    exact hdrift
  by_cases hi : b.RebuildStrategy = .IgnoreContextChanges
  · rw [shouldRebuild_eq_of_ignore env b imageCache forceFirst dh cs hi hst hd hm]
    have hkey : ∀ c : ImageCache, c.Tag ≠ "" → c.DockerfileHash = dh →
        c.ImageConfigHash = env.hashString cs →
        c.EntrypointHash = entrypointHashOf env.hashString b.Entrypoint b.Cmd →
        ShouldRebuild env b c forceSecond = ⟨false, none, c⟩ := by
      intro c t1 t2 t3 t4
      have hb : rebuildBeforeContext env b c dh cs = false :=
        (rebuildBeforeContext_eq_false_iff env b c dh cs).mpr ⟨t1, t2, t3, t4, hdr⟩
      rw [shouldRebuild_eq_of_ignore env b c forceSecond dh cs hi hst hd hm, hb]
      cases forceSecond
      · rfl
      · simp only [Bool.or_false, if_true]
        rw [imageCache_rewrite_eq c dh (env.hashString cs) c.ContextHash
          (entrypointHashOf env.hashString b.Entrypoint b.Cmd) t2 t3 rfl t4]
    by_cases hcond : (forceFirst || rebuildBeforeContext env b imageCache dh cs) = true
    · simp only [if_pos hcond]
      exact hkey _ htag rfl rfl rfl
    · simp only [if_neg hcond]
      rw [Bool.not_eq_true, Bool.or_eq_false_iff] at hcond
      obtain ⟨-, t2, t3, t4, -⟩ :=
        (rebuildBeforeContext_eq_false_iff env b imageCache dh cs).mp hcond.2
      exact hkey _ htag t2 t3 t4
  · obtain ⟨ch, hc⟩ := hctx hi
    rw [shouldRebuild_eq_of_context env b imageCache forceFirst dh cs ch hs hi hst hd hm hc]
    have hkey : ∀ c : ImageCache, c.Tag ≠ "" → c.DockerfileHash = dh →
        c.ImageConfigHash = env.hashString cs →
        c.EntrypointHash = entrypointHashOf env.hashString b.Entrypoint b.Cmd →
        c.ContextHash = ch →
        ShouldRebuild env b c forceSecond = ⟨false, none, c⟩ := by
      intro c t1 t2 t3 t4 t5
      have hb : rebuildBeforeContext env b c dh cs = false :=
        (rebuildBeforeContext_eq_false_iff env b c dh cs).mpr ⟨t1, t2, t3, t4, hdr⟩
      have hne : (c.ContextHash != ch) = false := by
        rw [t5]
        exact bne_self_eq_false ch
      rw [shouldRebuild_eq_of_context env b c forceSecond dh cs ch hs hi hst hd hm hc, hb, hne]
      cases forceSecond
      · rfl
      · simp only [Bool.or_false, if_true]
        rw [imageCache_rewrite_eq c dh (env.hashString cs) ch
          (entrypointHashOf env.hashString b.Entrypoint b.Cmd) t2 t3 t5 t4]
    by_cases hcond : (forceFirst
        || (rebuildBeforeContext env b imageCache dh cs || imageCache.ContextHash != ch)) = true
    · simp only [if_pos hcond]
      exact hkey _ htag rfl rfl rfl rfl
    · simp only [if_neg hcond]
      rw [Bool.not_eq_true, Bool.or_eq_false_iff, Bool.or_eq_false_iff] at hcond
      obtain ⟨-, t2, t3, t4, -⟩ :=
        (rebuildBeforeContext_eq_false_iff env b imageCache dh cs).mp hcond.2.1
      have t5 : imageCache.ContextHash = ch := by
        have h := hcond.2.2
        rwa [bne_eq_false_iff_eq] at h
      exact hkey _ htag t2 t3 t4 t5

/-- The witness of C11: a first call on a stale record decides rebuild and
writes the four hashes, and the second call on that record is a no-op. -/
theorem shouldRebuild_idempotent_witness :
    (ShouldRebuild exampleBuildEnv exampleBuildHelper exampleStaleCache false).mustRebuild = true
      ∧ ShouldRebuild exampleBuildEnv exampleBuildHelper
          (ShouldRebuild exampleBuildEnv exampleBuildHelper exampleStaleCache false).imageCache
          false
        = ⟨false, none,
            (ShouldRebuild exampleBuildEnv exampleBuildHelper exampleStaleCache false).imageCache⟩ :=
  ⟨by rfl,
    shouldRebuild_idempotent exampleBuildEnv exampleBuildHelper exampleStaleCache false false
      (by decide) (by decide)
      (by
        rintro ⟨current, last, hk, hl, hne, -⟩
        have hk' : some "minikube" = some current := hk
        have hl' : some "minikube" = some last := hl
        cases hk'
        cases hl'
        exact hne rfl)
      (by rfl)⟩

/-- C13: under the strategy IgnoreContextChanges, two calls of ShouldRebuild
that differ only in what resolving, filtering and hashing the build context
return give the same decision, the same error and the same record, and the
context hash of the record is left as it was, whatever the decision and the
force flag. -/
theorem shouldRebuild_ignores_context (env : BuildEnv) (b : BuildHelper)
    (imageCache : ImageCache) (forceRebuild : Bool)
    (getContext : String → String → Except String (String × String))
    (canonical : String → String)
    (readIgnore : String → String → Except String (List String))
    (hashContext : String → List String → Except String String)
    (hi : b.RebuildStrategy = .IgnoreContextChanges) :
    ShouldRebuild
        { env with
          GetContextFromLocalDir := getContext
          CanonicalTarNameForPath := canonical
          ReadDockerignore := readIgnore
          DirectoryExcludes := hashContext } b imageCache forceRebuild
        = ShouldRebuild env b imageCache forceRebuild
      ∧ (ShouldRebuild env b imageCache forceRebuild).imageCache.ContextHash
          = imageCache.ContextHash := by
  have hs : b.RebuildStrategy ≠ .Always := by rw [hi]; decide
  have hn : ¬ (b.RebuildStrategy ≠ .IgnoreContextChanges) := fun h => h hi
  constructor
  · unfold ShouldRebuild contextDrift
    simp only [if_neg hs, if_neg hn]
  · by_cases herr : (ShouldRebuild env b imageCache forceRebuild).err = none
    · obtain ⟨hst, ⟨dh, hd⟩, ⟨cs, hm⟩, -⟩ :=
        shouldRebuild_steps_of_ok env b imageCache forceRebuild hs herr
      rw [shouldRebuild_eq_of_ignore env b imageCache forceRebuild dh cs hi hst hd hm]
      by_cases hcond : (forceRebuild || rebuildBeforeContext env b imageCache dh cs) = true
      · rw [if_pos hcond]
      · rw [if_neg hcond]
    · rw [(shouldRebuild_err_atomic env b imageCache forceRebuild herr).2]

/-- The witness of C13: a forced call under IgnoreContextChanges on a stale
record, with a build context that cannot be resolved and with one that can. -/
theorem shouldRebuild_ignores_context_witness :
    ShouldRebuild
        { exampleBuildEnv with
          GetContextFromLocalDir := fun _ _ => .error "unable to prepare context"
          CanonicalTarNameForPath := fun path => path
          ReadDockerignore := fun _ _ => .ok []
          DirectoryExcludes := fun _ _ => .ok "ctx:changed" }
        { exampleBuildHelper with RebuildStrategy := .IgnoreContextChanges }
        exampleStaleCache true
        = ShouldRebuild exampleBuildEnv
            { exampleBuildHelper with RebuildStrategy := .IgnoreContextChanges }
            exampleStaleCache true
      ∧ (ShouldRebuild exampleBuildEnv
            { exampleBuildHelper with RebuildStrategy := .IgnoreContextChanges }
            exampleStaleCache true).imageCache.ContextHash = "ctx:old" :=
  shouldRebuild_ignores_context exampleBuildEnv
    { exampleBuildHelper with RebuildStrategy := .IgnoreContextChanges } exampleStaleCache true
    (fun _ _ => .error "unable to prepare context") (fun path => path) (fun _ _ => .ok [])
    (fun _ _ => .ok "ctx:changed") rfl

/-- C14: a call of ShouldRebuild without the force flag that returns no
rebuild and no error leaves the image cache record, and so its tag and its
four hashes, as it was. -/
theorem shouldRebuild_noop_frame (env : BuildEnv) (b : BuildHelper) (imageCache : ImageCache)
    (herr : (ShouldRebuild env b imageCache false).err = none)
    (hno : (ShouldRebuild env b imageCache false).mustRebuild = false) :
    (ShouldRebuild env b imageCache false).imageCache = imageCache
      ∧ (ShouldRebuild env b imageCache false).imageCache.Tag = imageCache.Tag
      ∧ (ShouldRebuild env b imageCache false).imageCache.DockerfileHash
          = imageCache.DockerfileHash
      ∧ (ShouldRebuild env b imageCache false).imageCache.ImageConfigHash
          = imageCache.ImageConfigHash
      ∧ (ShouldRebuild env b imageCache false).imageCache.ContextHash
          = imageCache.ContextHash
      ∧ (ShouldRebuild env b imageCache false).imageCache.EntrypointHash
          = imageCache.EntrypointHash := by
  have hrec : (ShouldRebuild env b imageCache false).imageCache = imageCache := by
    by_cases hs : b.RebuildStrategy = .Always
    · unfold ShouldRebuild
      rw [if_pos hs]
    · obtain ⟨hst, ⟨dh, hd⟩, ⟨cs, hm⟩, hctx⟩ :=
        shouldRebuild_steps_of_ok env b imageCache false hs herr
      by_cases hi : b.RebuildStrategy = .IgnoreContextChanges
      · rw [shouldRebuild_eq_of_ignore env b imageCache false dh cs hi hst hd hm] at hno ⊢
        have hb : rebuildBeforeContext env b imageCache dh cs = false := hno
        simp only [hb, Bool.or_false, Bool.false_eq_true, if_false]
      · obtain ⟨ch, hc⟩ := hctx hi
        rw [shouldRebuild_eq_of_context env b imageCache false dh cs ch hs hi hst hd hm hc]
          at hno ⊢
        have hb : (rebuildBeforeContext env b imageCache dh cs || imageCache.ContextHash != ch)
            = false := hno
        simp only [hb, Bool.or_false, Bool.false_eq_true, if_false]
  rw [hrec]
  exact ⟨rfl, rfl, rfl, rfl, rfl, rfl⟩

/-- The witness of C14: an unforced call on the record of the last build with
unchanged sources. -/
theorem shouldRebuild_noop_frame_witness :
    (ShouldRebuild exampleBuildEnv exampleBuildHelper exampleImageCache false).mustRebuild = false
      ∧ (ShouldRebuild exampleBuildEnv exampleBuildHelper exampleImageCache false).imageCache
          = exampleImageCache :=
  ⟨by rfl,
    (shouldRebuild_noop_frame exampleBuildEnv exampleBuildHelper exampleImageCache (by rfl)
      (by rfl)).1⟩

/-! ## Properties of the local availability probe -/

/-- C19: IsImageAvailableLocally returns (true, no error) without listing the
images whenever the probe for the container engine fails; when the probe
succeeds, for an image with a cache record, it returns the error of a failing
image listing, and otherwise returns no error and true exactly when some local
image has a repo tag equal to the cached image name, a colon and the cached
tag. -/
theorem isImageAvailableLocally_spec (env : DockerEnv) (b : BuildHelper)
    (images : List (String × ImageCache)) :
    (env.probe ≠ none → IsImageAvailableLocally env b images = .returned true none false)
      ∧ (∀ imageCache e, env.probe = none → images.lookup b.ImageConfigName = some imageCache →
          env.ImageList = .error e →
          IsImageAvailableLocally env b images = .returned false (some e) true)
      ∧ (∀ imageCache imageList, env.probe = none →
          images.lookup b.ImageConfigName = some imageCache → env.ImageList = .ok imageList →
          ∃ available, IsImageAvailableLocally env b images = .returned available none true
            ∧ (available = true ↔
                ∃ repoTags ∈ imageList, ∃ repoTag ∈ repoTags,
                  repoTag = imageCache.ImageName ++ ":" ++ imageCache.Tag)) := by
  refine ⟨?_, ?_, ?_⟩
  · intro hp
    unfold IsImageAvailableLocally
    cases h : env.probe with
    | none => exact absurd h hp
    | some e => rfl
  · intro imageCache e hp hrec hl
    unfold IsImageAvailableLocally
    simp only [hp, hrec, hl]
  · intro imageCache imageList hp hrec hl
    unfold IsImageAvailableLocally
    simp only [hp, hrec, hl]
    refine ⟨_, rfl, ?_⟩
    simp only [List.any_eq_true, beq_iff_eq]

/-- The witness of C19: the cached image `registry/app:v1` is among the local
images, and a failing probe answers true without listing. -/
theorem isImageAvailableLocally_spec_witness :
    IsImageAvailableLocally exampleDockerEnv exampleBuildHelper [("app", exampleImageCache)]
        = .returned true none true
      ∧ IsImageAvailableLocally { exampleDockerEnv with probe := some "executable not found" }
          exampleBuildHelper [] = .returned true none false :=
  ⟨by rfl,
    (isImageAvailableLocally_spec { exampleDockerEnv with probe := some "executable not found" }
      exampleBuildHelper []).1 (by decide)⟩

/-! ## Properties of the override values -/

/-- The loop over the values files fails only on a path that has no absolute
path. -/
theorem loadValuesFiles_error {V : Type} (env : HelmEnv V) (files : List String) (base : V)
    (e : String) (h : loadValuesFiles env files base = .error e) :
    ∃ overridePath ∈ files, ∃ e', env.filepathAbs overridePath = .error e' := by
  induction files generalizing base with
  | nil =>
    unfold loadValuesFiles at h
    cases h
  | cons overridePath rest ih =>
    unfold loadValuesFiles at h
    cases ha : env.filepathAbs overridePath with
    | error e' => exact ⟨overridePath, List.mem_cons_self _ _, e', ha⟩
    | ok path =>
      simp only [ha] at h
      obtain ⟨q, hq, e', he'⟩ := ih _ h
      exact ⟨q, List.mem_cons_of_mem _ hq, e', he'⟩

/-- The loop over the values files, when it returns, has merged what was read
of every file, in the order given. -/
theorem loadValuesFiles_ok {V : Type} (env : HelmEnv V) (files : List String) (base merged : V)
    (h : loadValuesFiles env files base = .ok merged) :
    merged = (files.map (valuesFileContent env)).foldl env.MergeInto base := by
  induction files generalizing base with
  | nil =>
    unfold loadValuesFiles at h
    cases h
    rfl
  | cons overridePath rest ih =>
    unfold loadValuesFiles at h
    cases ha : env.filepathAbs overridePath with
    | error e' =>
      simp only [ha] at h
      cases h
    | ok path =>
      simp only [ha] at h
      rw [ih _ h]
      simp only [List.map_cons, List.foldl_cons, valuesFileContent, ha]

/-- The loop over the values files returns when every path has an absolute
path, whatever the reads return. -/
theorem loadValuesFiles_of_abs {V : Type} (env : HelmEnv V) (files : List String) (base : V)
    (habs : ∀ overridePath ∈ files, ∃ path, env.filepathAbs overridePath = .ok path) :
    loadValuesFiles env files base
      = .ok ((files.map (valuesFileContent env)).foldl env.MergeInto base) := by
  cases h : loadValuesFiles env files base with
  | ok merged => rw [loadValuesFiles_ok env files base merged h]
  | error e =>
    obtain ⟨q, hq, e', he'⟩ := loadValuesFiles_error env files base e h
    obtain ⟨path, hpath⟩ := habs q hq
    rw [hpath] at he'
    cases he'

/-- The merged override values, when the merge returns, are the sources after
the chart's own values merged one after the other into the chart's own values,
or into the empty map when the chart has none. -/
theorem mergedValues_ok {V : Type} (env : HelmEnv V) (d : DeployConfig V) (merged : V)
    (h : mergedValues env d = .ok merged) :
    merged = (d.ValuesFiles.map (valuesFileContent env) ++ d.Values.toList).foldl env.MergeInto
      ((chartDefaults env d).getD env.emptyValues) := by
  unfold mergedValues at h
  unfold chartDefaults
  cases hst : env.stat (env.filepathJoin d.ChartName "values.yaml") with
  | some e0 =>
    simp only [hst] at h
    cases hl : loadValuesFiles env d.ValuesFiles env.emptyValues with
    | error e => simp only [hl] at h; cases h
    | ok loaded =>
      simp only [hl] at h
      have hloaded := loadValuesFiles_ok env d.ValuesFiles _ loaded hl
      cases hv : d.Values with
      | none =>
        simp only [hv] at h
        cases h
        simp [hloaded]
      | some values =>
        simp only [hv] at h
        cases h
        simp [hloaded, List.foldl_append]
  | none =>
    simp only [hst] at h
    rcases hread : env.ReadYamlFromFile (env.filepathJoin d.ChartName "values.yaml")
      with ⟨content, rerr⟩
    rw [hread] at h
    cases rerr with
    | some e => simp only at h; cases h
    | none =>
      simp only at h
      cases hl : loadValuesFiles env d.ValuesFiles content with
      | error e => simp only [hl] at h; cases h
      | ok loaded =>
        simp only [hl] at h
        have hloaded := loadValuesFiles_ok env d.ValuesFiles _ loaded hl
        cases hv : d.Values with
        | none =>
          simp only [hv] at h
          cases h
          simp [hloaded]
        | some values =>
          simp only [hv] at h
          cases h
          simp [hloaded, List.foldl_append]

/-- The merge of the override values returns when the chart's own values, if
there are any, are read without error and every values file has an absolute
path, whatever the reads of the values files return. -/
theorem mergedValues_of_abs {V : Type} (env : HelmEnv V) (d : DeployConfig V)
    (hchart : env.stat (env.filepathJoin d.ChartName "values.yaml") = none →
      (env.ReadYamlFromFile (env.filepathJoin d.ChartName "values.yaml")).2 = none)
    (habs : ∀ overridePath ∈ d.ValuesFiles, ∃ path, env.filepathAbs overridePath = .ok path) :
    mergedValues env d
      = .ok ((d.ValuesFiles.map (valuesFileContent env) ++ d.Values.toList).foldl env.MergeInto
          ((chartDefaults env d).getD env.emptyValues)) := by
  cases h : mergedValues env d with
  | ok merged => rw [mergedValues_ok env d merged h]
  | error e =>
    exfalso
    unfold mergedValues at h
    cases hst : env.stat (env.filepathJoin d.ChartName "values.yaml") with
    | some e0 =>
      simp only [hst] at h
      rw [loadValuesFiles_of_abs env d.ValuesFiles _ habs] at h
      cases hv : d.Values <;> simp only [hv] at h <;> cases h
    | none =>
      have hr := hchart hst
      simp only [hst] at h
      rcases hread : env.ReadYamlFromFile (env.filepathJoin d.ChartName "values.yaml")
        with ⟨content, rerr⟩
      rw [hread] at h hr
      dsimp only at hr
      subst hr
      simp only at h
      rw [loadValuesFiles_of_abs env d.ValuesFiles _ habs] at h
      cases hv : d.Values <;> simp only [hv] at h <;> cases h

/-- Under the key-wise override law, a key of a map into which sources were
merged one after the other has the value the sources give it by precedence,
and the value of the map itself when no source sets it. -/
theorem get_foldl_mergeInto {V K X : Type} (env : HelmEnv V) (get : V → K → Option X)
    (hlaw : KeywiseOverride env get) (sources : List V) (base : V) (k : K) :
    get (sources.foldl env.MergeInto base) k
      = (valueByPrecedence get sources k).or (get base k) := by
  induction sources generalizing base with
  | nil => simp [valueByPrecedence]
  | cons source rest ih =>
    rw [List.foldl_cons, ih, hlaw.get_merge]
    unfold valueByPrecedence
    rw [List.reverse_cons, List.findSome?_append]
    cases h1 : List.findSome? (fun source => get source k) rest.reverse <;>
      cases h2 : get source k <;> simp [List.findSome?_cons, h2]

/-- The outcome of `internalDeploy`, with or without an output stream, once
the override values are merged and substituted. -/
theorem internalDeploy_eq {V : Type} (env : HelmEnv V) (d : DeployConfig V)
    (helm : HelmClient V) (forceDeploy : Bool) (builtImages : BuiltImages) (out : Bool)
    (merged values : V) (shouldRedeploy : Bool)
    (hm : mergedValues env d = .ok merged)
    (hr : replaceImages env d builtImages merged = .ok (shouldRedeploy, values)) :
    internalDeploy env d helm forceDeploy builtImages out =
      if (forceDeploy || shouldRedeploy) = true then
        if out = true then
          match helm.Template d.Name d.Namespace values with
          | .error e => ⟨false, none, some e, "", [.Template d.Name d.Namespace values]⟩
          | .ok str =>
            ⟨true, none, none, "\n" ++ str ++ "\n", [.Template d.Name d.Namespace values]⟩
        else
          match helm.InstallChart d.Name d.Namespace values with
          | .error e =>
            ⟨false, none,
              some ("Unable to deploy helm chart: " ++ e ++ "\nRun `"
                ++ env.ansiColor ("devspace purge -d " ++ d.Name) "white+b" ++ "` and `"
                ++ env.ansiColor "devspace deploy" "white+b" ++ "` to recreate the chart"),
              "", [.InstallChart d.Name d.Namespace values]⟩
          | .ok appRelease =>
            ⟨true, appRelease, none, "", [.InstallChart d.Name d.Namespace values]⟩
      else ⟨false, none, none, "", []⟩ := by
  unfold internalDeploy
  simp only [hm, hr]
  cases forceDeploy <;> cases shouldRedeploy <;> rfl

/-- The value by precedence over two lists of sources is the value over the
higher list, and the value over the lower list when the higher sets none. -/
theorem valueByPrecedence_append {V K X : Type} (get : V → K → Option X) (lower higher : List V)
    (k : K) :
    valueByPrecedence get (lower ++ higher) k
      = (valueByPrecedence get higher k).or (valueByPrecedence get lower k) := by
  unfold valueByPrecedence
  rw [List.reverse_append, List.findSome?_append]

/-- C16: under the key-wise override law for the merge, every key of the
override values that internalDeploy has merged has the value given by the
precedence chart's own values (taken only when values.yaml exists under the
chart path), then the values files in the order given, then the inline values;
these merged values, after image-tag substitution and unchanged when it is
disabled, are the ones every template or install call is handed. -/
theorem overrideValues_precedence {V K X : Type} (env : HelmEnv V) (d : DeployConfig V)
    (get : V → K → Option X) (hlaw : KeywiseOverride env get) (merged : V)
    (hm : mergedValues env d = .ok merged) :
    (∀ k, get merged k = valueByPrecedence get (overrideSources env d) k)
      ∧ (∀ helm forceDeploy builtImages out call,
          call ∈ (internalDeploy env d helm forceDeploy builtImages out).calls →
          ∃ shouldRedeploy values,
            replaceImages env d builtImages merged = .ok (shouldRedeploy, values)
              ∧ (call = .Template d.Name d.Namespace values
                ∨ call = .InstallChart d.Name d.Namespace values))
      ∧ (replaceImageTagsEnabled d = false →
          ∀ builtImages, replaceImages env d builtImages merged = .ok (false, merged)) := by
  refine ⟨fun k => ?_, ?_, ?_⟩
  · rw [mergedValues_ok env d merged hm, get_foldl_mergeInto env get hlaw]
    unfold overrideSources
    rw [List.append_assoc,
      valueByPrecedence_append get (chartDefaults env d).toList
        (d.ValuesFiles.map (valuesFileContent env) ++ d.Values.toList) k]
    cases hc : chartDefaults env d with
    | none =>
      rw [Option.getD_none, hlaw.get_empty]
      rfl
    | some defaults =>
      rw [Option.getD_some]
      have hone : valueByPrecedence get (some defaults).toList k = get defaults k := by
        unfold valueByPrecedence
        simp only [Option.toList, List.reverse_cons, List.reverse_nil, List.nil_append,
          List.findSome?_cons, List.findSome?_nil]
        cases get defaults k <;> rfl
      rw [hone]
  · intro helm forceDeploy builtImages out call hcall
    cases hr : replaceImages env d builtImages merged with
    | error e =>
      rw [internalDeploy_eq_of_values_error env d helm forceDeploy builtImages out e
        (Or.inr ⟨merged, hm, hr⟩)] at hcall
      cases hcall
    | ok pr =>
      obtain ⟨shouldRedeploy, values⟩ := pr
      refine ⟨shouldRedeploy, values, rfl, ?_⟩
      rw [internalDeploy_eq env d helm forceDeploy builtImages out merged values shouldRedeploy
        hm hr] at hcall
      by_cases hf : (forceDeploy || shouldRedeploy) = true
      · rw [if_pos hf] at hcall
        cases out with
        | true =>
          rw [if_pos rfl] at hcall
          cases ht : helm.Template d.Name d.Namespace values <;> rw [ht] at hcall <;>
            exact Or.inl (List.mem_singleton.mp hcall)
        | false =>
          rw [if_neg (by decide)] at hcall
          cases hi : helm.InstallChart d.Name d.Namespace values <;> rw [hi] at hcall <;>
            exact Or.inr (List.mem_singleton.mp hcall)
      · rw [if_neg hf] at hcall
        cases hcall
  · intro hdis builtImages
    unfold replaceImages
    rw [hdis]
    rfl

/-- The witness of C16: `replicas` is set by the chart and by `a.yaml`, `tag`
by `a.yaml` and by `b.yaml`, `port` by the chart and inline; the later source
gives the value each time, and the unreadable `broken.yaml` sets nothing. -/
theorem overrideValues_precedence_witness :
    ∃ merged, mergedValues exampleKeyedEnv exampleKeyedConfig = .ok merged
      ∧ merged "replicas" = some "2" ∧ merged "tag" = some "b" ∧ merged "port" = some "8080"
      ∧ valueByPrecedence (fun (values : KeyedValues) k => values k)
          (overrideSources exampleKeyedEnv exampleKeyedConfig) "tag" = some "b" := by
  refine ⟨_, rfl, by rfl, by rfl, by rfl, ?_⟩
  rw [← (overrideValues_precedence exampleKeyedEnv exampleKeyedConfig
    (fun (values : KeyedValues) k => values k) ⟨fun _ => rfl, fun _ _ _ => rfl⟩ _ rfl).1 "tag"]
  rfl

/-- The outcome of `deployWith` when the redeploy check, the merge of the
override values, the substitution and the install all succeed. -/
theorem deployWith_of_steps {V : Type} (env : HelmEnv V) (d : DeployConfig V)
    (deployCache : DeploymentCache) (helm : HelmClient V) (dch hash oh : String)
    (forceDeploy : Bool) (builtImages : BuiltImages) (flag shouldRedeploy : Bool)
    (calls : List (HelmCall V)) (merged values : V) (appRelease : Option Release)
    (hc : checkReleases helm d.Name deployCache.HelmReleaseRevision
      (forceOrChanged deployCache forceDeploy dch hash oh) = .ok (flag, calls))
    (hm : mergedValues env d = .ok merged)
    (hr : replaceImages env d builtImages merged = .ok (shouldRedeploy, values))
    (hi : helm.InstallChart d.Name d.Namespace values = .ok appRelease) :
    deployWith env d deployCache helm dch hash oh forceDeploy builtImages =
      if (flag || shouldRedeploy) = true then
        ⟨true, none, updateDeployCache deployCache dch hash oh appRelease, some helm,
          calls ++ [.InstallChart d.Name d.Namespace values]⟩
      else ⟨false, none, deployCache, some helm, calls ++ []⟩ := by
  unfold deployWith
  simp only [hc, internalDeploy_install_eq env d helm flag builtImages merged values
    shouldRedeploy hm hr, hi]
  by_cases hf : (flag || shouldRedeploy) = true
  · simp only [if_pos hf, if_true]
  · simp only [if_neg hf, Bool.false_eq_true, if_false]

/-- C15, as stated, fails: a forced Deploy with the values file `missing.yaml`,
which can be neither read nor hashed, returns the error of hashing that file
and calls neither the release listing nor the install. -/
theorem deploy_missing_values_file_fails :
    (exampleMissingFileEnv.ReadYamlFromFile "/work/missing.yaml").2
        = some "no such file or directory"
      ∧ (Deploy exampleMissingFileEnv
          { exampleDeployConfig with ValuesFiles := ["values.yaml", "missing.yaml"] }
          exampleDeployCache true []).err
        = some "Error stating override file missing.yaml: no such file or directory"
      ∧ (Deploy exampleMissingFileEnv
          { exampleDeployConfig with ValuesFiles := ["values.yaml", "missing.yaml"] }
          exampleDeployCache true []).deployed = false
      ∧ (Deploy exampleMissingFileEnv
          { exampleDeployConfig with ValuesFiles := ["values.yaml", "missing.yaml"] }
          exampleDeployCache true []).calls = [] :=
  ⟨by rfl, by rfl, by rfl, by rfl⟩

/-- C15, amended: when every values file is hashed and has an absolute path,
and the other steps that the call runs succeed (chart and config hashes,
client, the release listing when neither force nor a changed hash skips it,
the chart's own values when the chart has any, the substitution on the merged
values of this call, and the install of the substituted values of this call
when a deploy is required), Deploy returns no error whatever the reads of the
values files return; what was read of every values file, in the order given,
and then the inline values are merged into the chart's own values, and a
forced Deploy installs the substituted values, as its only client call, and
reports deployed = true. -/
theorem deploy_unreadable_values_file {V : Type} (env : HelmEnv V) (d : DeployConfig V)
    (deployCache : DeploymentCache) (forceDeploy : Bool) (builtImages : BuiltImages)
    (helm : HelmClient V) (hash oh dch : String) (shouldRedeploy : Bool) (values : V)
    (h1 : chartHash env d = .ok hash) (h2 : overridesHash env d.ValuesFiles "" = .ok oh)
    (h3 : deploymentConfigHash env = .ok dch) (h4 : helmClient env d = .ok helm)
    (hlist : forceOrChanged deployCache forceDeploy dch hash oh = false →
      helm.ListReleases.2 = none)
    (hchart : env.stat (env.filepathJoin d.ChartName "values.yaml") = none →
      (env.ReadYamlFromFile (env.filepathJoin d.ChartName "values.yaml")).2 = none)
    (habs : ∀ overridePath ∈ d.ValuesFiles, ∃ path, env.filepathAbs overridePath = .ok path)
    (hsub : replaceImages env d builtImages
        ((d.ValuesFiles.map (valuesFileContent env) ++ d.Values.toList).foldl env.MergeInto
          ((chartDefaults env d).getD env.emptyValues))
      = .ok (shouldRedeploy, values))
    (hinst : (forceOrChanged deployCache forceDeploy dch hash oh
          || noMatchingRelease helm.ListReleases.1 d.Name deployCache.HelmReleaseRevision
          || shouldRedeploy) = true →
      ∃ appRelease, helm.InstallChart d.Name d.Namespace values = .ok appRelease) :
    (Deploy env d deployCache forceDeploy builtImages).err = none
      ∧ mergedValues env d
        = .ok ((d.ValuesFiles.map (valuesFileContent env) ++ d.Values.toList).foldl env.MergeInto
            ((chartDefaults env d).getD env.emptyValues))
      ∧ (forceDeploy = true →
          (Deploy env d deployCache forceDeploy builtImages).deployed = true
            ∧ (Deploy env d deployCache forceDeploy builtImages).calls
                = [.InstallChart d.Name d.Namespace values]) := by
  have hm := mergedValues_of_abs env d hchart habs
  rw [deploy_eq_deployWith env d deployCache forceDeploy builtImages helm dch hash oh h1 h2 h3 h4]
  have hcheck : ∃ flag calls, checkReleases helm d.Name deployCache.HelmReleaseRevision
      (forceOrChanged deployCache forceDeploy dch hash oh) = .ok (flag, calls)
      ∧ (forceDeploy = true → flag = true ∧ calls = []) := by
    cases hf : forceOrChanged deployCache forceDeploy dch hash oh with
    | true => exact ⟨true, [], checkReleases_of_forced helm _ _, fun _ => ⟨rfl, rfl⟩⟩
    | false =>
      refine ⟨_, _, checkReleases_of_listed helm _ _ (hlist hf), fun hforce => ?_⟩
      rw [hforce] at hf
      have : forceOrChanged deployCache true dch hash oh = true :=
        (forceOrChanged_eq_true_iff deployCache true dch hash oh).mpr (Or.inl rfl)
      rw [this] at hf
      cases hf
  obtain ⟨flag, calls, hc, hforced⟩ := hcheck
  have hflag := checkReleases_flag helm d.Name deployCache.HelmReleaseRevision _ flag calls hc
  by_cases hf : (flag || shouldRedeploy) = true
  · obtain ⟨appRelease, hi⟩ := hinst (by rw [← hflag]; exact hf)
    rw [deployWith_of_steps env d deployCache helm dch hash oh forceDeploy builtImages flag
      shouldRedeploy calls _ values appRelease hc hm hsub hi, if_pos hf]
    refine ⟨rfl, hm, fun hforce => ?_⟩
    obtain ⟨_, hcalls⟩ := hforced hforce
    subst hcalls
    exact ⟨rfl, rfl⟩
  · have hskip : deployWith env d deployCache helm dch hash oh forceDeploy builtImages
        = ⟨false, none, deployCache, some helm, calls ++ []⟩ := by
      unfold deployWith
      simp only [hc, internalDeploy_install_eq env d helm flag builtImages _ values
        shouldRedeploy hm hsub, if_neg hf, Bool.false_eq_true, if_false]
    rw [hskip]
    refine ⟨rfl, hm, fun hforce => ?_⟩
    obtain ⟨hflagt, _⟩ := hforced hforce
    rw [hflagt] at hf
    exact absurd rfl hf

/-- The witness of C15, amended: a forced deploy with the values file
`broken.yaml`, which is hashed and cannot be read, between two readable
files, through a client whose release listing fails and whose install
succeeds only on the values this call merges. -/
theorem deploy_unreadable_values_file_witness :
    (exampleKeyedEnv.ReadYamlFromFile "/work/broken.yaml").2 = some "yaml: unmarshal errors"
      ∧ exampleStrictClient.ListReleases.2 = some "connection refused"
      ∧ (exampleStrictClient.InstallChart "deploy2" "default" (fun _ => none)).toOption = none
      ∧ (Deploy exampleKeyedEnv { exampleKeyedConfig with Helm := some exampleStrictClient }
          ⟨"", "", "", ""⟩ true []).err = none
      ∧ (Deploy exampleKeyedEnv { exampleKeyedConfig with Helm := some exampleStrictClient }
          ⟨"", "", "", ""⟩ true []).deployed = true :=
  by
  have key := deploy_unreadable_values_file exampleKeyedEnv
    { exampleKeyedConfig with Helm := some exampleStrictClient } ⟨"", "", "", ""⟩
    true [] exampleStrictClient "dir:chart" "dir:a.yamldir:broken.yamldir:b.yaml"
    "sha:name: deploy2" false _ (by rfl) (by rfl) (by rfl) (by rfl)
    (fun h => absurd h (by decide)) (fun _ => by rfl)
    (fun overridePath _ => ⟨"/work/" ++ overridePath, rfl⟩)
    rfl
    (fun _ => ⟨some ⟨"deploy2", "DEPLOYED", "1"⟩, by rfl⟩)
  exact ⟨by rfl, by rfl, by rfl, key.1, (key.2.2 rfl).1⟩

/-! ## Image-tag substitution and render mode -/

/-- C17: unless ReplaceImageTags is explicitly false, the substitution is the
call of ReplaceImageNames on the merged override values, and when it reports a
redeploy an unforced internalDeploy installs the substituted values; when
ReplaceImageTags is explicitly false, internalDeploy and Deploy give the same
outcome, with the same calls and the same values in them, for any two
built-images maps. -/
theorem substitution_unless_disabled {V : Type} (env : HelmEnv V) (d : DeployConfig V)
    (helm : HelmClient V) (deployCache : DeploymentCache) (forceDeploy out : Bool)
    (builtImages otherImages : BuiltImages) :
    (d.ReplaceImageTags ≠ some false →
        ∀ merged, replaceImages env d builtImages merged
          = env.ReplaceImageNames merged builtImages)
      ∧ (d.ReplaceImageTags ≠ some false →
          ∀ merged values appRelease, mergedValues env d = .ok merged →
            env.ReplaceImageNames merged builtImages = .ok (true, values) →
            helm.InstallChart d.Name d.Namespace values = .ok appRelease →
            internalDeploy env d helm false builtImages false
              = ⟨true, appRelease, none, "", [.InstallChart d.Name d.Namespace values]⟩)
      ∧ (d.ReplaceImageTags = some false →
          internalDeploy env d helm forceDeploy builtImages out
              = internalDeploy env d helm forceDeploy otherImages out
            ∧ Deploy env d deployCache forceDeploy builtImages
              = Deploy env d deployCache forceDeploy otherImages) := by
  have hen : d.ReplaceImageTags ≠ some false → replaceImageTagsEnabled d = true := by
    intro h
    unfold replaceImageTagsEnabled
    cases hv : d.ReplaceImageTags with
    | none => rfl
    | some flag =>
      cases flag with
      | true => rfl
      | false => exact absurd hv h
  have hrepl : d.ReplaceImageTags ≠ some false →
      ∀ merged, replaceImages env d builtImages merged
        = env.ReplaceImageNames merged builtImages := by
    intro h merged
    unfold replaceImages
    rw [if_pos (hen h)]
    cases env.ReplaceImageNames merged builtImages with
    | error e => rfl
    | ok pr => rfl
  refine ⟨hrepl, ?_, ?_⟩
  · intro h merged values appRelease hm hr hi
    rw [internalDeploy_install_eq env d helm false builtImages merged values true hm
      ((hrepl h merged).trans hr), if_pos (by rfl), hi]
  · intro h
    have hdis : ∀ images merged, replaceImages env d images merged = .ok (false, merged) := by
      intro images merged
      unfold replaceImages replaceImageTagsEnabled
      rw [h]
      rfl
    have hint : ∀ client flag stream,
        internalDeploy env d client flag builtImages stream
          = internalDeploy env d client flag otherImages stream := by
      intro client flag stream
      unfold internalDeploy
      cases hm : mergedValues env d with
      | error e => rfl
      | ok merged => simp only [hdis]
    refine ⟨hint helm forceDeploy out, ?_⟩
    unfold Deploy deployWith
    simp only [hint]

/-- The witness of C17: with substitution explicitly disabled a newly built
image changes nothing, and with the toggle unset it makes an unforced
internalDeploy install the substituted values. -/
theorem substitution_unless_disabled_witness :
    Deploy exampleHelmEnv { exampleDeployConfig with ReplaceImageTags := some false }
        exampleDeployCache false [("app", "v7")]
        = Deploy exampleHelmEnv { exampleDeployConfig with ReplaceImageTags := some false }
            exampleDeployCache false []
      ∧ internalDeploy exampleHelmEnv exampleDeployConfig exampleHelmClient false [("app", "v7")]
          false
        = ⟨true, some ⟨"deploy1", "DEPLOYED", "2"⟩, none, "",
            [.InstallChart "deploy1" "default" [("image", "app:v7"), ("replicas", "2")]]⟩ :=
  ⟨((substitution_unless_disabled exampleHelmEnv
      { exampleDeployConfig with ReplaceImageTags := some false } exampleHelmClient
      exampleDeployCache false false [("app", "v7")] []).2.2 rfl).2,
    (substitution_unless_disabled exampleHelmEnv exampleDeployConfig exampleHelmClient
      exampleDeployCache false false [("app", "v7")] []).2.1 (by decide)
      [("image", "app"), ("replicas", "2")] [("image", "app:v7"), ("replicas", "2")]
      (some ⟨"deploy1", "DEPLOYED", "2"⟩) (by rfl) (by rfl) (by rfl)⟩

/-- C20: when internalDeploy is given an output stream and a deploy is
required, it calls the template operation and never the install; when the
template succeeds it writes a newline, the templated output and a newline and
returns deployed = true with no release, and when the template fails it
writes nothing and returns that error. -/
theorem internalDeploy_render {V : Type} (env : HelmEnv V) (d : DeployConfig V)
    (helm : HelmClient V) (forceDeploy : Bool) (builtImages : BuiltImages)
    (merged values : V) (shouldRedeploy : Bool)
    (hm : mergedValues env d = .ok merged)
    (hr : replaceImages env d builtImages merged = .ok (shouldRedeploy, values))
    (hreq : (forceDeploy || shouldRedeploy) = true) :
    (∀ str, helm.Template d.Name d.Namespace values = .ok str →
        internalDeploy env d helm forceDeploy builtImages true
          = ⟨true, none, none, "\n" ++ str ++ "\n", [.Template d.Name d.Namespace values]⟩)
      ∧ (∀ e, helm.Template d.Name d.Namespace values = .error e →
          internalDeploy env d helm forceDeploy builtImages true
            = ⟨false, none, some e, "", [.Template d.Name d.Namespace values]⟩)
      ∧ (internalDeploy env d helm forceDeploy builtImages true).calls
          = [.Template d.Name d.Namespace values]
      ∧ (∀ releaseName releaseNamespace installed,
          HelmCall.InstallChart releaseName releaseNamespace installed
            ∉ (internalDeploy env d helm forceDeploy builtImages true).calls) := by
  have heq := internalDeploy_eq env d helm forceDeploy builtImages true merged values
    shouldRedeploy hm hr
  rw [if_pos hreq, if_pos rfl] at heq
  have hcalls : (internalDeploy env d helm forceDeploy builtImages true).calls
      = [.Template d.Name d.Namespace values] := by
    rw [heq]
    cases helm.Template d.Name d.Namespace values <;> rfl
  refine ⟨?_, ?_, hcalls, ?_⟩
  · intro str ht
    rw [heq, ht]
  · intro e ht
    rw [heq, ht]
  · intro releaseName releaseNamespace installed hmem
    rw [hcalls, List.mem_singleton] at hmem
    cases hmem

/-- The witness of C20: a forced render of the deployment of the concrete
runs. -/
theorem internalDeploy_render_witness :
    internalDeploy exampleHelmEnv exampleDeployConfig exampleHelmClient true [] true
      = ⟨true, none, none, "\n# deploy1\n",
          [.Template "deploy1" "default" [("image", "app"), ("replicas", "2")]]⟩ :=
  (internalDeploy_render exampleHelmEnv exampleDeployConfig exampleHelmClient true []
    [("image", "app"), ("replicas", "2")] [("image", "app"), ("replicas", "2")] false
    (by rfl) (by rfl) (by rfl)).1 "# deploy1" (by rfl)

/-! ## First deploys and repeated deploys -/

/-- The hash of the concrete runs is never the empty string. -/
theorem exampleHash_nonEmpty : HashNonEmpty exampleHelmEnv.hashString := by
  intro str h
  have hlen := congrArg String.length h
  have happ : ("sha:" ++ str).length = 4 + str.length := by
    rw [String.length_append]
    rfl
  have hlen' : ("sha:" ++ str).length = 0 := hlen
  omega

/-- C18, as stated, fails: on a record with every hash and the revision empty,
an install that succeeds and returns no release makes Deploy report deployed =
true without error and leave the revision empty, so no revision is
recorded. -/
theorem deploy_without_cache_no_release :
    (∀ releaseName releaseNamespace values,
        exampleSilentClient.InstallChart releaseName releaseNamespace values = .ok none)
      ∧ (Deploy exampleHelmEnv { exampleDeployConfig with Helm := some exampleSilentClient }
          ⟨"", "", "", ""⟩ false []).deployed = true
      ∧ (Deploy exampleHelmEnv { exampleDeployConfig with Helm := some exampleSilentClient }
          ⟨"", "", "", ""⟩ false []).err = none
      ∧ (Deploy exampleHelmEnv { exampleDeployConfig with Helm := some exampleSilentClient }
          ⟨"", "", "", ""⟩ false []).deployCache.HelmReleaseRevision = "" :=
  ⟨fun _ _ _ => rfl, by rfl, by rfl, by rfl⟩

/-- C18, amended: with a hash that is never empty, on a record with every
hash and the revision empty, a Deploy call that returns without error reports
deployed = true, whatever the force flag and the release list, and records a
non-empty deployment-config hash; it records the revision of the release the
install returned when it returned one, and leaves the revision empty when it
returned none. -/
theorem deploy_without_cache {V : Type} (env : HelmEnv V) (d : DeployConfig V)
    (forceDeploy : Bool) (builtImages : BuiltImages) (hh : HashNonEmpty env.hashString)
    (herr : (Deploy env d ⟨"", "", "", ""⟩ forceDeploy builtImages).err = none) :
    (Deploy env d ⟨"", "", "", ""⟩ forceDeploy builtImages).deployed = true
      ∧ (Deploy env d ⟨"", "", "", ""⟩ forceDeploy builtImages).deployCache.DeploymentConfigHash
          ≠ ""
      ∧ ∃ helm values appRelease, helmClient env d = .ok helm
          ∧ helm.InstallChart d.Name d.Namespace values = .ok appRelease
          ∧ (∀ release, appRelease = some release →
              (Deploy env d ⟨"", "", "", ""⟩ forceDeploy
                builtImages).deployCache.HelmReleaseRevision = release.Revision)
          ∧ (appRelease = none →
              (Deploy env d ⟨"", "", "", ""⟩ forceDeploy
                builtImages).deployCache.HelmReleaseRevision = "") := by
  obtain ⟨hash, oh, dch, helm, flag, h1, h2, h3, h4, hflag, hi, hdep, hcache, hw⟩ :=
    deploy_of_ok env d ⟨"", "", "", ""⟩ forceDeploy builtImages herr
  have hdch : dch ≠ "" := by
    unfold deploymentConfigHash at h3
    cases hm : env.marshalDeploymentConfig with
    | error e => rw [hm] at h3; cases h3
    | ok configStr =>
      rw [hm] at h3
      cases h3
      exact hh configStr
  have hfc : forceOrChanged ⟨"", "", "", ""⟩ forceDeploy dch hash oh = true :=
    (forceOrChanged_eq_true_iff _ forceDeploy dch hash oh).mpr
      (Or.inr (Or.inr (Or.inr fun e => hdch e.symm)))
  have hdeployed : (Deploy env d ⟨"", "", "", ""⟩ forceDeploy builtImages).deployed = true := by
    rw [hdep, hflag, hfc]
    rfl
  have hwas : (internalDeploy env d helm flag builtImages false).wasDeployed = true := by
    rw [hw]
    exact hdeployed
  obtain ⟨merged, shouldRedeploy, values, -, -, hinst⟩ :=
    (internalDeploy_install_of_ok env d helm flag builtImages hi).2 hwas
  obtain ⟨f1, -, -, f4, f5⟩ := updateDeployCache_fields ⟨"", "", "", ""⟩ dch hash oh
    (internalDeploy env d helm flag builtImages false).release
  refine ⟨hdeployed, ?_, helm, values, _, h4, hinst, ?_, ?_⟩
  · rw [hcache, if_pos hwas, f1]
    exact hdch
  · rw [hcache, if_pos hwas]
    exact f4
  · rw [hcache, if_pos hwas]
    exact f5

/-- The witness of C18, amended: the first deploy of the concrete runs, with
the release live at another revision and no force. -/
theorem deploy_without_cache_witness :
    (Deploy exampleHelmEnv exampleDeployConfig ⟨"", "", "", ""⟩ false []).deployed = true
      ∧ (Deploy exampleHelmEnv exampleDeployConfig ⟨"", "", "", ""⟩ false []).deployCache
          = ⟨"sha:name: deploy1", "dir:chart", "dir:values.yaml", "2"⟩ :=
  ⟨(deploy_without_cache exampleHelmEnv exampleDeployConfig false [] exampleHash_nonEmpty
      (by rfl)).1, by rfl⟩

/-- What `internalDeploy` does when it is not asked to deploy and substitution
asks for no redeploy: it calls neither the template operation nor the install
and reports no deploy. -/
theorem internalDeploy_skip {V : Type} (env : HelmEnv V) (d : DeployConfig V)
    (helm : HelmClient V) (builtImages : BuiltImages) (out : Bool)
    (hns : substitutionRedeploys env d builtImages = false) :
    (internalDeploy env d helm false builtImages out).wasDeployed = false
      ∧ (internalDeploy env d helm false builtImages out).calls = [] := by
  cases hm : mergedValues env d with
  | error e =>
    rw [internalDeploy_eq_of_values_error env d helm false builtImages out e (Or.inl hm)]
    exact ⟨rfl, rfl⟩
  | ok merged =>
    cases hr : replaceImages env d builtImages merged with
    | error e =>
      rw [internalDeploy_eq_of_values_error env d helm false builtImages out e
        (Or.inr ⟨merged, hm, hr⟩)]
      exact ⟨rfl, rfl⟩
    | ok pr =>
      obtain ⟨shouldRedeploy, values⟩ := pr
      have hsr : shouldRedeploy = false := by
        rw [← substitutionRedeploys_eq env d builtImages merged values shouldRedeploy hm hr]
        exact hns
      subst hsr
      rw [internalDeploy_eq env d helm false builtImages out merged values false hm hr]
      exact ⟨rfl, rfl⟩

/-- What `deployWith` does when no hash differs, no force is asked, a listed
release has the name and the cached revision and substitution asks for no
redeploy: it lists the releases, reports no deploy and leaves the record as it
was. -/
theorem deployWith_skip {V : Type} (env : HelmEnv V) (d : DeployConfig V)
    (deployCache : DeploymentCache) (helm : HelmClient V) (dch hash oh : String)
    (builtImages : BuiltImages)
    (hfc : forceOrChanged deployCache false dch hash oh = false)
    (hnm : noMatchingRelease helm.ListReleases.1 d.Name deployCache.HelmReleaseRevision = false)
    (hns : substitutionRedeploys env d builtImages = false) :
    (deployWith env d deployCache helm dch hash oh false builtImages).deployed = false
      ∧ (deployWith env d deployCache helm dch hash oh false builtImages).deployCache
          = deployCache
      ∧ (deployWith env d deployCache helm dch hash oh false builtImages).calls
          = [.ListReleases] := by
  obtain ⟨hw, hcalls⟩ := internalDeploy_skip env d helm builtImages false hns
  unfold deployWith
  rw [hfc]
  cases hl : helm.ListReleases.2 with
  | some e =>
    simp only [checkReleases_of_list_error helm d.Name deployCache.HelmReleaseRevision e hl]
    exact ⟨trivial, trivial, trivial⟩
  | none =>
    simp only [checkReleases_of_listed helm d.Name deployCache.HelmReleaseRevision hl, hnm]
    cases he : (internalDeploy env d helm false builtImages false).err with
    | some e =>
      simp only [he, hcalls, List.append_nil]
      exact ⟨trivial, trivial, trivial⟩
    | none =>
      simp only [he, hw, hcalls, List.append_nil, Bool.false_eq_true, if_false]
      exact ⟨trivial, trivial, trivial⟩

/-- C12: after a first Deploy that reports deployed = true and whose install
returned a release, a second Deploy without force on the record the first one
left, with the same chart, overrides and deployment-config hashes and the same
release name, with a release list that has that name at the returned revision,
and with substitution disabled or not reporting a redeploy, reports deployed =
false, leaves that record unchanged and calls only the release listing, so
never the install. -/
theorem deploy_idempotent {V : Type} (env again : HelmEnv V) (d dAgain : DeployConfig V)
    (deployCache : DeploymentCache) (forceDeploy : Bool) (builtImages imagesAgain : BuiltImages)
    (helm helmAgain : HelmClient V) (merged values : V) (shouldRedeploy : Bool)
    (release : Release)
    (hdep : (Deploy env d deployCache forceDeploy builtImages).deployed = true)
    (hclient : helmClient env d = .ok helm)
    (hm : mergedValues env d = .ok merged)
    (hr : replaceImages env d builtImages merged = .ok (shouldRedeploy, values))
    (hinst : helm.InstallChart d.Name d.Namespace values = .ok (some release))
    (hname : dAgain.Name = d.Name)
    (hchart : chartHash again dAgain = chartHash env d)
    (hover : overridesHash again dAgain.ValuesFiles "" = overridesHash env d.ValuesFiles "")
    (hconf : deploymentConfigHash again = deploymentConfigHash env)
    (hclientAgain : helmClient again dAgain = .ok helmAgain)
    (hrel : ∃ live ∈ helmAgain.ListReleases.1,
      live.Name = d.Name ∧ live.Revision = release.Revision)
    (hsub : replaceImageTagsEnabled dAgain = false
      ∨ ∀ mergedAgain valuesAgain, mergedValues again dAgain = .ok mergedAgain →
          again.ReplaceImageNames mergedAgain imagesAgain ≠ .ok (true, valuesAgain)) :
    (Deploy again dAgain (Deploy env d deployCache forceDeploy builtImages).deployCache false
        imagesAgain).deployed = false
      ∧ (Deploy again dAgain (Deploy env d deployCache forceDeploy builtImages).deployCache false
          imagesAgain).deployCache
        = (Deploy env d deployCache forceDeploy builtImages).deployCache
      ∧ (Deploy again dAgain (Deploy env d deployCache forceDeploy builtImages).deployCache false
          imagesAgain).calls = [.ListReleases]
      ∧ (∀ releaseName releaseNamespace installed,
          HelmCall.InstallChart releaseName releaseNamespace installed
            ∉ (Deploy again dAgain (Deploy env d deployCache forceDeploy builtImages).deployCache
                false imagesAgain).calls) := by
  obtain ⟨hash, oh, dch, helm', flag, h1, h2, h3, h4, -, hi, -, hcache, hw⟩ :=
    deploy_of_ok env d deployCache forceDeploy builtImages
      (deploy_ok_of_deployed env d deployCache forceDeploy builtImages hdep)
  rw [hclient] at h4
  cases h4
  have hwas : (internalDeploy env d helm flag builtImages false).wasDeployed = true := by
    rw [hw]
    exact hdep
  obtain ⟨merged', shouldRedeploy', values', hm', hr', hinst'⟩ :=
    (internalDeploy_install_of_ok env d helm flag builtImages hi).2 hwas
  rw [hm] at hm'
  cases hm'
  rw [hr] at hr'
  cases hr'
  rw [hinst] at hinst'
  have hrelease : (internalDeploy env d helm flag builtImages false).release = some release :=
    (Except.ok.inj hinst').symm
  have hrecord : (Deploy env d deployCache forceDeploy builtImages).deployCache
      = ⟨dch, hash, oh, release.Revision⟩ := by
    rw [hcache, if_pos hwas, hrelease]
    rfl
  rw [hrecord]
  have hns : substitutionRedeploys again dAgain imagesAgain = false := by
    rw [← Bool.not_eq_true, substitutionRedeploys_eq_true_iff]
    rintro ⟨hen, mergedAgain, valuesAgain, hma, hra⟩
    rcases hsub with h | h
    · rw [hen] at h
      cases h
    · exact h mergedAgain valuesAgain hma hra
  have hnm : noMatchingRelease helmAgain.ListReleases.1 dAgain.Name release.Revision = false := by
    rw [← Bool.not_eq_true, noMatchingRelease_eq_true_iff, hname]
    obtain ⟨live, hmem, hlive⟩ := hrel
    exact fun h => h live hmem hlive
  have hfc : forceOrChanged ⟨dch, hash, oh, release.Revision⟩ false dch hash oh = false := by
    rw [← Bool.not_eq_true, forceOrChanged_eq_true_iff]
    rintro (h | h | h | h)
    · cases h
    · exact h rfl
    · exact h rfl
    · exact h rfl
  rw [deploy_eq_deployWith again dAgain ⟨dch, hash, oh, release.Revision⟩ false imagesAgain
    helmAgain dch hash oh (hchart.trans h1) (hover.trans h2) (hconf.trans h3) hclientAgain]
  obtain ⟨s1, s2, s3⟩ := deployWith_skip again dAgain ⟨dch, hash, oh, release.Revision⟩
    helmAgain dch hash oh imagesAgain hfc hnm hns
  refine ⟨s1, s2, s3, ?_⟩
  intro releaseName releaseNamespace installed hmem
  rw [s3, List.mem_singleton] at hmem
  cases hmem

/-- The witness of C12: a first deploy that substitutes a newly built image
and installs revision 2, then a second deploy with the release live at
revision 2 and no newly built image. -/
theorem deploy_idempotent_witness :
    (Deploy exampleHelmEnv exampleDeployConfig exampleDeployCache false [("app", "v7")]).deployed
        = true
      ∧ (Deploy exampleHelmEnv
          { exampleDeployConfig with
            Helm := some { exampleHelmClient with
              ListReleases := ([⟨"deploy1", "DEPLOYED", "2"⟩], none) } }
          (Deploy exampleHelmEnv exampleDeployConfig exampleDeployCache false
            [("app", "v7")]).deployCache false []).deployed = false
      ∧ (Deploy exampleHelmEnv
          { exampleDeployConfig with
            Helm := some { exampleHelmClient with
              ListReleases := ([⟨"deploy1", "DEPLOYED", "2"⟩], none) } }
          (Deploy exampleHelmEnv exampleDeployConfig exampleDeployCache false
            [("app", "v7")]).deployCache false []).calls = [.ListReleases] := by
  have key := deploy_idempotent exampleHelmEnv exampleHelmEnv exampleDeployConfig
    { exampleDeployConfig with
      Helm := some { exampleHelmClient with
        ListReleases := ([⟨"deploy1", "DEPLOYED", "2"⟩], none) } }
    exampleDeployCache false [("app", "v7")] [] exampleHelmClient
    { exampleHelmClient with ListReleases := ([⟨"deploy1", "DEPLOYED", "2"⟩], none) }
    [("image", "app"), ("replicas", "2")] [("image", "app:v7"), ("replicas", "2")] true
    ⟨"deploy1", "DEPLOYED", "2"⟩ (by rfl) (by rfl) (by rfl) (by rfl) (by rfl) (by rfl) (by rfl)
    (by rfl) (by rfl) (by rfl)
    ⟨⟨"deploy1", "DEPLOYED", "2"⟩, by decide, by decide⟩
    (Or.inr (fun mergedAgain valuesAgain hma h => by
      have hma' : (Except.ok [("image", "app"), ("replicas", "2")] :
          Except String ExampleValues) = .ok mergedAgain := hma
      cases hma'
      have h' : (Except.ok (false, [("image", "app"), ("replicas", "2")]) :
          Except String (Bool × ExampleValues)) = .ok (true, valuesAgain) := h
      simp at h'))
  exact ⟨by rfl, key.1, key.2.2.1⟩

/-! ## The entrypoint hash -/

/-- Appending the tokens of a list one after the other to a string appends
their concatenation. -/
theorem foldl_append_eq_join (tokens : List String) (init : String) :
    tokens.foldl (fun acc str => acc ++ str) init = init ++ String.join tokens := by
  induction tokens generalizing init with
  | nil =>
    show init = init ++ ""
    rw [String.append_empty]
  | cons token rest ih =>
    have hjoin : String.join (token :: rest) = token ++ String.join rest := by
      show rest.foldl (fun acc str => acc ++ str) ("" ++ token) = token ++ String.join rest
      rw [ih, String.empty_append]
    rw [List.foldl_cons, ih, hjoin, String.append_assoc]

/-- The concatenation of two lists of tokens is the concatenation of the
first followed by that of the second. -/
theorem join_append (first second : List String) :
    String.join (first ++ second) = String.join first ++ String.join second := by
  show (first ++ second).foldl (fun acc str => acc ++ str) "" = _
  rw [List.foldl_append, foldl_append_eq_join first "", String.empty_append,
    foldl_append_eq_join second]

/-- The entrypoint hash in terms of the concatenation of the entrypoint
tokens followed by the cmd tokens: empty when the concatenation is empty, its
hash otherwise. -/
theorem entrypointHashOf_eq (hashString : String → String) (entrypoint cmd : List String) :
    entrypointHashOf hashString entrypoint cmd
      = if String.join (entrypoint ++ cmd) = "" then ""
        else hashString (String.join (entrypoint ++ cmd)) := by
  have h1 : (if entrypoint.length > 0 then entrypoint.foldl (fun acc str => acc ++ str) ""
      else "") = String.join entrypoint := by
    cases entrypoint with
    | nil => rfl
    | cons token rest =>
      rw [if_pos (by simp)]
      rfl
  have h2 : ∀ start : String,
      (if cmd.length > 0 then cmd.foldl (fun acc str => acc ++ str) start else start)
        = start ++ String.join cmd := by
    intro start
    cases cmd with
    | nil =>
      show start = start ++ ""
      rw [String.append_empty]
    | cons token rest =>
      rw [if_pos (by simp)]
      exact foldl_append_eq_join (token :: rest) start
  unfold entrypointHashOf
  simp only [h1, h2, join_append]
  by_cases hempty : String.join entrypoint ++ String.join cmd = ""
  · simp [hempty]
  · simp [hempty]

/-- Tokens that are all empty concatenate to the empty string. -/
theorem join_eq_empty_of_all_empty (tokens : List String) (h : ∀ token ∈ tokens, token = "") :
    String.join tokens = "" := by
  induction tokens with
  | nil => rfl
  | cons token rest ih =>
    have hjoin : String.join (token :: rest) = token ++ String.join rest := by
      show rest.foldl (fun acc str => acc ++ str) ("" ++ token) = token ++ String.join rest
      rw [foldl_append_eq_join, String.empty_append]
    rw [hjoin, h token (List.mem_cons_self _ _),
      ih (fun t ht => h t (List.mem_cons_of_mem _ ht))]
    rfl

/-- C24, as stated, fails: an entrypoint that is set to the single empty token
gives the empty entrypoint hash, which a forced ShouldRebuild writes into the
record, and not the hash of the empty concatenation. -/
theorem entrypointHash_of_empty_token :
    entrypointHashOf exampleBuildEnv.hashString [""] [] = ""
      ∧ exampleBuildEnv.hashString (String.join ([""] ++ [])) = "sha:"
      ∧ (ShouldRebuild exampleBuildEnv { exampleBuildHelper with Entrypoint := [""], Cmd := [] }
          exampleStaleCache true).imageCache.EntrypointHash = "" :=
  ⟨by rfl, by rfl, by rfl⟩

/-- C24, amended: the entrypoint hash computed by ShouldRebuild is the empty
string when the concatenation of all entrypoint tokens followed by all cmd
tokens is empty, as it is when both lists are unset, and in every other case
is the string hash of that concatenation. -/
theorem entrypointHashOf_spec (hashString : String → String) (entrypoint cmd : List String) :
    entrypointHashOf hashString [] [] = ""
      ∧ (String.join (entrypoint ++ cmd) = "" → entrypointHashOf hashString entrypoint cmd = "")
      ∧ (String.join (entrypoint ++ cmd) ≠ "" →
          entrypointHashOf hashString entrypoint cmd
            = hashString (String.join (entrypoint ++ cmd))) := by
  refine ⟨rfl, fun h => ?_, fun h => ?_⟩
  · rw [entrypointHashOf_eq, if_pos h]
  · rw [entrypointHashOf_eq, if_neg h]

/-- C28: two pairs of entrypoint and cmd tokens that concatenate to the same
string have the same entrypoint hash, as the entrypoint a, b without cmd, the
entrypoint a with the cmd b and the entrypoint ab without cmd do; and tokens
that are all empty give the entrypoint hash of unset lists, the empty
string. -/
theorem entrypointHash_split_invariant (hashString : String → String)
    (entrypoint cmd entrypoint' cmd' : List String) :
    (String.join (entrypoint ++ cmd) = String.join (entrypoint' ++ cmd') →
        entrypointHashOf hashString entrypoint cmd = entrypointHashOf hashString entrypoint' cmd')
      ∧ entrypointHashOf hashString ["a", "b"] [] = entrypointHashOf hashString ["a"] ["b"]
      ∧ entrypointHashOf hashString ["a"] ["b"] = entrypointHashOf hashString ["ab"] []
      ∧ ((∀ token ∈ entrypoint ++ cmd, token = "") →
          entrypointHashOf hashString entrypoint cmd = entrypointHashOf hashString [] []
            ∧ entrypointHashOf hashString entrypoint cmd = "") := by
  refine ⟨fun h => ?_, ?_, ?_, fun h => ?_⟩
  · rw [entrypointHashOf_eq, entrypointHashOf_eq, h]
  · rw [entrypointHashOf_eq, entrypointHashOf_eq]
    rfl
  · rw [entrypointHashOf_eq, entrypointHashOf_eq]
    rfl
  · have hempty := join_eq_empty_of_all_empty (entrypoint ++ cmd) h
    rw [entrypointHashOf_eq, if_pos hempty]
    exact ⟨rfl, rfl⟩

/-- The witness of C28: the entrypoint sh, -c without cmd and the entrypoint
sh with the cmd -c have the same hash, and so have empty tokens and unset
lists. -/
theorem entrypointHash_split_invariant_witness :
    entrypointHashOf exampleBuildEnv.hashString ["sh", "-c"] []
        = entrypointHashOf exampleBuildEnv.hashString ["sh"] ["-c"]
      ∧ entrypointHashOf exampleBuildEnv.hashString ["", ""] [""]
        = entrypointHashOf exampleBuildEnv.hashString [] [] :=
  ⟨(entrypointHash_split_invariant exampleBuildEnv.hashString ["sh", "-c"] [] ["sh"] ["-c"]).1
      (by rfl),
    ((entrypointHash_split_invariant exampleBuildEnv.hashString ["", ""] [""] [] []).2.2.2
      (by decide)).1⟩

/-! ## The force flag and the strategy Always -/

/-- C25: the calls of ShouldRebuild with and without the force flag return the
same decision and the same error and leave the same image name and tag; the
record the unforced call leaves is the record as it was or the record the
forced call leaves, so the flag decides only whether the hashes are
written. -/
theorem shouldRebuild_force_irrelevant (env : BuildEnv) (b : BuildHelper)
    (imageCache : ImageCache) :
    (ShouldRebuild env b imageCache true).mustRebuild
        = (ShouldRebuild env b imageCache false).mustRebuild
      ∧ (ShouldRebuild env b imageCache true).err = (ShouldRebuild env b imageCache false).err
      ∧ (ShouldRebuild env b imageCache true).imageCache.Tag = imageCache.Tag
      ∧ (ShouldRebuild env b imageCache true).imageCache.ImageName = imageCache.ImageName
      ∧ ((ShouldRebuild env b imageCache false).imageCache = imageCache
          ∨ (ShouldRebuild env b imageCache false).imageCache
            = (ShouldRebuild env b imageCache true).imageCache) := by
  by_cases hs : b.RebuildStrategy = .Always
  · unfold ShouldRebuild
    simp only [if_pos hs]
    exact ⟨trivial, trivial, trivial, trivial, Or.inl trivial⟩
  · cases hst : env.stat b.DockerfilePath with
    | some e =>
      unfold ShouldRebuild
      simp only [if_neg hs, hst]
      exact ⟨trivial, trivial, trivial, trivial, Or.inl trivial⟩
    | none =>
      cases hd : env.hashDirectory b.DockerfilePath with
      | error e =>
        unfold ShouldRebuild
        simp only [if_neg hs, hst, hd]
        exact ⟨trivial, trivial, trivial, trivial, Or.inl trivial⟩
      | ok dh =>
        cases hm : env.marshalImageConf with
        | error e =>
          unfold ShouldRebuild
          simp only [if_neg hs, hst, hd, hm]
          exact ⟨trivial, trivial, trivial, trivial, Or.inl trivial⟩
        | ok cs =>
          by_cases hi : b.RebuildStrategy = .IgnoreContextChanges
          · rw [shouldRebuild_eq_of_ignore env b imageCache true dh cs hi hst hd hm,
              shouldRebuild_eq_of_ignore env b imageCache false dh cs hi hst hd hm]
            refine ⟨rfl, rfl, rfl, rfl, ?_⟩
            cases hb : rebuildBeforeContext env b imageCache dh cs
            · exact Or.inl rfl
            · exact Or.inr rfl
          · cases hc : contextHashOf env b with
            | error e =>
              unfold ShouldRebuild
              simp only [if_neg hs, hst, hd, hm, if_pos hi, hc]
              exact ⟨trivial, trivial, trivial, trivial, Or.inl trivial⟩
            | ok ch =>
              rw [shouldRebuild_eq_of_context env b imageCache true dh cs ch hs hi hst hd hm hc,
                shouldRebuild_eq_of_context env b imageCache false dh cs ch hs hi hst hd hm hc]
              refine ⟨rfl, rfl, rfl, rfl, ?_⟩
              cases hb : (rebuildBeforeContext env b imageCache dh cs
                || imageCache.ContextHash != ch)
              · exact Or.inl rfl
              · exact Or.inr rfl

/-- C26: under the strategy Always, ShouldRebuild decides to rebuild and
leaves the image cache record, and so its tag and its four hashes, as it was,
for every force flag. -/
theorem shouldRebuild_always_frame (env : BuildEnv) (b : BuildHelper) (imageCache : ImageCache)
    (forceRebuild : Bool) (hs : b.RebuildStrategy = .Always) :
    (ShouldRebuild env b imageCache forceRebuild).mustRebuild = true
      ∧ (ShouldRebuild env b imageCache forceRebuild).imageCache = imageCache
      ∧ (ShouldRebuild env b imageCache forceRebuild).imageCache.Tag = imageCache.Tag
      ∧ (ShouldRebuild env b imageCache forceRebuild).imageCache.DockerfileHash
          = imageCache.DockerfileHash
      ∧ (ShouldRebuild env b imageCache forceRebuild).imageCache.ImageConfigHash
          = imageCache.ImageConfigHash
      ∧ (ShouldRebuild env b imageCache forceRebuild).imageCache.ContextHash
          = imageCache.ContextHash
      ∧ (ShouldRebuild env b imageCache forceRebuild).imageCache.EntrypointHash
          = imageCache.EntrypointHash := by
  unfold ShouldRebuild
  rw [if_pos hs]
  exact ⟨rfl, rfl, rfl, rfl, rfl, rfl, rfl⟩

/-- The witness of C26: a forced call under Always on a stale record, in an
environment where every step would succeed. -/
theorem shouldRebuild_always_frame_witness :
    (ShouldRebuild exampleBuildEnv { exampleBuildHelper with RebuildStrategy := .Always }
        exampleStaleCache true).mustRebuild = true
      ∧ (ShouldRebuild exampleBuildEnv { exampleBuildHelper with RebuildStrategy := .Always }
          exampleStaleCache true).imageCache = exampleStaleCache := by
  have key := shouldRebuild_always_frame exampleBuildEnv
    { exampleBuildHelper with RebuildStrategy := .Always } exampleStaleCache true rfl
  exact ⟨key.1, key.2.1⟩

/-! ## When the release list is consulted -/

/-- The client calls of `deployWith` start with the release listing when the
flag after line 73 is unset, and have no release listing when it is set. -/
theorem deployWith_calls {V : Type} (env : HelmEnv V) (d : DeployConfig V)
    (deployCache : DeploymentCache) (helm : HelmClient V) (dch hash oh : String)
    (forceDeploy : Bool) (builtImages : BuiltImages) :
    (forceOrChanged deployCache forceDeploy dch hash oh = true →
        (deployWith env d deployCache helm dch hash oh forceDeploy builtImages).calls
          = (internalDeploy env d helm true builtImages false).calls)
      ∧ (forceOrChanged deployCache forceDeploy dch hash oh = false →
          ∃ rest, (deployWith env d deployCache helm dch hash oh forceDeploy builtImages).calls
            = .ListReleases :: rest) := by
  constructor
  · intro hf
    unfold deployWith
    simp only [hf, checkReleases_of_forced]
    cases he : (internalDeploy env d helm true builtImages false).err with
    | some e => simp only [List.nil_append]
    | none =>
      simp only [List.nil_append]
      split <;> rfl
  · intro hf
    unfold deployWith
    rw [hf]
    cases hl : helm.ListReleases.2 with
    | some e =>
      simp only [checkReleases_of_list_error helm d.Name deployCache.HelmReleaseRevision e hl]
      exact ⟨[], rfl⟩
    | none =>
      simp only [checkReleases_of_listed helm d.Name deployCache.HelmReleaseRevision hl]
      cases he : (internalDeploy env d helm
          (noMatchingRelease helm.ListReleases.1 d.Name deployCache.HelmReleaseRevision)
          builtImages false).err with
      | some e => exact ⟨_, rfl⟩
      | none =>
        simp only
        split <;> exact ⟨_, rfl⟩

/-- The client calls of `internalDeploy` are template and install calls, never
the release listing. -/
theorem internalDeploy_calls_no_listing {V : Type} (env : HelmEnv V) (d : DeployConfig V)
    (helm : HelmClient V) (forceDeploy : Bool) (builtImages : BuiltImages) (out : Bool) :
    HelmCall.ListReleases ∉ (internalDeploy env d helm forceDeploy builtImages out).calls := by
  intro hmem
  cases hm : mergedValues env d with
  | error e =>
    rw [internalDeploy_eq_of_values_error env d helm forceDeploy builtImages out e
      (Or.inl hm)] at hmem
    cases hmem
  | ok merged =>
    cases hr : replaceImages env d builtImages merged with
    | error e =>
      rw [internalDeploy_eq_of_values_error env d helm forceDeploy builtImages out e
        (Or.inr ⟨merged, hm, hr⟩)] at hmem
      cases hmem
    | ok pr =>
      obtain ⟨shouldRedeploy, values⟩ := pr
      rw [internalDeploy_eq env d helm forceDeploy builtImages out merged values shouldRedeploy
        hm hr] at hmem
      by_cases hf : (forceDeploy || shouldRedeploy) = true
      · rw [if_pos hf] at hmem
        cases out with
        | true =>
          rw [if_pos rfl] at hmem
          cases ht : helm.Template d.Name d.Namespace values <;> rw [ht] at hmem <;>
            cases List.mem_singleton.mp hmem
        | false =>
          rw [if_neg (by decide)] at hmem
          cases hi : helm.InstallChart d.Name d.Namespace values <;> rw [hi] at hmem <;>
            cases List.mem_singleton.mp hmem
      · rw [if_neg hf] at hmem
        cases hmem

/-- The flag after line 73 in terms of the computed hashes as `Deploy` gets
them: it is set exactly when the force flag is set or a computed hash is not
the cached one. -/
theorem forceOrChanged_of_hashes {V : Type} (env : HelmEnv V) (d : DeployConfig V)
    (deployCache : DeploymentCache) (forceDeploy : Bool) (dch hash oh : String)
    (h1 : chartHash env d = .ok hash) (h2 : overridesHash env d.ValuesFiles "" = .ok oh)
    (h3 : deploymentConfigHash env = .ok dch) :
    forceOrChanged deployCache forceDeploy dch hash oh = true ↔
      (forceDeploy = true
        ∨ overridesHash env d.ValuesFiles "" ≠ .ok deployCache.HelmOverridesHash
        ∨ chartHash env d ≠ .ok deployCache.HelmChartHash
        ∨ deploymentConfigHash env ≠ .ok deployCache.DeploymentConfigHash) := by
  rw [forceOrChanged_eq_true_iff, h1, h2, h3]
  simp only [ne_eq, Except.ok.injEq]
  constructor
  · rintro (h | h | h | h)
    · exact Or.inl h
    · exact Or.inr (Or.inl fun e => h e.symm)
    · exact Or.inr (Or.inr (Or.inl fun e => h e.symm))
    · exact Or.inr (Or.inr (Or.inr fun e => h e.symm))
  · rintro (h | h | h | h)
    · exact Or.inl h
    · exact Or.inr (Or.inl fun e => h e.symm)
    · exact Or.inr (Or.inr (Or.inl fun e => h e.symm))
    · exact Or.inr (Or.inr (Or.inr fun e => h e.symm))

/-- C27: when the force flag is set or one of the three cached hashes differs
from the computed one, chart Deploy makes no release-listing call and its
outcome is the same whatever the listing of the client returns; a
release-listing call is made only when force is unset and the three hashes
match, and then a failing listing makes Deploy return that error with
deployed = false and the record as it was. -/
theorem deploy_listing_only_when_unchanged {V : Type} (env : HelmEnv V) (d : DeployConfig V)
    (deployCache : DeploymentCache) (forceDeploy : Bool) (builtImages : BuiltImages)
    (helm : HelmClient V) (hclient : helmClient env d = .ok helm) :
    ((forceDeploy = true
        ∨ overridesHash env d.ValuesFiles "" ≠ .ok deployCache.HelmOverridesHash
        ∨ chartHash env d ≠ .ok deployCache.HelmChartHash
        ∨ deploymentConfigHash env ≠ .ok deployCache.DeploymentConfigHash) →
      HelmCall.ListReleases ∉ (Deploy env d deployCache forceDeploy builtImages).calls
        ∧ ∀ listing : List Release × Option String,
            (Deploy env { d with Helm := some { helm with ListReleases := listing } }
                deployCache forceDeploy builtImages).deployed
              = (Deploy env d deployCache forceDeploy builtImages).deployed
            ∧ (Deploy env { d with Helm := some { helm with ListReleases := listing } }
                deployCache forceDeploy builtImages).err
              = (Deploy env d deployCache forceDeploy builtImages).err
            ∧ (Deploy env { d with Helm := some { helm with ListReleases := listing } }
                deployCache forceDeploy builtImages).deployCache
              = (Deploy env d deployCache forceDeploy builtImages).deployCache
            ∧ (Deploy env { d with Helm := some { helm with ListReleases := listing } }
                deployCache forceDeploy builtImages).calls
              = (Deploy env d deployCache forceDeploy builtImages).calls)
      ∧ (HelmCall.ListReleases ∈ (Deploy env d deployCache forceDeploy builtImages).calls →
          forceDeploy = false
            ∧ overridesHash env d.ValuesFiles "" = .ok deployCache.HelmOverridesHash
            ∧ chartHash env d = .ok deployCache.HelmChartHash
            ∧ deploymentConfigHash env = .ok deployCache.DeploymentConfigHash)
      ∧ (∀ e, forceDeploy = false →
          overridesHash env d.ValuesFiles "" = .ok deployCache.HelmOverridesHash →
          chartHash env d = .ok deployCache.HelmChartHash →
          deploymentConfigHash env = .ok deployCache.DeploymentConfigHash →
          helm.ListReleases.2 = some e →
          Deploy env d deployCache forceDeploy builtImages
            = ⟨false, some e, deployCache, some helm, [.ListReleases]⟩) := by
  have hcalls_of_changed : ∀ hash oh dch, chartHash env d = .ok hash →
      overridesHash env d.ValuesFiles "" = .ok oh → deploymentConfigHash env = .ok dch →
      forceOrChanged deployCache forceDeploy dch hash oh = true →
      HelmCall.ListReleases ∉ (Deploy env d deployCache forceDeploy builtImages).calls := by
    intro hash oh dch h1 h2 h3 hfc
    rw [deploy_eq_deployWith env d deployCache forceDeploy builtImages helm dch hash oh h1 h2 h3
      hclient,
      (deployWith_calls env d deployCache helm dch hash oh forceDeploy builtImages).1 hfc]
    exact internalDeploy_calls_no_listing env d helm true builtImages false
  refine ⟨fun hchg => ⟨?_, fun listing => ?_⟩, fun hmem => ?_, ?_⟩
  · rcases deploy_steps_cases env d with hstep | ⟨hash, oh, dch, helm', h1, h2, h3, h4⟩
    · obtain ⟨e, he⟩ := deploy_eq_of_step_error env d deployCache forceDeploy builtImages hstep
      rw [he]
      exact List.not_mem_nil _
    · exact hcalls_of_changed hash oh dch h1 h2 h3
        ((forceOrChanged_of_hashes env d deployCache forceDeploy dch hash oh h1 h2 h3).mpr hchg)
  · have e1 : chartHash env { d with Helm := some { helm with ListReleases := listing } }
        = chartHash env d := rfl
    have e4 : helmClient env { d with Helm := some { helm with ListReleases := listing } }
        = .ok { helm with ListReleases := listing } := rfl
    unfold Deploy
    rw [e1, e4, hclient]
    cases h1 : chartHash env d with
    | error e => exact ⟨rfl, rfl, rfl, rfl⟩
    | ok hash =>
      cases h2 : overridesHash env d.ValuesFiles "" with
      | error e => exact ⟨rfl, rfl, rfl, rfl⟩
      | ok oh =>
        cases h3 : deploymentConfigHash env with
        | error e => exact ⟨rfl, rfl, rfl, rfl⟩
        | ok dch =>
          have hfc : forceOrChanged deployCache forceDeploy dch hash oh = true :=
            (forceOrChanged_of_hashes env d deployCache forceDeploy dch hash oh h1 h2 h3).mpr hchg
          have hsame : ∀ flag, internalDeploy env
              { d with Helm := some { helm with ListReleases := listing } }
              { helm with ListReleases := listing } flag builtImages false
                = internalDeploy env d helm flag builtImages false := fun _ => rfl
          unfold deployWith
          simp only [hfc, checkReleases_of_forced, hsame]
          cases he : (internalDeploy env d helm true builtImages false).err with
          | some e => exact ⟨rfl, rfl, rfl, rfl⟩
          | none =>
            cases hw : (internalDeploy env d helm true builtImages false).wasDeployed <;>
              exact ⟨rfl, rfl, rfl, rfl⟩
  · rcases deploy_steps_cases env d with hstep | ⟨hash, oh, dch, helm', h1, h2, h3, h4⟩
    · obtain ⟨e, he⟩ := deploy_eq_of_step_error env d deployCache forceDeploy builtImages hstep
      rw [he] at hmem
      cases hmem
    · cases hfc : forceOrChanged deployCache forceDeploy dch hash oh with
      | true => exact absurd hmem (hcalls_of_changed hash oh dch h1 h2 h3 hfc)
      | false =>
        have hnot := (forceOrChanged_of_hashes env d deployCache forceDeploy dch hash oh h1 h2
          h3).not.mp (by rw [hfc]; decide)
        simp only [not_or, not_not, Bool.not_eq_true] at hnot
        exact hnot
  · intro e hforce h2 h1 h3 hl
    subst hforce
    have hfc : forceOrChanged deployCache false deployCache.DeploymentConfigHash
        deployCache.HelmChartHash deployCache.HelmOverridesHash = false := by
      rw [← Bool.not_eq_true, forceOrChanged_eq_true_iff]
      rintro (h | h | h | h)
      · cases h
      · exact h rfl
      · exact h rfl
      · exact h rfl
    rw [deploy_eq_deployWith env d deployCache false builtImages helm _ _ _ h1 h2 h3 hclient]
    unfold deployWith
    simp only [hfc, checkReleases_of_list_error helm d.Name deployCache.HelmReleaseRevision e hl]

/-- The witness of C27: a forced deploy with a client whose release listing
fails returns no error and lists no release, and the unforced deploy on
current hashes returns the error of the listing. -/
theorem deploy_listing_only_when_unchanged_witness :
    (Deploy exampleHelmEnv
        { exampleDeployConfig with
          Helm := some { exampleHelmClient with ListReleases := ([], some "cluster unreachable") } }
        exampleDeployCache true []).err = none
      ∧ HelmCall.ListReleases ∉ (Deploy exampleHelmEnv
          { exampleDeployConfig with
            Helm := some { exampleHelmClient with
              ListReleases := ([], some "cluster unreachable") } }
          exampleDeployCache true []).calls
      ∧ Deploy exampleHelmEnv
          { exampleDeployConfig with
            Helm := some { exampleHelmClient with
              ListReleases := ([], some "cluster unreachable") } }
          exampleDeployCache false []
        = ⟨false, some "cluster unreachable", exampleDeployCache,
            some { exampleHelmClient with ListReleases := ([], some "cluster unreachable") },
            [.ListReleases]⟩ := by
  have key := deploy_listing_only_when_unchanged exampleHelmEnv
    { exampleDeployConfig with
      Helm := some { exampleHelmClient with ListReleases := ([], some "cluster unreachable") } }
    exampleDeployCache true []
    { exampleHelmClient with ListReleases := ([], some "cluster unreachable") } rfl
  have key' := deploy_listing_only_when_unchanged exampleHelmEnv
    { exampleDeployConfig with
      Helm := some { exampleHelmClient with ListReleases := ([], some "cluster unreachable") } }
    exampleDeployCache false []
    { exampleHelmClient with ListReleases := ([], some "cluster unreachable") } rfl
  exact ⟨by rfl, (key.1 (Or.inl rfl)).1,
    key'.2.2 "cluster unreachable" rfl (by rfl) (by rfl) (by rfl) rfl⟩

/-! ## Properties of the generic chart client -/

/-- A string with a prefix is the prefix followed by the rest of the string,
and is at least as long as the prefix. -/
theorem hasPrefix_eq_append (s pre : String) (h : hasPrefix s pre = true) :
    pre.length ≤ s.length ∧ s = pre ++ ⟨s.data.drop pre.length⟩ := by
  unfold hasPrefix at h
  rw [List.isPrefixOf_iff_prefix] at h
  cases s with
  | mk sdata =>
    cases pre with
    | mk pdata =>
      refine ⟨h.length_le, ?_⟩
      have happ : pdata ++ sdata.drop pdata.length = sdata := List.prefix_iff_eq_append.mp h
      show String.mk sdata = String.mk (pdata ++ sdata.drop pdata.length)
      rw [happ]

/-- C29: ChartNameAndRepo never runs out of range; it returns the trimmed
chart name and the configured repo URL, except that for a trimmed name that
starts with stable/ and no configured repo URL it returns the name without
these seven characters and the URL of the stable chart repository; a
configured repo URL is returned as it is. -/
theorem chartNameAndRepo_spec (env : GenericEnv) (helmConfig : HelmConfig) :
    ChartNameAndRepo env helmConfig
        = some (if hasPrefix (env.TrimSpace helmConfig.Chart.Name) "stable/" = true
              ∧ helmConfig.Chart.RepoURL = "" then
            (⟨(env.TrimSpace helmConfig.Chart.Name).data.drop 7⟩, "https://charts.helm.sh/stable")
          else (env.TrimSpace helmConfig.Chart.Name, helmConfig.Chart.RepoURL))
      ∧ (hasPrefix (env.TrimSpace helmConfig.Chart.Name) "stable/" = true →
          env.TrimSpace helmConfig.Chart.Name
            = "stable/" ++ ⟨(env.TrimSpace helmConfig.Chart.Name).data.drop 7⟩)
      ∧ (helmConfig.Chart.RepoURL ≠ "" →
          ChartNameAndRepo env helmConfig
            = some (env.TrimSpace helmConfig.Chart.Name, helmConfig.Chart.RepoURL)) := by
  refine ⟨?_, fun hp => (hasPrefix_eq_append _ "stable/" hp).2, fun hrepo => ?_⟩
  · unfold ChartNameAndRepo
    by_cases hp : hasPrefix (env.TrimSpace helmConfig.Chart.Name) "stable/" = true
    · by_cases hrepo : helmConfig.Chart.RepoURL = ""
      · have hlen : 7 ≤ (env.TrimSpace helmConfig.Chart.Name).length :=
          (hasPrefix_eq_append _ "stable/" hp).1
        simp only [hp, hrepo, beq_self_eq_true, Bool.and_self, if_true, sliceFrom, hlen,
          and_self]
        rfl
      · have hb : (helmConfig.Chart.RepoURL == "") = false := beq_false_of_ne hrepo
        simp only [hp, hb, Bool.and_false, Bool.false_eq_true, if_false, hrepo, and_false]
    · have hb : hasPrefix (env.TrimSpace helmConfig.Chart.Name) "stable/" = false :=
        Bool.not_eq_true _ ▸ hp
      simp only [hb, Bool.false_and, Bool.false_eq_true, if_false, false_and]
  · unfold ChartNameAndRepo
    have hb : (helmConfig.Chart.RepoURL == "") = false := beq_false_of_ne hrepo
    simp only [hb, Bool.and_false, Bool.false_eq_true, if_false]

/-- A concrete run for C29: the name stable/mysql between blanks, without a
configured repo URL. -/
theorem chartNameAndRepo_spec_witness :
    ChartNameAndRepo exampleGenericEnv exampleStableConfig
        = some ("mysql", "https://charts.helm.sh/stable")
      ∧ ChartNameAndRepo exampleGenericEnv
          { exampleStableConfig with Chart := ⟨"stable/mysql", "", "https://my.repo", "", ""⟩ }
        = some ("stable/mysql", "https://my.repo") :=
  ⟨by rfl,
    (chartNameAndRepo_spec exampleGenericEnv
      { exampleStableConfig with Chart := ⟨"stable/mysql", "", "https://my.repo", "", ""⟩ }).2.2
      (by decide)⟩

/-- ChartNameAndRepo returns a pair for every config: its one slice is in
range. -/
theorem chartNameAndRepo_total (env : GenericEnv) (helmConfig : HelmConfig) :
    ∃ name repo, ChartNameAndRepo env helmConfig = some (name, repo) := by
  unfold ChartNameAndRepo
  by_cases hc : (hasPrefix (env.TrimSpace helmConfig.Chart.Name) "stable/"
      && helmConfig.Chart.RepoURL == "") = true
  · have hp : hasPrefix (env.TrimSpace helmConfig.Chart.Name) "stable/" = true := by
      cases hh : hasPrefix (env.TrimSpace helmConfig.Chart.Name) "stable/"
      · rw [hh] at hc
        simp at hc
      · rfl
    have hlen : 7 ≤ (env.TrimSpace helmConfig.Chart.Name).length :=
      (hasPrefix_eq_append _ "stable/" hp).1
    rw [if_pos hc]
    simp only [sliceFrom, hlen, if_true]
    exact ⟨_, _, rfl⟩
  · rw [if_neg hc]
    exact ⟨_, _, rfl⟩

/-- The successive appends of FetchChart give the argument list of the spec's
words. -/
theorem fetchChart_appends (base fetchArgs : List String) (version username password : String)
    (v2 : Bool) :
    (if !v2 then
        (if password ≠ "" then
          (if username ≠ "" then
            (if version ≠ "" then base ++ ["--version", version] else base)
              ++ ["--username", username]
          else (if version ≠ "" then base ++ ["--version", version] else base))
            ++ ["--password", password]
        else
          (if username ≠ "" then
            (if version ≠ "" then base ++ ["--version", version] else base)
              ++ ["--username", username]
          else (if version ≠ "" then base ++ ["--version", version] else base)))
          ++ ["--repository-config=''"]
      else
        (if password ≠ "" then
          (if username ≠ "" then
            (if version ≠ "" then base ++ ["--version", version] else base)
              ++ ["--username", username]
          else (if version ≠ "" then base ++ ["--version", version] else base))
            ++ ["--password", password]
        else
          (if username ≠ "" then
            (if version ≠ "" then base ++ ["--version", version] else base)
              ++ ["--username", username]
          else (if version ≠ "" then base ++ ["--version", version] else base))))
        ++ fetchArgs
      = base
        ++ (if version = "" then [] else ["--version", version])
        ++ (if username = "" then [] else ["--username", username])
        ++ (if password = "" then [] else ["--password", password])
        ++ (if v2 = true then [] else ["--repository-config=''"])
        ++ fetchArgs := by
  cases v2 <;>
    by_cases hv : version = "" <;>
    by_cases hu : username = "" <;>
    by_cases hp : password = "" <;>
    simp [hv, hu, hp]

/-- FetchChart after the chart name and the repository are resolved and a
temporary folder is made: the call of Exec with the argument list of the
spec's words decides the result. -/
theorem fetchChart_eq_of_tempDir (env : GenericEnv) (helmPath : String) (helmConfig : HelmConfig)
    (name repo tempDir : String)
    (hname : ChartNameAndRepo env helmConfig = some (name, repo)) (hrepo : repo ≠ "")
    (htemp : env.TempDir = .ok tempDir) :
    FetchChart env helmPath helmConfig
      = match (Exec env helmPath (fetchArguments name repo tempDir helmConfig)
            (some helmConfig)).err with
        | some e =>
          some ⟨false, "",
            some ("error running helm fetch: "
              ++ (Exec env helmPath (fetchArguments name repo tempDir helmConfig)
                    (some helmConfig)).out.getD ""
              ++ " => " ++ e),
            some (fetchArguments name repo tempDir helmConfig),
            (Exec env helmPath (fetchArguments name repo tempDir helmConfig)
              (some helmConfig)).ran,
            some tempDir,
            (Exec env helmPath (fetchArguments name repo tempDir helmConfig)
              (some helmConfig)).helmPath⟩
        | none =>
          some ⟨true, env.filepathJoin tempDir name, none,
            some (fetchArguments name repo tempDir helmConfig),
            (Exec env helmPath (fetchArguments name repo tempDir helmConfig)
              (some helmConfig)).ran,
            none,
            (Exec env helmPath (fetchArguments name repo tempDir helmConfig)
              (some helmConfig)).helmPath⟩ := by
  have hb : (repo == "") = false := beq_false_of_ne hrepo
  unfold FetchChart
  simp only [hname, hb, htemp, Bool.false_eq_true, if_false]
  rw [fetchChart_appends]
  rfl

/-- C30: FetchChart returns for every config. A chart with no resolved
repository is local: the result is (false, chart name, no error), Exec is not
called and no process is run. Otherwise, when the temporary folder cannot be
made, the result is (false, empty path, that error) and no process is run; and
when it is made, the argument list handed to Exec is the seven fixed arguments,
then version, username and password for each that is non-empty, then the
repository config when the config is not helm v2, then the user's fetch
arguments; when Exec returns no error the result is (true, folder joined with
the chart name, no error), and when it returns an error the result is (false,
empty path, an error) and the folder is removed. -/
theorem fetchChart_spec (env : GenericEnv) (helmPath : String) (helmConfig : HelmConfig) :
    ∃ name repo, ChartNameAndRepo env helmConfig = some (name, repo)
      ∧ (repo = "" →
          FetchChart env helmPath helmConfig
            = some ⟨false, name, none, none, none, none, helmPath⟩)
      ∧ (repo ≠ "" → ∀ e, env.TempDir = .error e →
          FetchChart env helmPath helmConfig
            = some ⟨false, "", some e, none, none, none, helmPath⟩)
      ∧ (repo ≠ "" → ∀ tempDir, env.TempDir = .ok tempDir →
          ∃ r, FetchChart env helmPath helmConfig = some r
            ∧ r.execArgs
                = some (["fetch", name, "--repo", repo, "--untar", "--untardir", tempDir]
                    ++ (if helmConfig.Chart.Version = "" then []
                        else ["--version", helmConfig.Chart.Version])
                    ++ (if helmConfig.Chart.Username = "" then []
                        else ["--username", helmConfig.Chart.Username])
                    ++ (if helmConfig.Chart.Password = "" then []
                        else ["--password", helmConfig.Chart.Password])
                    ++ (if helmConfig.V2 = true then [] else ["--repository-config=''"])
                    ++ helmConfig.FetchArgs)
            ∧ r.ran = (Exec env helmPath (fetchArguments name repo tempDir helmConfig)
                        (some helmConfig)).ran
            ∧ ((Exec env helmPath (fetchArguments name repo tempDir helmConfig)
                  (some helmConfig)).err = none →
                r.fetched = true ∧ r.path = env.filepathJoin tempDir name ∧ r.err = none
                  ∧ r.removed = none)
            ∧ (∀ e, (Exec env helmPath (fetchArguments name repo tempDir helmConfig)
                  (some helmConfig)).err = some e →
                r.fetched = false ∧ r.path = ""
                  ∧ r.err = some ("error running helm fetch: "
                      ++ (Exec env helmPath (fetchArguments name repo tempDir helmConfig)
                            (some helmConfig)).out.getD ""
                      ++ " => " ++ e)
                  ∧ r.removed = some tempDir)) := by
  obtain ⟨name, repo, hname⟩ := chartNameAndRepo_total env helmConfig
  refine ⟨name, repo, hname, ?_, ?_, ?_⟩
  · intro hrepo
    unfold FetchChart
    simp only [hname, hrepo, beq_self_eq_true, if_true]
  · intro hrepo e he
    have hb : (repo == "") = false := beq_false_of_ne hrepo
    unfold FetchChart
    simp only [hname, hb, he, Bool.false_eq_true, if_false]
  · intro hrepo tempDir htemp
    rw [fetchChart_eq_of_tempDir env helmPath helmConfig name repo tempDir hname hrepo htemp]
    cases herr : (Exec env helmPath (fetchArguments name repo tempDir helmConfig)
        (some helmConfig)).err with
    | none =>
      refine ⟨_, rfl, rfl, rfl, fun _ => ⟨rfl, rfl, rfl, rfl⟩, fun e he => ?_⟩
      cases he
    | some e0 =>
      refine ⟨_, rfl, rfl, rfl, fun h => ?_, fun e he => ?_⟩
      · cases h
      · cases he
        exact ⟨rfl, rfl, rfl, rfl⟩

/-- A concrete run for C30: the chart stable/mysql at version 1.6.2 is fetched
from the stable repository into the temporary folder, and a chart without a
repository is local. -/
theorem fetchChart_spec_witness :
    (∃ name repo, ChartNameAndRepo exampleGenericEnv exampleStableConfig = some (name, repo))
      ∧ FetchChart exampleGenericEnv "" exampleStableConfig
        = some ⟨true, "/tmp/fetch1/mysql", none,
            some ["fetch", "mysql", "--repo", "https://charts.helm.sh/stable", "--untar",
              "--untardir", "/tmp/fetch1", "--version", "1.6.2", "--repository-config=''",
              "--devel"],
            some ("/usr/bin/helm",
              ["fetch", "mysql", "--repo", "https://charts.helm.sh/stable", "--untar",
                "--untardir", "/tmp/fetch1", "--version", "1.6.2", "--repository-config=''",
                "--devel", "--kube-context", "minikube"]),
            none, "/usr/bin/helm"⟩
      ∧ FetchChart exampleGenericEnv ""
          { exampleStableConfig with Chart := ⟨"./chart", "", "", "", ""⟩ }
        = some ⟨false, "./chart", none, none, none, none, ""⟩ :=
  ⟨(fetchChart_spec exampleGenericEnv "" exampleStableConfig).imp
      (fun _ h => h.imp (fun _ h2 => h2.1)),
    by rfl, by rfl⟩

/-! ## Properties of the deployment controller -/

/-- An operation on a selected deployment whose dispatch gives an error halts
with it. -/
theorem runOperation_cons_err {C : Type} (env : ControllerEnv C) (op : Operation)
    (allow : List String) (d : DeploymentSpec) (rest : List DeploymentSpec)
    (st st1 : ControllerState C) (e : String)
    (hsel : selected allow d = true) (hd : dispatch env op d st = ⟨some e, st1⟩) :
    runOperation env op allow (d :: rest) st = ⟨some e, st1⟩ := by
  rw [runOperation, if_pos hsel, hd]

/-- An operation on a selected deployment whose dispatch gives no error goes
on with the other deployments. -/
theorem runOperation_cons_ok {C : Type} (env : ControllerEnv C) (op : Operation)
    (allow : List String) (d : DeploymentSpec) (rest : List DeploymentSpec)
    (st st1 : ControllerState C)
    (hsel : selected allow d = true) (hd : dispatch env op d st = ⟨none, st1⟩) :
    runOperation env op allow (d :: rest) st = runOperation env op allow rest st1 := by
  rw [runOperation, if_pos hsel, hd]

/-- An operation goes past a deployment that is not selected. -/
theorem runOperation_cons_skip {C : Type} (env : ControllerEnv C) (op : Operation)
    (allow : List String) (d : DeploymentSpec) (rest : List DeploymentSpec)
    (st : ControllerState C) (hsel : selected allow d = false) :
    runOperation env op allow (d :: rest) st = runOperation env op allow rest st := by
  rw [runOperation, hsel]
  rfl

/-- An operation over two lists of deployments in a row: when the first list
ends in an error the operation halts there, otherwise it goes on with the
second list from the state the first one left. -/
theorem runOperation_append {C : Type} (env : ControllerEnv C) (op : Operation)
    (allow : List String) (pre rest : List DeploymentSpec) (st : ControllerState C) :
    runOperation env op allow (pre ++ rest) st
      = match (runOperation env op allow pre st).err with
        | some _ => runOperation env op allow pre st
        | none => runOperation env op allow rest (runOperation env op allow pre st).state := by
  induction pre generalizing st with
  | nil => rfl
  | cons d pre ih =>
    rw [List.cons_append]
    cases hsel : selected allow d with
    | true =>
      rcases hd : dispatch env op d st with ⟨err, st1⟩
      cases err with
      | some e =>
        rw [runOperation_cons_err env op allow d (pre ++ rest) st st1 e hsel hd,
          runOperation_cons_err env op allow d pre st st1 e hsel hd]
      | none =>
        rw [runOperation_cons_ok env op allow d (pre ++ rest) st st1 hsel hd,
          runOperation_cons_ok env op allow d pre st st1 hsel hd]
        exact ih st1
    | false =>
      rw [runOperation_cons_skip env op allow d (pre ++ rest) st hsel,
        runOperation_cons_skip env op allow d pre st hsel]
      exact ih st

/-- A deployment absent from a non-empty allow-list is not selected. -/
theorem selected_eq_false {allow : List String} {d : DeploymentSpec} (hne : allow ≠ [])
    (habs : d.Name ∉ allow) : selected allow d = false := by
  unfold selected
  have h1 : allow.isEmpty = false := by
    cases allow with
    | nil => exact absurd rfl hne
    | cons a l => rfl
  have h2 : allow.contains d.Name = false := by
    cases hc : allow.contains d.Name
    · rfl
    · exact absurd (List.elem_iff.mp hc) habs
  rw [h1, h2]
  rfl

/-- C21: the operation names are "error render: ", "error deploying: " and
"error purging: "; an empty name list selects every deployment; and for each
operation, when the deployments handled before it gave no error, a selected
deployment that carries neither backend makes the operation return the
operation name followed by "deployment NAME has no deployment method", in the
state those earlier deployments left: no engine is dispatched, no hash is
computed, no process is run and the cache store is not written for it, and the
deployments after it are not handled. -/
theorem runOperation_no_method {C : Type} (env : ControllerEnv C) (op : Operation)
    (allow : List String) (pre rest : List DeploymentSpec) (d : DeploymentSpec)
    (st : ControllerState C)
    (hpre : (runOperation env op allow pre st).err = none)
    (hsel : selected allow d = true) (hnone : d.Backend = none) :
    runOperation env op allow (pre ++ d :: rest) st
        = ⟨some (operationPrefix op ++ ("deployment " ++ d.Name ++ " has no deployment method")),
            (runOperation env op allow pre st).state⟩
      ∧ operationPrefix .Render = "error render: "
      ∧ operationPrefix .Deploy = "error deploying: "
      ∧ operationPrefix .Purge = "error purging: "
      ∧ (∀ d0 : DeploymentSpec, selected [] d0 = true) := by
  refine ⟨?_, rfl, rfl, rfl, fun _ => rfl⟩
  rw [runOperation_append, hpre]
  refine runOperation_cons_err env op allow d rest _ _ _ hsel ?_
  unfold dispatch
  rw [hnone]

/-- A concrete run for C21: the deployment noMethod of the test cases, under
a purge with an empty name list and after a deployment with a manifest
backend. -/
theorem runOperation_no_method_witness :
    (runOperation exampleControllerEnv .Purge [] [exampleKubectlDeployment]
        exampleControllerState).err = none
      ∧ selected [] exampleNoMethod = true
      ∧ exampleNoMethod.Backend = none
      ∧ runOperation exampleControllerEnv .Purge []
          ([exampleKubectlDeployment] ++ exampleNoMethod :: [exampleKubectlDeployment])
          exampleControllerState
        = ⟨some "error purging: deployment noMethod has no deployment method",
            ⟨["kubectlPurge"], ["kubectlDeploy"], ["kubectlDeploy"],
              ["error purging: kubectlDeploy"]⟩⟩ :=
  ⟨rfl, rfl, rfl,
    (runOperation_no_method exampleControllerEnv .Purge [] [exampleKubectlDeployment]
      [exampleKubectlDeployment] exampleNoMethod exampleControllerState rfl rfl rfl).1.trans
      (by decide)⟩

/-- C22: for each operation, a deployment whose name is absent from a
non-empty allow-list is skipped, whatever backend it carries or lacks: the
operation over the deployments with it equals the operation over the
deployments without it, error and state alike, and on that deployment alone it
returns no error and leaves the cache store, the dispatched engines, the
computed hashes and the run processes as they were. -/
theorem runOperation_skips_unlisted {C : Type} (env : ControllerEnv C) (op : Operation)
    (allow : List String) (pre rest : List DeploymentSpec) (d : DeploymentSpec)
    (st : ControllerState C)
    (hne : allow ≠ []) (habs : d.Name ∉ allow) :
    runOperation env op allow (pre ++ d :: rest) st = runOperation env op allow (pre ++ rest) st
      ∧ runOperation env op allow [d] st = ⟨none, st⟩ := by
  have hsel : selected allow d = false := selected_eq_false hne habs
  have hstep : ∀ (l : List DeploymentSpec) (st0 : ControllerState C),
      runOperation env op allow (d :: l) st0 = runOperation env op allow l st0 :=
    fun l st0 => runOperation_cons_skip env op allow d l st0 hsel
  refine ⟨?_, ?_⟩
  · rw [runOperation_append, runOperation_append env op allow pre rest, hstep]
  · rw [hstep]
    rfl

/-- A concrete run for C22: the deployment skippedDeployment of the test
cases, which has no deployment method, under a deploy restricted to another
name. -/
theorem runOperation_skips_unlisted_witness :
    runOperation exampleControllerEnv .Deploy ["unskippedDeployment"]
        ([] ++ exampleSkipped :: []) exampleControllerState
      = runOperation exampleControllerEnv .Deploy ["unskippedDeployment"] ([] ++ [])
          exampleControllerState
      ∧ runOperation exampleControllerEnv .Deploy ["unskippedDeployment"] [exampleSkipped]
          exampleControllerState
        = ⟨none, exampleControllerState⟩ :=
  runOperation_skips_unlisted exampleControllerEnv .Deploy ["unskippedDeployment"] [] []
    exampleSkipped exampleControllerState (by decide) (by decide)

/-! ## Properties of the status of a manifest deployment -/

/-- C23: for every manifest deployer Status succeeds; the result has the
deployer's name, the type "Manifests" and the status "N/A"; its target is the
manifest-source identifier unchanged when that has at most 20 characters, and
otherwise its first 20 characters followed by "..."; the target never has more
than 23 characters. -/
theorem status_spec (d : ManifestDeployer) :
    ∃ r, Status d = .ok r
      ∧ r.Name = d.Name ∧ r.Kind = "Manifests" ∧ r.Status = "N/A"
      ∧ (d.Source.length ≤ 20 → r.Target = d.Source)
      ∧ (20 < d.Source.length → r.Target = (⟨d.Source.data.take 20⟩ : String) ++ "...")
      ∧ r.Target.length ≤ 23 := by
  refine ⟨_, rfl, rfl, rfl, rfl, fun hle => ?_, fun hlt => ?_, ?_⟩
  · show (if d.Source.length > 20 then _ else d.Source) = d.Source
    rw [if_neg (Nat.not_lt.mpr hle)]
  · show (if d.Source.length > 20 then _ else d.Source) = _
    rw [if_pos hlt]
  · show (if d.Source.length > 20 then (⟨d.Source.data.take 20⟩ : String) ++ "..."
        else d.Source).length ≤ 23
    by_cases h : d.Source.length > 20
    · rw [if_pos h, String.length_append]
      have h1 : (⟨d.Source.data.take 20⟩ : String).length ≤ 20 := by
        show (d.Source.data.take 20).length ≤ 20
        rw [List.length_take]
        exact Nat.min_le_left _ _
      have h2 : "...".length = 3 := rfl
      omega
    · rw [if_neg h]
      omega

/-- A concrete run for C23: the deployer of TestStatus, whose one manifest has
58 characters. -/
theorem status_spec_witness :
    (∃ r, Status exampleManifestDeployer = .ok r ∧ r.Target.length ≤ 23)
      ∧ Status exampleManifestDeployer
        = .ok ⟨"longManifestDeployer", "Manifests", "ThatIsAVeryLongManif...", "N/A"⟩
      ∧ Status ⟨"short", "manifests/app.yaml"⟩
        = .ok ⟨"short", "Manifests", "manifests/app.yaml", "N/A"⟩ :=
  ⟨(status_spec exampleManifestDeployer).imp (fun _ h => ⟨h.1, h.2.2.2.2.2.2⟩),
    by rfl, by rfl⟩

end Devspace
